import Mathlib

/-!
# Syndicate user gateway: the inode write path

A shallow embedding of the inode operations of `src/UG2/inode.cpp`
(manifest merge, dirty-block commit, truncate, extraction of the modified
blocks, import of metadata), of the fsync pipeline of `src/UG2/sync.cpp` and
of the dispatcher of `src/UG2/client.h`, together with the manifest
primitives they call.

Conventions of the embedding.

* A `std::map<uint64_t, T>` of blocks is the list of its values in key
  order. The gateway files every block under the id the block itself carries
  (`m[ id_of( v ) ] = v`), so the key of a slot is read off its value
  (`has_block_id`); `map_find` is `find`, `map_put` is `m[ id_of( v ) ] = v`,
  `map_erase` is `erase`.
* Block ids, sizes and file ids are `Nat`; versions and time fields are `Int`.
* A call that may run out of memory takes a `Bool` that says whether the
  allocation fails; the C return code is an `Int` (`0` or a negated errno).
* The block cache is an external collaborator: the requests sent to it are
  collected in a list of `cache_op`, oldest first.
-/

namespace Syndicate

/-! ## errno values -/

/-- Out of memory. -/
def ENOMEM : Int := 12

/-- Invalid argument. -/
def EINVAL : Int := 22

/-- Entry already exists. -/
def EEXIST : Int := 17

/-- Input/output error. -/
def EIO : Int := 5

/-- Connection timed out. -/
def ETIMEDOUT : Int := 110

/-! ## Ordered maps keyed by a block id -/

/-- The values of a map of blocks carry the id they are filed under. -/
class has_block_id (β : Type) where
  /-- The id a value is filed under. -/
  id_of : β → Nat

/-- Lookup of a key: `std::map::find`. -/
def map_find {β : Type} [has_block_id β] (k : Nat) : List β → Option β
  | [] => none
  | v :: t => if has_block_id.id_of v = k then some v else map_find k t

/-- Assignment `m[ id_of( v ) ] = v`: overwrites the slot of that id when
there is one, otherwise adds a slot at the place the key order gives it. -/
def map_put {β : Type} [has_block_id β] (v : β) : List β → List β
  | [] => [v]
  | w :: t =>
    if has_block_id.id_of w = has_block_id.id_of v then v :: t
    else if has_block_id.id_of v < has_block_id.id_of w then v :: w :: t
    else w :: map_put v t

/-- Removal of a key: `std::map::erase`. -/
def map_erase {β : Type} [has_block_id β] (k : Nat) : List β → List β
  | [] => []
  | v :: t => if has_block_id.id_of v = k then map_erase k t else v :: map_erase k t

/-- The keys of a map, in iteration order. -/
def map_keys {β : Type} [has_block_id β] (m : List β) : List Nat :=
  m.map has_block_id.id_of

/-- The keys of a map are in strictly increasing order, as the keys of a
`std::map` are: each key is held once. -/
def map_sorted {β : Type} [has_block_id β] (m : List β) : Prop :=
  List.Pairwise (fun a b => has_block_id.id_of a < has_block_id.id_of b) m

/-- Whether the keys are in order can be computed. -/
instance map_sorted_decidable {β : Type} [has_block_id β] (m : List β) :
    Decidable (map_sorted m) :=
  inferInstanceAs
    (Decidable (List.Pairwise (fun a b => has_block_id.id_of a < has_block_id.id_of b) m))

/-! ## Manifest -/

/-- One block entry of a manifest: `struct SG_manifest_block`. -/
structure SG_manifest_block where
  block_id : Nat
  block_version : Int
  hash : List Nat
  dirty : Bool
deriving DecidableEq, Repr

/-- A manifest block is filed under its `block_id`. -/
instance SG_manifest_block_has_id : has_block_id SG_manifest_block where
  id_of := SG_manifest_block.block_id

/-- The manifest of one file: `struct SG_manifest`. The block map is the list
of its blocks in id order. -/
structure SG_manifest where
  volume_id : Nat
  coordinator_id : Nat
  owner_id : Nat
  file_id : Nat
  file_version : Int
  size : Nat
  mtime_sec : Int
  mtime_nsec : Int
  blocks : List SG_manifest_block
deriving DecidableEq, Repr

/-- A point in time: `struct timespec`. -/
structure timespec where
  tv_sec : Int
  tv_nsec : Int
deriving DecidableEq, Repr

/-- Modelled from the spec: `md_timespec_diff_ms` of libsyndicate, whose body
is not among the sources. It is the difference `t1 - t2` of two modtimes
`(sec, nsec)`, expressed in milliseconds. -/
def md_timespec_diff_ms (t1 t2 : timespec) : Int :=
  (t1.tv_sec - t2.tv_sec) * 1000 + Int.tdiv (t1.tv_nsec - t2.tv_nsec) 1000000

/-- Modelled from the spec: `lookup(id)` of the manifest (§4.1), whose body
(`SG_manifest_block_lookup`) is not among the sources. -/
def SG_manifest_block_lookup (m : SG_manifest) (block_id : Nat) : Option SG_manifest_block :=
  map_find block_id m.blocks

/-- Modelled from the spec: `put_block(b, replace)` of the manifest (§4.1),
whose body is not among the sources. The block is copied into the manifest
under its own id. The copy may run out of memory (`oom`); without `replace`
an id that is already present is refused. A refused or failed put leaves the
manifest as it was. -/
def SG_manifest_put_block (m : SG_manifest) (b : SG_manifest_block) (replace : Bool)
    (oom : Bool) : Int × SG_manifest :=
  if oom then (-ENOMEM, m)
  else if !replace && (map_find b.block_id m.blocks).isSome then (-EEXIST, m)
  else (0, { m with blocks := map_put b m.blocks })

/-- Modelled from the spec: `put_block(b, replace)` without the copy of the
block (`SG_manifest_put_block_nocopy`, body not among the sources). It
allocates only when the id is new to the manifest, so `oom` can only strike
then. -/
def SG_manifest_put_block_nocopy (m : SG_manifest) (b : SG_manifest_block) (replace : Bool)
    (oom : Bool) : Int × SG_manifest :=
  if oom && (map_find b.block_id m.blocks).isNone then (-ENOMEM, m)
  else if !replace && (map_find b.block_id m.blocks).isSome then (-EEXIST, m)
  else (0, { m with blocks := map_put b m.blocks })

/-- Modelled from the spec: `delete(id)` of the manifest (§4.1). -/
def SG_manifest_delete_block (m : SG_manifest) (block_id : Nat) : SG_manifest :=
  { m with blocks := map_erase block_id m.blocks }

/-- Modelled from the spec: `truncate(max_id)` of the manifest (§4.1), which
drops all entries with `id ≥ max_id`. -/
def SG_manifest_truncate (m : SG_manifest) (max_block_id : Nat) : SG_manifest :=
  { m with blocks := m.blocks.filter (fun b => decide (b.block_id < max_block_id)) }

/-- Modelled from the spec: `set_size` of the manifest (§4.1). -/
def SG_manifest_set_size (m : SG_manifest) (size : Nat) : SG_manifest :=
  { m with size := size }

/-- Modelled from the spec: `set_file_version` of the manifest (§4.1). -/
def SG_manifest_set_file_version (m : SG_manifest) (version : Int) : SG_manifest :=
  { m with file_version := version }

/-- Modelled from the spec: `block_range()` of the manifest (§4.1), the
largest block id present (`0` for a manifest without blocks). -/
def SG_manifest_get_block_range (m : SG_manifest) : Nat :=
  (map_keys m.blocks).foldl max 0

/-- Modelled from the spec: `set_block_dirty(id, flag)` of the manifest
(§4.1); nothing happens when the id is absent. -/
def SG_manifest_set_block_dirty (m : SG_manifest) (block_id : Nat) (flag : Bool) : SG_manifest :=
  match map_find block_id m.blocks with
  | none => m
  | some b => { m with blocks := map_put { b with dirty := flag } m.blocks }

/-! ## Dirty blocks, the block cache and the inode -/

/-- A buffered block of a file: `struct UG_dirty_block`. `buf` is the RAM
buffer (`none` when there is none, or once it has been released) and
`block_fd` the staging descriptor (`-1` until the block is flushed). -/
structure UG_dirty_block where
  info : SG_manifest_block
  buf : Option (List Nat)
  block_fd : Int
  unshared : Bool
  dirty : Bool
  flushing : Bool
deriving DecidableEq, Repr

/-- Accessor `UG_dirty_block_id`. -/
def UG_dirty_block_id (d : UG_dirty_block) : Nat := d.info.block_id

/-- A dirty block is filed under `UG_dirty_block_id`. -/
instance UG_dirty_block_has_id : has_block_id UG_dirty_block where
  id_of := UG_dirty_block_id

/-- Accessor `UG_dirty_block_version`. -/
def UG_dirty_block_version (d : UG_dirty_block) : Int := d.info.block_version

/-- A request sent to the block cache. -/
inductive cache_op where
  | evict_block (file_id : Nat) (file_version : Int) (block_id : Nat) (block_version : Int)
  | reversion_file (file_id : Nat) (old_version : Int) (new_version : Int)
deriving DecidableEq, Repr

/-- The block id an eviction request names (`none` for a reversion). -/
def cache_op_evicted_id : cache_op → Option Nat
  | cache_op.evict_block _ _ block_id _ => some block_id
  | cache_op.reversion_file _ _ _ => none

/-- The filesystem entry of an inode (`struct fskit_entry`), as far as the
gateway reads and writes it. A fresh entry is zeroed. -/
structure fskit_entry where
  type : Nat := 0
  file_id : Nat := 0
  name : String := ""
  size : Nat := 0
  owner : Nat := 0
  group : Nat := 0
  mode : Nat := 0
  ctime_sec : Int := 0
  ctime_nsec : Int := 0
  mtime_sec : Int := 0
  mtime_nsec : Int := 0
deriving DecidableEq, Repr

/-- The state of one inode: `struct UG_inode`, with its manifest `M`, its
replaced-block ledger `R` and its dirty-block map `D`, and behind them its
filesystem entry, the metadata mirrored from the MS, the queue of waiting
fsync calls (each named by the number of its sync context) and the modtime of
the last manifest that was replicated. `UG_inode_init_common` zeroes the
structure, which is what the defaults say. -/
structure UG_inode where
  manifest : SG_manifest
  replaced_blocks : SG_manifest
  dirty_blocks : List UG_dirty_block
  entry : fskit_entry := {}
  write_nonce : Int := 0
  xattr_nonce : Int := 0
  ms_write_nonce : Int := 0
  ms_xattr_nonce : Int := 0
  generation : Int := 0
  max_read_freshness : Nat := 0
  max_write_freshness : Nat := 0
  ms_num_children : Int := 0
  ms_capacity : Int := 0
  sync_queue : List Nat := []
  old_manifest_modtime : timespec := { tv_sec := 0, tv_nsec := 0 }
deriving DecidableEq, Repr

/-- Accessor `UG_inode_file_id`. -/
def UG_inode_file_id (inode : UG_inode) : Nat := inode.manifest.file_id

/-- Accessor `UG_inode_file_version`. -/
def UG_inode_file_version (inode : UG_inode) : Int := inode.manifest.file_version

/-- Modelled from the spec: `evict_and_free(cache, I, d)` (§4.2), body not
among the sources: it asks the cache to evict the block and releases the
buffer `d` owns. The result is the request and what is left of `d`. -/
def UG_dirty_block_evict_and_free (inode : UG_inode) (d : UG_dirty_block) :
    cache_op × UG_dirty_block :=
  (cache_op.evict_block (UG_inode_file_id inode) (UG_inode_file_version inode)
      (UG_dirty_block_id d) (UG_dirty_block_version d),
   { d with buf := none })

/-! ## Manifest merge (`UG_inode_manifest_merge_blocks`) -/

/-- The test `UG_inode_manifest_is_newer_than( manifest, mtime_sec, mtime_nsec )`. -/
def UG_inode_manifest_is_newer_than (manifest : SG_manifest) (mtime_sec mtime_nsec : Int) : Bool :=
  let new_manifest_ts : timespec := { tv_sec := mtime_sec, tv_nsec := mtime_nsec }
  let old_manifest_ts : timespec := { tv_sec := manifest.mtime_sec, tv_nsec := manifest.mtime_nsec }
  let newer := decide (md_timespec_diff_ms new_manifest_ts old_manifest_ts > 0)
  newer

/-- The body of the merge loop for one entry `new_block` of the new manifest,
filed there under `block_id`. `oom block_id` says whether the put of this block runs out of
memory. The result is the code `rc`, the inode and the cache requests of this
pass; a non-zero `rc` leaves the loop. -/
def UG_inode_manifest_merge_block (oom : Nat → Bool) (replace : Bool) (inode : UG_inode)
    (new_block : SG_manifest_block) : Int × UG_inode × List cache_op :=
  let block_id := new_block.block_id
  match SG_manifest_block_lookup inode.manifest block_id with
  | none =>
    -- nothing to worry about
    (0, inode, [])
  | some existing_block =>
    if existing_block.block_version = new_block.block_version then
      -- already merged, or no change
      (0, inode, [])
    else if existing_block.dirty then
      -- the local block is dirty: keep it
      (0, inode, [])
    else
      let existing_block_version := existing_block.block_version
      let put := SG_manifest_put_block inode.manifest new_block replace (oom block_id)
      if put.1 ≠ 0 then (put.1, { inode with manifest := put.2 }, [])
      else
        let inode1 : UG_inode := { inode with manifest := put.2 }
        -- clear cached block
        let evict := cache_op.evict_block (UG_inode_file_id inode1)
          (UG_inode_file_version inode1) block_id existing_block_version
        -- clear dirty block
        match map_find block_id inode1.dirty_blocks with
        | none => (0, inode1, [evict])
        | some dirty_block =>
          let freed := UG_dirty_block_evict_and_free inode1 dirty_block
          let inode2 : UG_inode :=
            { inode1 with dirty_blocks := map_put freed.2 inode1.dirty_blocks }
          -- clear invalidated garbage, if there is any
          let inode3 : UG_inode :=
            match SG_manifest_block_lookup inode2.replaced_blocks block_id with
            | none => inode2
            | some _ =>
              { inode2 with
                replaced_blocks := SG_manifest_delete_block inode2.replaced_blocks block_id }
          (0, inode3, [evict, freed.1])

/-- The loop of the merge over the entries of the new manifest, in id order,
left at the first non-zero code. -/
def UG_inode_manifest_merge_loop (oom : Nat → Bool) (replace : Bool) :
    List SG_manifest_block → UG_inode → Int × UG_inode × List cache_op
  | [], inode => (0, inode, [])
  | new_block :: rest, inode =>
    let step := UG_inode_manifest_merge_block oom replace inode new_block
    if step.1 ≠ 0 then step
    else
      let tail := UG_inode_manifest_merge_loop oom replace rest step.2.1
      (tail.1, tail.2.1, step.2.2 ++ tail.2.2)

/-- The function `UG_inode_manifest_merge_blocks( gateway, inode, new_manifest )`:
the return code, the inode afterwards and the requests sent to the cache. -/
def UG_inode_manifest_merge_blocks (oom : Nat → Bool) (inode : UG_inode)
    (new_manifest : SG_manifest) : Int × UG_inode × List cache_op :=
  let replace := !UG_inode_manifest_is_newer_than inode.manifest
    new_manifest.mtime_sec new_manifest.mtime_nsec
  UG_inode_manifest_merge_loop oom replace new_manifest.blocks inode

/-- The block map of an inode whose manifest is `a` (nothing buffered, empty
ledger) after manifest `b` has been merged into it without memory pressure:
the `merge(A, B)` of the commutativity and associativity notes. -/
def merge (a b : SG_manifest) : SG_manifest :=
  (UG_inode_manifest_merge_blocks (fun _ => false)
    { manifest := a, replaced_blocks := { a with blocks := [] }, dirty_blocks := [] } b).2.1.manifest

/-- No block of the manifest is marked dirty. -/
def manifest_clean (m : SG_manifest) : Bool :=
  m.blocks.all (fun b => !b.dirty)

/-! ## Commit of a dirty block (`UG_inode_dirty_block_commit`) -/

/-- What the environment decides during one commit: which allocation fails,
and what the local `old_block_info` holds when it was never assigned. -/
structure commit_env where
  oom_dup : Bool
  oom_put : Bool
  oom_insert : Bool
  oom_ledger : Bool
  oom_rewind : Bool
  stack : SG_manifest_block
deriving DecidableEq, Repr

/-- The function `UG_inode_dirty_block_commit( gateway, inode, dirty_block )`:
the return code, the inode afterwards and the requests sent to the cache.

`old_dirty_block` is a pointer to the slot of the block id inside the
dirty-block map, taken before the new block is stored; once the new block has
been stored in that slot, `*old_dirty_block` reads the new block. The
assignment `dirty_blocks[ id ] = ...` allocates only when the id has no slot
yet, so it can only fail then. -/
def UG_inode_dirty_block_commit (env : commit_env) (inode : UG_inode)
    (dirty_block : UG_dirty_block) : Int × UG_inode × List cache_op :=
  if !dirty_block.dirty then (-EINVAL, inode, [])
  else
    let id := UG_dirty_block_id dirty_block
    -- what blocks are being replaced?
    let old_block_info_ref := SG_manifest_block_lookup inode.manifest id
    let old_replaced_block_info := SG_manifest_block_lookup inode.replaced_blocks id
    -- store a copy, so we can put it back on failure
    if old_block_info_ref.isSome && env.oom_dup then (-ENOMEM, inode, [])
    else
      let old_block_info := old_block_info_ref.getD env.stack
      -- find the old dirty block
      let old_dirty_block := map_find id inode.dirty_blocks
      -- update the manifest
      let put := SG_manifest_put_block inode.manifest dirty_block.info true env.oom_put
      if put.1 ≠ 0 then (put.1, { inode with manifest := put.2 }, [])
      else if old_dirty_block.isNone && env.oom_insert then
        -- bad_alloc: put the old block data back
        (-ENOMEM,
         { inode with
           manifest := (SG_manifest_put_block_nocopy put.2 old_block_info true env.oom_rewind).2 },
         [])
      else
        -- insert the new dirty block
        let inode1 : UG_inode :=
          { inode with manifest := put.2, dirty_blocks := map_put dirty_block inode.dirty_blocks }
        let ledger :=
          if old_block_info_ref.isSome && old_replaced_block_info.isNone then
            SG_manifest_put_block_nocopy inode1.replaced_blocks old_block_info true env.oom_ledger
          else (0, inode1.replaced_blocks)
        if ledger.1 ≠ 0 then
          -- put the old block data back
          let manifest2 :=
            (SG_manifest_put_block_nocopy inode1.manifest old_block_info true env.oom_rewind).2
          -- dirty_blocks[ id ] = *old_dirty_block, read through the slot
          let dirty_blocks2 :=
            match old_dirty_block, map_find id inode1.dirty_blocks with
            | some _, some slot => map_put slot inode1.dirty_blocks
            | _, _ => inode1.dirty_blocks
          (ledger.1,
           { inode1 with
             manifest := manifest2, replaced_blocks := ledger.2, dirty_blocks := dirty_blocks2 },
           [])
        else
          -- this block is dirty: keep it in the face of future manifest refreshes
          let inode2 : UG_inode :=
            { inode1 with
              replaced_blocks := ledger.2,
              manifest := SG_manifest_set_block_dirty inode1.manifest id true }
          -- rc == 0: clear out *old_dirty_block, read through the slot
          match old_dirty_block, map_find id inode2.dirty_blocks with
          | some _, some slot =>
            let freed := UG_dirty_block_evict_and_free inode2 slot
            (0, { inode2 with dirty_blocks := map_put freed.2 inode2.dirty_blocks }, [freed.1])
          | _, _ => (0, inode2, [])

/-! ## Truncate (`UG_inode_truncate`, `UG_inode_truncate_find_removed`) -/

/-- The integer ceiling of `n / bs`. -/
def ceil_div (n bs : Nat) : Nat := (n + bs - 1) / bs

/-- The computation of `drop_block_id` at the head of both truncate
functions: `new_size / block_size`, plus one when there is a remainder. -/
def UG_inode_drop_block_id (block_size new_size : Nat) : Nat :=
  if new_size % block_size ≠ 0 then new_size / block_size + 1 else new_size / block_size

/-- The ids `drop_block_id, ..., max_block_id` the loops
`for( dead_block_id = drop_block_id; dead_block_id <= max_block_id; dead_block_id++ )`
visit. -/
def dead_block_ids (drop_block_id max_block_id : Nat) : List Nat :=
  List.range' drop_block_id (max_block_id + 1 - drop_block_id)

/-- The body of the loop of `UG_inode_truncate_find_removed` over the dead
block ids, left with `-ENOMEM` at the first put that runs out of memory. -/
def UG_inode_truncate_find_removed_loop (oom : Nat → Bool) (inode : UG_inode) :
    List Nat → Option SG_manifest → Int × Option SG_manifest
  | [], removed => (0, removed)
  | dead_block_id :: rest, removed =>
    match SG_manifest_block_lookup inode.manifest dead_block_id with
    | none =>
      -- write hole
      UG_inode_truncate_find_removed_loop oom inode rest removed
    | some block_info =>
      match removed with
      | none => UG_inode_truncate_find_removed_loop oom inode rest none
      | some r =>
        let put := SG_manifest_put_block r block_info true (oom dead_block_id)
        if put.1 ≠ 0 then (-ENOMEM, some put.2)
        else UG_inode_truncate_find_removed_loop oom inode rest (some put.2)

/-- The function `UG_inode_truncate_find_removed( gateway, inode, new_size, removed )`
for a volume with the given block size and `new_size ≥ 0`: the return code,
the inode afterwards and `*removed` afterwards (`removed = none` is the NULL
pointer). The result is `none` when the call does not return: a block size
of `0` is a division by zero, and with `max_block_id = 2^64 - 1` the 64-bit
loop counter never exceeds `max_block_id`. -/
def UG_inode_truncate_find_removed (oom : Nat → Bool) (block_size : Nat) (inode : UG_inode)
    (new_size : Nat) (removed : Option SG_manifest) :
    Option (Int × UG_inode × Option SG_manifest) :=
  if block_size = 0 then none
  else
    let drop_block_id := UG_inode_drop_block_id block_size new_size
    let max_block_id := SG_manifest_get_block_range inode.manifest
    if 2 ^ 64 ≤ max_block_id + 1 then none
    else
      let out := UG_inode_truncate_find_removed_loop oom inode
        (dead_block_ids drop_block_id max_block_id) removed
      some (out.1, inode, out.2)

/-- The body of the first loop of `UG_inode_truncate` for one dead block id:
the inode and the cache requests so far, before and after. -/
def UG_inode_truncate_block (drop_block_id : Nat) (state : UG_inode × List cache_op)
    (dead_block_id : Nat) : UG_inode × List cache_op :=
  match SG_manifest_block_lookup state.1.manifest dead_block_id with
  | none =>
    -- write hole
    state
  | some block_info =>
    -- clear dirty block
    let cleared : UG_inode × List cache_op :=
      match map_find drop_block_id state.1.dirty_blocks with
      | none => (state.1, [])
      | some dirty_block =>
        ({ state.1 with dirty_blocks := map_erase drop_block_id state.1.dirty_blocks },
         [(UG_dirty_block_evict_and_free state.1 dirty_block).1])
    -- clear cached block
    (cleared.1,
     state.2 ++ cleared.2 ++
       [cache_op.evict_block (UG_inode_file_id cleared.1) (UG_inode_file_version cleared.1)
          dead_block_id block_info.block_version])

/-- The function `UG_inode_truncate( gateway, inode, new_size, new_version )`
for a volume with the given block size and `new_size ≥ 0`: the inode
afterwards and the requests sent to the cache (the C function returns `0`
whenever it returns). The result is `none` when the call does not return,
as for `UG_inode_truncate_find_removed`. -/
def UG_inode_truncate (block_size : Nat) (inode : UG_inode) (new_size : Nat)
    (new_version : Int) : Option (UG_inode × List cache_op) :=
  if block_size = 0 then none
  else
    let drop_block_id := UG_inode_drop_block_id block_size new_size
    let max_block_id := SG_manifest_get_block_range inode.manifest
    let old_version := UG_inode_file_version inode
    if 2 ^ 64 ≤ max_block_id + 1 then none
    else
      -- go through the manifest and drop locally-cached blocks
      let swept := (dead_block_ids drop_block_id max_block_id).foldl
        (UG_inode_truncate_block drop_block_id) (inode, [])
      let versioned : UG_inode × List cache_op :=
        if new_version ≠ 0 then
          ({ swept.1 with manifest := SG_manifest_set_file_version swept.1.manifest new_version },
           swept.2 ++ [cache_op.reversion_file (UG_inode_file_id swept.1) old_version new_version])
        else swept
      -- drop extra manifest blocks
      let dropped := SG_manifest_truncate versioned.1.manifest (new_size / block_size)
      -- set new size
      some ({ versioned.1 with manifest := SG_manifest_set_size dropped new_size }, versioned.2)

/-! ## Extraction and return of the modified blocks -/

/-- The first loop of `UG_inode_dirty_blocks_extract_modified` over the
dirty-block map, from the iterator position onwards: the return code (when
the loop is left by `return -ENOMEM`, else `0`) and `*modified`.

A block that is not dirty does `itr++; continue;`, and `continue` runs the
`itr++` of the `for` statement as well: the block after it is stepped over.
When the block that is not dirty is the last one, the first `itr++` reaches
`end()` and the second one increments `end()`, which has no defined result
(`none`). The assignment `(*modified)[ id ] = ...` allocates only for an id
`*modified` does not hold yet; `oom id` says whether that allocation fails. -/
def UG_inode_dirty_blocks_extract_modified_loop (oom : Nat → Bool) :
    List UG_dirty_block → List UG_dirty_block → Option (Int × List UG_dirty_block)
  | [], modified => some (0, modified)
  | [d], modified =>
    if !d.dirty then none
    else if oom (UG_dirty_block_id d) && (map_find (UG_dirty_block_id d) modified).isNone then
      some (-ENOMEM, modified)
    else some (0, map_put d modified)
  | d :: skipped :: rest, modified =>
    if !d.dirty then UG_inode_dirty_blocks_extract_modified_loop oom rest modified
    else if oom (UG_dirty_block_id d) && (map_find (UG_dirty_block_id d) modified).isNone then
      some (-ENOMEM, modified)
    else UG_inode_dirty_blocks_extract_modified_loop oom (skipped :: rest) (map_put d modified)

/-- The second loop of `UG_inode_dirty_blocks_extract_modified`: every id of
`*modified` is erased from the dirty-block map. -/
def UG_inode_dirty_blocks_erase_all (modified : List UG_dirty_block) (dirty_blocks : List UG_dirty_block) :
    List UG_dirty_block :=
  modified.foldl (fun m d => map_erase (UG_dirty_block_id d) m) dirty_blocks

/-- The function `UG_inode_dirty_blocks_extract_modified( inode, modified )`
for a non-NULL `modified`: the return code, the inode and `*modified`
afterwards; `none` where the call has no defined result. -/
def UG_inode_dirty_blocks_extract_modified (oom : Nat → Bool) (inode : UG_inode)
    (modified : List UG_dirty_block) : Option (Int × UG_inode × List UG_dirty_block) :=
  match UG_inode_dirty_blocks_extract_modified_loop oom inode.dirty_blocks modified with
  | none => none
  | some (rc, modified1) =>
    if rc ≠ 0 then some (rc, inode, modified1)
    else
      some (0,
        { inode with dirty_blocks := UG_inode_dirty_blocks_erase_all modified1 inode.dirty_blocks },
        modified1)

/-- The loop of `UG_inode_dirty_blocks_return( inode, extracted )`: each
block goes back into the dirty-block map and leaves `*extracted`, until an
insertion runs out of memory (`oom id`, only for an id the map does not hold).
The result is the return code, the dirty-block map and what is left of
`*extracted`. -/
def UG_inode_dirty_blocks_return_loop (oom : Nat → Bool) :
    List UG_dirty_block → List UG_dirty_block → Int × List UG_dirty_block × List UG_dirty_block
  | [], dirty_blocks => (0, dirty_blocks, [])
  | d :: rest, dirty_blocks =>
    if oom (UG_dirty_block_id d) && (map_find (UG_dirty_block_id d) dirty_blocks).isNone then
      (-ENOMEM, dirty_blocks, d :: rest)
    else UG_inode_dirty_blocks_return_loop oom rest (map_put d dirty_blocks)

/-- The function `UG_inode_dirty_blocks_return( inode, extracted )`: the
return code, the inode and `*extracted` afterwards. -/
def UG_inode_dirty_blocks_return (oom : Nat → Bool) (inode : UG_inode)
    (extracted : List UG_dirty_block) : Int × UG_inode × List UG_dirty_block :=
  let out := UG_inode_dirty_blocks_return_loop oom extracted inode.dirty_blocks
  (out.1, { inode with dirty_blocks := out.2.1 }, out.2.2)

/-- The function `UG_sync_dirty_blocks_return( inode, blocks )` of sync.cpp,
which calls `UG_inode_dirty_blocks_return` again for as long as it returns
`-ENOMEM`. `rounds` gives the out-of-memory pattern of the successive calls;
the result is `none` when every one of them fails, that is, while the retry
loop has not ended. -/
def UG_sync_dirty_blocks_return :
    List (Nat → Bool) → UG_inode → List UG_dirty_block →
      Option (Int × UG_inode × List UG_dirty_block)
  | [], _, _ => none
  | oom :: rounds, inode, blocks =>
    let out := UG_inode_dirty_blocks_return oom inode blocks
    if out.1 = -ENOMEM then UG_sync_dirty_blocks_return rounds out.2.1 out.2.2
    else some out

/-! ## The fsync pipeline (`src/UG2/sync.cpp`) -/

/-- The loop `while( 1 )` around `UG_inode_dirty_block_commit` in
`UG_sync_dirty_blocks_restore`: the commit is tried again, after a sleep,
for as long as it returns a non-zero code. `attempts` gives the environment
of the successive tries; the result is `none` when every one of them fails,
that is, while the loop has not ended. -/
def UG_sync_commit_retry :
    List commit_env → UG_inode → UG_dirty_block → List cache_op →
      Option (UG_inode × List cache_op)
  | [], _, _, _ => none
  | env :: attempts, inode, block, log =>
    let out := UG_inode_dirty_block_commit env inode block
    if out.1 ≠ 0 then UG_sync_commit_retry attempts out.2.1 block (log ++ out.2.2)
    else some (out.2.1, log ++ out.2.2)

/-- What the environment decides during one `UG_sync_dirty_blocks_restore`:
the block size of the volume, what a read through `dirty_blocks->end()`
yields, and for each block id the environments of the successive tries of
its commit. -/
structure restore_env where
  block_size : Nat
  past_end : UG_dirty_block
  commit_attempts : Nat → List commit_env

/-- The body of the loop of `UG_sync_dirty_blocks_restore` for one block of
the failed snapshot: the inode, the cache requests of this pass, and the
entry of `*blocks` for this block afterwards (`none` once it is erased).

The "won't overwrite" branch and the commit branch end in
`blocks->erase( tmp_itr )`. The "skip truncated" branch ends in
`new_dirty_blocks->erase( tmp_itr )` instead: `*blocks` is not erased from
there, so the entry stays in the snapshot, with the buffer that
`UG_dirty_block_evict_and_free` has released. The function declares no
`new_dirty_blocks` (the only object of that name in sync.cpp is a local
variable of `UG_sync_fsync_ex`); what the call does to that other map is not
part of this model.

The source also names `block_size` and `old_size` without declaring them;
they are read as the block size of the volume and `old_file_size`. The
comparison is made against `(unsigned)old_size`, the low 32 bits of the size.
The lookup `dirty_blocks->find( block_id )` is read through without a test
against `end()`: when the inode holds no block of that id, the version
compared is that of `past_end`. After a commit that succeeded, `block` is
released by `UG_dirty_block_evict_and_free`; the slot of the dirty-block map
is a copy of `*block` that points to the same buffer, so the buffer is
released there as well. -/
def UG_sync_dirty_blocks_restore_block (env : restore_env) (old_file_version : Int)
    (old_file_size : Nat) (inode : UG_inode) (block : UG_dirty_block) :
    Option (UG_inode × List cache_op × Option UG_dirty_block) :=
  let block_id := UG_dirty_block_id block
  -- don't include if the file was truncated before we could merge dirty data
  if old_file_version ≠ UG_inode_file_version inode ∧
      old_file_size % 2 ^ 32 ≤ (block_id * env.block_size) % 2 ^ 64 then
    -- new_dirty_blocks->erase( tmp_itr ): the entry of *blocks stays
    let freed := UG_dirty_block_evict_and_free inode block
    some (inode, [freed.1], some freed.2)
  else
    -- don't overwrite new dirty blocks
    let dirty := (map_find block_id inode.dirty_blocks).getD env.past_end
    if UG_dirty_block_version dirty ≠ UG_dirty_block_version block then
      -- blocks->erase( tmp_itr )
      some (inode, [(UG_dirty_block_evict_and_free inode block).1], none)
    else
      match UG_sync_commit_retry (env.commit_attempts block_id) inode block [] with
      | none => none
      | some (inode1, log) =>
        -- blocks->erase( tmp_itr )
        let freed := UG_dirty_block_evict_and_free inode1 block
        let dirty_blocks2 :=
          match map_find block_id inode1.dirty_blocks with
          | some slot => map_put { slot with buf := none } inode1.dirty_blocks
          | none => inode1.dirty_blocks
        some ({ inode1 with dirty_blocks := dirty_blocks2 }, log ++ [freed.1], none)

/-- The function `UG_sync_dirty_blocks_restore( gateway, inode, old_file_version,
old_file_size, blocks )`, block by block in id order: the inode afterwards,
the cache requests and what is left of `*blocks` (the entries that no pass
has erased); `none` while a commit is still being retried. -/
def UG_sync_dirty_blocks_restore (env : restore_env) (old_file_version : Int)
    (old_file_size : Nat) :
    UG_inode → List UG_dirty_block → Option (UG_inode × List cache_op × List UG_dirty_block)
  | inode, [] => some (inode, [], [])
  | inode, block :: rest =>
    match UG_sync_dirty_blocks_restore_block env old_file_version old_file_size inode block with
    | none => none
    | some (inode1, log1, kept) =>
      match UG_sync_dirty_blocks_restore env old_file_version old_file_size inode1 rest with
      | none => none
      | some (inode2, log2, left) => some (inode2, log1 ++ log2, kept.toList ++ left)

/-- Modelled from the spec: the replica context of one fsync (§4.5, step 3),
a snapshot of the manifest and of the modified blocks; `struct
UG_replica_context` is not among the sources. -/
structure UG_replica_context where
  manifest : SG_manifest
  blocks : List UG_dirty_block
deriving DecidableEq, Repr

/-- Modelled from the spec: the vacuum context of one fsync (§4.5, step 4),
a snapshot of the replaced-block ledger; `struct UG_vacuum_context` is not
among the sources. -/
structure UG_vacuum_context where
  replaced_blocks : SG_manifest
deriving DecidableEq, Repr

/-- The sync context of one fsync call: `struct UG_sync_context`, with the
value of its semaphore. `vctx = none` is the NULL pointer. -/
structure UG_sync_context where
  rctx : UG_replica_context
  vctx : Option UG_vacuum_context
  sem : Nat
deriving DecidableEq, Repr

/-- The function `UG_sync_context_init( sctx, rctx, vctx )`: the semaphore
starts at 0. -/
def UG_sync_context_init (rctx : UG_replica_context) (vctx : Option UG_vacuum_context) :
    UG_sync_context :=
  { rctx := rctx, vctx := vctx, sem := 0 }

/-- Modelled from the spec: `UG_inode_sync_queue_len`, a macro of `inode.h`
that is not among the sources: the number of sync contexts in the FIFO `Q`
of the inode (§3). -/
def UG_inode_sync_queue_len (inode : UG_inode) : Nat := inode.sync_queue.length

/-- The function `UG_inode_sync_queue_push( inode, sync_context )`; the sync
context is named by its number. -/
def UG_inode_sync_queue_push (oom : Bool) (inode : UG_inode) (sync_context : Nat) :
    Int × UG_inode :=
  if oom then (-ENOMEM, inode)
  else (0, { inode with sync_queue := inode.sync_queue ++ [sync_context] })

/-- The function `UG_inode_sync_queue_pop( inode )`: the head of the queue
(`none` is NULL) and the inode afterwards. -/
def UG_inode_sync_queue_pop (inode : UG_inode) : Option Nat × UG_inode :=
  match inode.sync_queue with
  | [] => (none, inode)
  | head :: rest => (some head, { inode with sync_queue := rest })

/-- The function `UG_inode_replace_dirty_blocks( inode, new_dirty_blocks )`:
the old map and the inode afterwards. -/
def UG_inode_replace_dirty_blocks (inode : UG_inode) (new_dirty_blocks : List UG_dirty_block) :
    List UG_dirty_block × UG_inode :=
  (inode.dirty_blocks, { inode with dirty_blocks := new_dirty_blocks })

/-- Modelled from the spec: `SG_manifest_clear`, which empties the block map
of a manifest (§4.5, step 6: "clear `R`"); body not among the sources. -/
def SG_manifest_clear (m : SG_manifest) : SG_manifest :=
  { m with blocks := [] }

/-- The function `UG_inode_clear_replaced_blocks( inode )`. -/
def UG_inode_clear_replaced_blocks (inode : UG_inode) : UG_inode :=
  { inode with replaced_blocks := SG_manifest_clear inode.replaced_blocks }

/-- Modelled from the spec: `SG_manifest_set_blocks_dirty( manifest, flag )`,
the `clear_dirty_flags()` of §4.1 for `flag = false`; body not among the
sources. -/
def SG_manifest_set_blocks_dirty (m : SG_manifest) (flag : Bool) : SG_manifest :=
  { m with blocks := m.blocks.map (fun b => { b with dirty := flag }) }

/-- Modelled from the spec: `SG_manifest_get_block_count`, the number of
blocks of a manifest; body not among the sources. -/
def SG_manifest_get_block_count (m : SG_manifest) : Nat := m.blocks.length

/-- Modelled from the spec: `UG_vacuum_context_restore( vctx, inode )`, which
puts the replaced blocks of a vacuum context back into the ledger of the
inode (§4.5, step 11); body not among the sources. `rc` is its return code,
and a failed restore leaves the ledger as it was. -/
def UG_vacuum_context_restore (rc : Int) (vctx : UG_vacuum_context) (inode : UG_inode) :
    Int × UG_inode :=
  if rc ≠ 0 then (rc, inode)
  else
    (0,
     { inode with
       replaced_blocks :=
         { inode.replaced_blocks with
           blocks := vctx.replaced_blocks.blocks.foldl (fun m b => map_put b m)
             inode.replaced_blocks.blocks } })

/-- What the environment decides during one call of `UG_sync_fsync_ex`: the
return codes of the collaborators that are not among the sources
(`UG_replica_context_init`, `UG_vacuum_context_init`, `UG_replicate`,
`UG_vacuum_context_restore`), which allocations fail, whether a waiting call
is ever woken, whether `UG_vacuumer_enqueue` ever succeeds, and what the
other holders of the inode lock do to the inode while it is released. -/
structure fsync_env where
  oom_alloc : Bool
  oom_extract : Nat → Bool
  replica_context_init_rc : Int
  vacuum_context_init_rc : Int
  oom_queue_push : Bool
  return_rounds : List (Nat → Bool)
  woken : Bool
  meanwhile : UG_inode → UG_inode
  replicate_rc : Int
  restore : restore_env
  vacuum_context_restore_rc : Int
  vacuumer_enqueue_ends : Bool

/-- The local variables of `UG_sync_fsync_ex` that live from the snapshot
phase to the completion phase. -/
structure fsync_locals where
  sctx : UG_sync_context
  first_in_line : Bool
  file_version : Int
  file_size : Nat
deriving DecidableEq, Repr

/-- How the snapshot phase of `UG_sync_fsync_ex` ends: with a `return` of an
error code, or with the inode unlocked and the snapshot taken. -/
inductive fsync_snapshot where
  | returned (rc : Int) (inode : UG_inode)
  | taken (inode : UG_inode) (locals : fsync_locals)
deriving DecidableEq, Repr

/-- The snapshot phase of `UG_sync_fsync_ex`: from the head of the function
to the `fskit_entry_unlock` before the wait. `self` names the sync context
of this call. The result is `none` where the phase has no defined result or
does not end. -/
def UG_sync_fsync_ex_snapshot (env : fsync_env) (self : Nat) (inode : UG_inode) :
    Option fsync_snapshot :=
  if env.oom_alloc then some (fsync_snapshot.returned (-ENOMEM) inode)
  else
    let file_version := UG_inode_file_version inode
    let file_size := inode.entry.size
    -- get dirty blocks
    match UG_inode_dirty_blocks_extract_modified env.oom_extract inode [] with
    | none => none
    | some (rc, inode1, dirty_blocks) =>
      if rc ≠ 0 then some (fsync_snapshot.returned rc inode1)
      else if env.replica_context_init_rc ≠ 0 then
        -- make a replica context: failed
        (UG_sync_dirty_blocks_return env.return_rounds inode1 dirty_blocks).map
          (fun back => fsync_snapshot.returned env.replica_context_init_rc back.2.1)
      else
        let rctx : UG_replica_context := { manifest := inode1.manifest, blocks := dirty_blocks }
        -- make a vacuum context, snapshotting this inode's garbage
        if SG_manifest_get_block_count inode1.replaced_blocks ≠ 0 ∧
            env.vacuum_context_init_rc ≠ 0 then
          (UG_sync_dirty_blocks_return env.return_rounds inode1 dirty_blocks).map
            (fun back => fsync_snapshot.returned env.vacuum_context_init_rc back.2.1)
        else
          let vctx : Option UG_vacuum_context :=
            if SG_manifest_get_block_count inode1.replaced_blocks = 0 then none
            else some { replaced_blocks := inode1.replaced_blocks }
          -- make a sync context...
          let sctx := UG_sync_context_init rctx vctx
          -- can we sync immediately after unlocking, or do we have to wait?
          let first_in_line := decide (UG_inode_sync_queue_len inode1 = 0)
          let pushed :=
            if first_in_line then (0, inode1)
            else UG_inode_sync_queue_push env.oom_queue_push inode1 self
          if pushed.1 ≠ 0 then
            (UG_sync_dirty_blocks_return env.return_rounds pushed.2 dirty_blocks).map
              (fun back => fsync_snapshot.returned pushed.1 back.2.1)
          else
            -- replace dirty blocks, clear out replaced block info,
            -- all manifest blocks are now clean
            let inode2 := (UG_inode_replace_dirty_blocks pushed.2 []).2
            let inode3 := UG_inode_clear_replaced_blocks inode2
            let inode4 : UG_inode :=
              { inode3 with manifest := SG_manifest_set_blocks_dirty inode3.manifest false }
            some (fsync_snapshot.taken inode4
              { sctx := sctx, first_in_line := first_in_line,
                file_version := file_version, file_size := file_size })

/-- What one call of `UG_sync_fsync_ex` leaves behind: its return code, the
inode, the requests sent to the cache, the sync context whose semaphore was
posted (if any) and whether a vacuum context was handed to the vacuumer. -/
structure fsync_result where
  rc : Int
  inode : UG_inode
  cache_ops : List cache_op
  posted : Option Nat
  vacuum_enqueued : Bool
deriving DecidableEq, Repr

/-- The wake-up at the end of `UG_sync_fsync_ex`: when the sync queue is not
empty its head is popped and its semaphore posted. -/
def UG_sync_fsync_ex_wake (inode : UG_inode) : Option Nat × UG_inode :=
  if 0 < UG_inode_sync_queue_len inode then UG_inode_sync_queue_pop inode
  else (none, inode)

/-- The completion phase of `UG_sync_fsync_ex`: from the return of
`UG_replicate` (with the code `env.replicate_rc`) and the `fskit_entry_wlock`
after it to the end of the function. `inode` is the inode as found under the
lock. The result is `none` while one of the retry loops has not ended. -/
def UG_sync_fsync_ex_complete (env : fsync_env) (inode : UG_inode) (locals : fsync_locals) :
    Option fsync_result :=
  let rc := env.replicate_rc
  let rctx := locals.sctx.rctx
  let vctx := locals.sctx.vctx
  if rc ≠ 0 then
    -- failed to replicate: preserve dirty but uncommitted, non-overwritten blocks
    match UG_sync_dirty_blocks_restore env.restore locals.file_version locals.file_size
        inode rctx.blocks with
    | none => none
    | some (inode1, log, _) =>
      -- put back vacuum state into the inode
      let restored : Int × UG_inode :=
        match vctx with
        | none => (rc, inode1)
        | some v =>
          -- this is an I/O error
          (- EIO, (UG_vacuum_context_restore env.vacuum_context_restore_rc v inode1).2)
      let woken := UG_sync_fsync_ex_wake restored.2
      some { rc := restored.1, inode := woken.2, cache_ops := log, posted := woken.1,
             vacuum_enqueued := false }
  else
    -- success!  this manifest is the last successfully-vacuumed manifest
    let inode1 : UG_inode :=
      { inode with
        old_manifest_modtime :=
          { tv_sec := rctx.manifest.mtime_sec, tv_nsec := rctx.manifest.mtime_nsec } }
    -- begin vacuuming the old manifest
    if !env.vacuumer_enqueue_ends then none
    else
      let woken := UG_sync_fsync_ex_wake inode1
      some { rc := 0, inode := woken.2, cache_ops := [], posted := woken.1,
             vacuum_enqueued := true }

/-- The function `UG_sync_fsync_ex( core, path, fent )` as one call seen from
its caller: snapshot phase, wait for the turn, `UG_replicate`, completion
phase. The result is `none` where the call has no defined result or does not
return. -/
def UG_sync_fsync_ex (env : fsync_env) (self : Nat) (inode : UG_inode) : Option fsync_result :=
  match UG_sync_fsync_ex_snapshot env self inode with
  | none => none
  | some (fsync_snapshot.returned rc inode1) =>
    some { rc := rc, inode := inode1, cache_ops := [], posted := none, vacuum_enqueued := false }
  | some (fsync_snapshot.taken inode1 locals) =>
    -- do we have to wait?
    if !locals.first_in_line && !env.woken then none
    else UG_sync_fsync_ex_complete env (env.meanwhile inode1) locals

/-! ## Concurrent fsync calls on one inode -/

/-- Where one call of `UG_sync_fsync_ex` stands: not started, past its
snapshot phase (waiting for its turn, or about to call `UG_replicate`),
inside `UG_replicate`, or returned. -/
inductive fsync_phase where
  | idle
  | snapshotted (locals : fsync_locals)
  | replicating (locals : fsync_locals)
  | finished (rc : Int)
deriving DecidableEq, Repr

/-- Several calls of `UG_sync_fsync_ex` on one inode; call `i` is the `i`-th
entry and its sync context is named `i`. -/
structure fsync_pipeline where
  inode : UG_inode
  calls : List fsync_phase
deriving DecidableEq, Repr

/-- A step of the pipeline. `enter i`: call `i` runs its snapshot phase under
the inode lock. `replicate i`: call `i` gets past `sem_wait` (at once when it
is first in line, else by taking one unit of its semaphore) and calls
`UG_replicate`. `leave i`: `UG_replicate` returns to call `i`, which runs its
completion phase under the inode lock. -/
inductive fsync_step where
  | enter (i : Nat)
  | replicate (i : Nat)
  | leave (i : Nat)
deriving DecidableEq, Repr

/-- The call `sem_post` on the semaphore of the sync context named `j`. -/
def fsync_pipeline_post : List fsync_phase → Nat → List fsync_phase
  | [], _ => []
  | fsync_phase.snapshotted l :: rest, 0 =>
    fsync_phase.snapshotted { l with sctx := { l.sctx with sem := l.sctx.sem + 1 } } :: rest
  | p :: rest, 0 => p :: rest
  | p :: rest, j + 1 => p :: fsync_pipeline_post rest j

/-- The step relation of the pipeline, as a function: the state after the
step, or `none` when the step is not enabled. `envs i` is the environment of
call `i`. -/
def fsync_pipeline_step (envs : Nat → fsync_env) (s : fsync_pipeline) :
    fsync_step → Option fsync_pipeline
  | fsync_step.enter i =>
    match s.calls.get? i with
    | some fsync_phase.idle =>
      match UG_sync_fsync_ex_snapshot (envs i) i s.inode with
      | none => none
      | some (fsync_snapshot.returned rc inode) =>
        some { inode := inode, calls := s.calls.set i (fsync_phase.finished rc) }
      | some (fsync_snapshot.taken inode locals) =>
        some { inode := inode, calls := s.calls.set i (fsync_phase.snapshotted locals) }
    | _ => none
  | fsync_step.replicate i =>
    match s.calls.get? i with
    | some (fsync_phase.snapshotted l) =>
      if l.first_in_line then
        some { s with calls := s.calls.set i (fsync_phase.replicating l) }
      else if 0 < l.sctx.sem then
        some { s with
               calls := s.calls.set i
                 (fsync_phase.replicating { l with sctx := { l.sctx with sem := l.sctx.sem - 1 } }) }
      else none
    | _ => none
  | fsync_step.leave i =>
    match s.calls.get? i with
    | some (fsync_phase.replicating l) =>
      match UG_sync_fsync_ex_complete (envs i) s.inode l with
      | none => none
      | some r =>
        let calls1 := s.calls.set i (fsync_phase.finished r.rc)
        some { inode := r.inode,
               calls := match r.posted with
                 | none => calls1
                 | some j => fsync_pipeline_post calls1 j }
    | _ => none

/-- A run of the pipeline: the steps taken one after the other. -/
def fsync_pipeline_run (envs : Nat → fsync_env) :
    fsync_pipeline → List fsync_step → Option fsync_pipeline
  | s, [] => some s
  | s, step :: rest =>
    match fsync_pipeline_step envs s step with
    | none => none
    | some s1 => fsync_pipeline_run envs s1 rest

/-- The calls that are inside `UG_replicate`. -/
def fsync_pipeline_in_flight (s : fsync_pipeline) : List Nat :=
  (List.range s.calls.length).filter
    (fun i => match s.calls.get? i with
      | some (fsync_phase.replicating _) => true
      | _ => false)

/-- The calls that found themselves first in line in their snapshot phase. -/
def fsync_pipeline_first_in_line (s : fsync_pipeline) : List Nat :=
  (List.range s.calls.length).filter
    (fun i => match s.calls.get? i with
      | some (fsync_phase.snapshotted l) => l.first_in_line
      | some (fsync_phase.replicating l) => l.first_in_line
      | _ => false)

/-! ## The dispatcher (`UG_try_or_coordinate`, `src/UG2/client.h`) -/

/-- An operation the dispatcher evaluates. -/
inductive dispatch_op where
  | remote_oper
  | chcoord
  | local_oper
deriving DecidableEq, Repr

/-- What the macro `UG_try_or_coordinate` finds around it: the id and the
capabilities of this gateway, the capability bit `SG_CAP_COORDINATE`, the
test `SG_client_request_is_remote_unavailable`, and the outcomes of the three
operations. The outcome of `UG_chcoord` is its return code together with the
value it leaves in `*new_coordinator_response`. -/
structure dispatch_env where
  gateway_id : Nat
  caps : Nat
  SG_CAP_COORDINATE : Nat
  is_remote_unavailable : Int → Bool
  remote_oper : Int
  chcoord_rc : Int
  chcoord_response : Nat
  local_oper : Int

/-- The `while` statement of `UG_try_or_coordinate`. Every branch of its body
ends in `break`, so the body runs at most once. The result is `*rc`,
`_current_coordinator` and the operations evaluated, in order. -/
def UG_try_or_coordinate_loop (env : dispatch_env) (coordinator_id : Nat) (rc : Int) :
    Int × Nat × List dispatch_op :=
  let current_coordinator := coordinator_id
  if current_coordinator ≠ env.gateway_id then
    -- remote
    let rc1 := env.remote_oper
    if rc1 = 0 then (rc1, current_coordinator, [dispatch_op.remote_oper])
    else if !env.is_remote_unavailable rc1 then
      -- failed for some other reason
      (rc1, current_coordinator, [dispatch_op.remote_oper])
    else if env.caps &&& env.SG_CAP_COORDINATE ≠ 0 then
      -- we can try to become the coordinator
      let rc2 := env.chcoord_rc
      let current_coordinator2 := env.chcoord_response
      if rc2 ≠ 0 then
        (rc2, current_coordinator2, [dispatch_op.remote_oper, dispatch_op.chcoord])
      else
        -- made local!
        (rc, env.gateway_id, [dispatch_op.remote_oper, dispatch_op.chcoord])
    else
      -- failed, and we can't coordinate
      (rc1, current_coordinator, [dispatch_op.remote_oper])
  else (rc, current_coordinator, [])

/-- The macro `UG_try_or_coordinate( gateway, path, coordinator_id, local_oper,
remote_oper, rc )`: the value of `*rc` afterwards (it is `rc` before) and the
operations evaluated, in order. -/
def UG_try_or_coordinate (env : dispatch_env) (coordinator_id : Nat) (rc : Int) :
    Int × List dispatch_op :=
  let out := UG_try_or_coordinate_loop env coordinator_id rc
  if out.2.1 = env.gateway_id then
    -- local
    (env.local_oper, out.2.2 ++ [dispatch_op.local_oper])
  else (out.1, out.2.2)

/-- The dispatcher loop of the specification (§4.4), for given outcomes of
the operations: the local operation when this gateway is the coordinator;
else the remote operation, whose result is returned when it is OK, when it is
not "remote unavailable" or when the gateway cannot coordinate; else the
takeover, whose error is returned when it fails; after a takeover that
succeeded the coordinator is this gateway, and the loop takes the local
path. -/
def dispatcher_spec (env : dispatch_env) (coordinator_id : Nat) : Int :=
  if coordinator_id = env.gateway_id then env.local_oper
  else if env.remote_oper = 0 then 0
  else if !env.is_remote_unavailable env.remote_oper then env.remote_oper
  else if env.caps &&& env.SG_CAP_COORDINATE = 0 then env.remote_oper
  else if env.chcoord_rc ≠ 0 then env.chcoord_rc
  else env.local_oper

/-- The one situation in which `UG_chcoord` is reached, fails, and leaves
the id of this gateway in `*new_coordinator_response`. -/
def chcoord_fails_naming_self (env : dispatch_env) (coordinator_id : Nat) : Bool :=
  decide (coordinator_id ≠ env.gateway_id) && decide (env.remote_oper ≠ 0) &&
    env.is_remote_unavailable env.remote_oper &&
    decide (env.caps &&& env.SG_CAP_COORDINATE ≠ 0) &&
    decide (env.chcoord_rc ≠ 0) && decide (env.chcoord_response = env.gateway_id)

/-! ## Import of metadata (`UG_inode_import`) -/

/-- The metadata record exchanged with the MS: `struct md_entry`. -/
structure md_entry where
  type : Nat := 0
  name : String := ""
  file_id : Nat := 0
  ctime_sec : Int := 0
  ctime_nsec : Int := 0
  mtime_sec : Int := 0
  mtime_nsec : Int := 0
  manifest_mtime_sec : Int := 0
  manifest_mtime_nsec : Int := 0
  write_nonce : Int := 0
  xattr_nonce : Int := 0
  version : Int := 0
  max_read_freshness : Nat := 0
  max_write_freshness : Nat := 0
  owner : Nat := 0
  coordinator : Nat := 0
  volume : Nat := 0
  mode : Nat := 0
  size : Nat := 0
  error : Int := 0
  generation : Int := 0
  num_children : Int := 0
  capacity : Int := 0
  parent_id : Nat := 0
  parent_name : Option String := none
deriving DecidableEq, Repr

/-- The numeric values of the type constants of fskit and of libsyndicate,
which are defined in headers that are not among the sources. -/
structure type_codes where
  FSKIT_ENTRY_TYPE_FILE : Nat
  FSKIT_ENTRY_TYPE_DIR : Nat
  MD_ENTRY_FILE : Nat
  MD_ENTRY_DIR : Nat
deriving DecidableEq, Repr

/-- The function `UG_inode_export_match_type( dest, src )`. -/
def UG_inode_export_match_type (tc : type_codes) (dest : UG_inode) (src : md_entry) : Int :=
  let type := dest.entry.type
  let valid_type :=
    if type = tc.FSKIT_ENTRY_TYPE_FILE ∧ src.type = tc.MD_ENTRY_FILE then true
    else if type = tc.FSKIT_ENTRY_TYPE_DIR ∧ src.type = tc.MD_ENTRY_DIR then true
    else false
  if !valid_type then 0 else 1

/-- The function `UG_inode_export_match_size( dest, src )`. -/
def UG_inode_export_match_size (dest : UG_inode) (src : md_entry) : Int :=
  if dest.entry.size ≠ src.size then 0 else 1

/-- The function `UG_inode_export_match_version( dest, src )`. -/
def UG_inode_export_match_version (dest : UG_inode) (src : md_entry) : Int :=
  if dest.manifest.file_version ≠ src.version then 0 else 1

/-- The function `UG_inode_export_match_file_id( dest, src )`. -/
def UG_inode_export_match_file_id (dest : UG_inode) (src : md_entry) : Int :=
  if dest.entry.file_id ≠ src.file_id then 0 else 1

/-- The function `UG_inode_export_match_name( dest, src )`; `oom` says
whether the copy of the name made by `fskit_entry_get_name` runs out of
memory. -/
def UG_inode_export_match_name (oom : Bool) (dest : UG_inode) (src : md_entry) : Int :=
  if oom then -ENOMEM
  else if dest.entry.name ≠ src.name then 0
  else 1

/-- The function `UG_inode_import( dest, src )`: the return code and the
inode afterwards. -/
def UG_inode_import (tc : type_codes) (oom : Bool) (dest : UG_inode) (src : md_entry) :
    Int × UG_inode :=
  if UG_inode_export_match_file_id dest src = 0 then (-EINVAL, dest)
  else if UG_inode_export_match_name oom dest src ≤ 0 then (-EINVAL, dest)
  else if UG_inode_export_match_size dest src = 0 then (-EINVAL, dest)
  else if UG_inode_export_match_type tc dest src = 0 then (-EINVAL, dest)
  else if UG_inode_export_match_version dest src = 0 then (-EINVAL, dest)
  else
    -- looks good!
    (0,
     { dest with
       entry :=
         { dest.entry with
           ctime_sec := src.ctime_sec, ctime_nsec := src.ctime_nsec,
           mtime_sec := src.mtime_sec, mtime_nsec := src.mtime_nsec,
           owner := src.owner, group := src.volume, mode := src.mode },
       ms_write_nonce := src.write_nonce,
       ms_xattr_nonce := src.xattr_nonce,
       manifest :=
         { dest.manifest with coordinator_id := src.coordinator, owner_id := src.owner },
       max_read_freshness := src.max_read_freshness,
       max_write_freshness := src.max_write_freshness,
       generation := src.generation,
       ms_num_children := src.num_children,
       ms_capacity := src.capacity })

/-- The md_entry agrees with the inode in file id, name, size, type and
version. -/
def md_entry_agrees (tc : type_codes) (inode : UG_inode) (e : md_entry) : Bool :=
  decide (e.file_id = inode.entry.file_id) && decide (e.name = inode.entry.name) &&
    decide (e.size = inode.entry.size) &&
    (decide (inode.entry.type = tc.FSKIT_ENTRY_TYPE_FILE ∧ e.type = tc.MD_ENTRY_FILE) ||
      decide (inode.entry.type = tc.FSKIT_ENTRY_TYPE_DIR ∧ e.type = tc.MD_ENTRY_DIR)) &&
    decide (e.version = inode.manifest.file_version)

/-! ## Caching a block that is not dirty (`UG_inode_dirty_block_cache`) -/

/-- The function `UG_inode_dirty_block_cache( inode, dirty_block )`: the
return code and the inode afterwards. `oom` says whether the insertion into
the dirty-block map runs out of memory. -/
def UG_inode_dirty_block_cache (oom : Bool) (inode : UG_inode) (dirty_block : UG_dirty_block) :
    Int × UG_inode :=
  -- dirty? invalid
  if dirty_block.dirty then (-EINVAL, inode)
  else
    -- already cached?
    match map_find (UG_dirty_block_id dirty_block) inode.dirty_blocks with
    | some old_dirty_block =>
      -- there's a block here. is it the same one?
      if UG_dirty_block_version dirty_block = UG_dirty_block_version old_dirty_block then
        (0, inode)
      else (-EEXIST, inode)
    | none =>
      -- cache
      if oom then (-ENOMEM, inode)
      else (0, { inode with dirty_blocks := map_put dirty_block inode.dirty_blocks })

/-! ## Trimming the dirty blocks (`UG_inode_dirty_blocks_trim`) -/

/-- What the environment decides during one trim, per block id: the code of
`UG_dirty_block_buf_unshare`, the code of `UG_dirty_block_flush_async`, and
the code and staging descriptor of `UG_dirty_block_flush_finish`. -/
structure trim_env where
  unshare_rc : Nat → Int
  flush_async_rc : Nat → Int
  flush_finish : Nat → Int × Int

/-- Modelled from the spec: `unshare(d)` (§4.2), body not among the sources:
the buffer is deep-copied, after which the block owns it. A failed copy
leaves the block as it was. -/
def UG_dirty_block_buf_unshare (env : trim_env) (d : UG_dirty_block) : Int × UG_dirty_block :=
  if env.unshare_rc (UG_dirty_block_id d) ≠ 0 then (env.unshare_rc (UG_dirty_block_id d), d)
  else (0, { d with unshared := true })

/-- Modelled from the spec: `flush_async(d)` (§4.2), body not among the
sources: it fails on a block that is flushing or has a staging descriptor,
otherwise the buffer is submitted to the cache and the block is flushing. -/
def UG_dirty_block_flush_async (env : trim_env) (d : UG_dirty_block) : Int × UG_dirty_block :=
  if d.flushing ∨ 0 ≤ d.block_fd then (-EINVAL, d)
  else if env.flush_async_rc (UG_dirty_block_id d) ≠ 0 then
    (env.flush_async_rc (UG_dirty_block_id d), d)
  else (0, { d with flushing := true })

/-- Modelled from the spec: `flush_finish(d)` (§4.2), body not among the
sources: it waits for the write, clears `flushing` and stores the staging
descriptor; nothing happens to a block that is not flushing. -/
def UG_dirty_block_flush_finish (env : trim_env) (d : UG_dirty_block) : Int × UG_dirty_block :=
  if !d.flushing then (0, d)
  else if (env.flush_finish (UG_dirty_block_id d)).1 ≠ 0 then
    ((env.flush_finish (UG_dirty_block_id d)).1, { d with flushing := false })
  else (0, { d with flushing := false, block_fd := (env.flush_finish (UG_dirty_block_id d)).2 })

/-- The inner loop of the trim over `preserve[ i ]` for one block of the
dirty-block map: the code of a failed unshare (else `0`), the block and the
flag `do_preserve` afterwards. -/
def UG_inode_dirty_blocks_trim_preserve (env : trim_env) :
    List Nat → UG_dirty_block → Bool → Int × UG_dirty_block × Bool
  | [], d, do_preserve => (0, d, do_preserve)
  | id :: rest, d, do_preserve =>
    if UG_dirty_block_id d = id then
      -- don't flush this one, but make sure it's unshared
      if !d.unshared && d.buf.isSome then
        let u := UG_dirty_block_buf_unshare env d
        if u.1 ≠ 0 then (u.1, u.2, do_preserve)
        else UG_inode_dirty_blocks_trim_preserve env rest u.2 true
      else UG_inode_dirty_blocks_trim_preserve env rest d do_preserve
    else UG_inode_dirty_blocks_trim_preserve env rest d do_preserve

/-- How the first loop of the trim is left. -/
inductive trim_exit where
  /-- By `return rc` after a failed unshare. -/
  | returned (rc : Int)
  /-- At the end of the map, or by `break` after a failed flush, with this
  `worst_rc`. -/
  | fell_through (worst_rc : Int)
deriving DecidableEq, Repr

/-- The first loop of the trim over the dirty-block map: how it is left, the
blocks afterwards and the ids of the blocks `UG_dirty_block_flush_async` was
called on, in call order. -/
def UG_inode_dirty_blocks_trim_flush (env : trim_env) (preserve : Option (List Nat)) :
    List UG_dirty_block → trim_exit × List UG_dirty_block × List Nat
  | [] => (trim_exit.fell_through 0, [], [])
  | d :: rest =>
    let kept : Int × UG_dirty_block × Bool :=
      match preserve with
      | none => (0, d, false)
      | some ids => UG_inode_dirty_blocks_trim_preserve env ids d false
    if kept.1 ≠ 0 then (trim_exit.returned kept.1, kept.2.1 :: rest, [])
    else
      let d1 := kept.2.1
      let do_preserve := kept.2.2
      if !do_preserve && !d1.flushing && decide (d1.block_fd < 0) then
        -- flush out of RAM
        let flush := UG_dirty_block_flush_async env d1
        if flush.1 ≠ 0 then
          (trim_exit.fell_through flush.1, flush.2 :: rest, [UG_dirty_block_id d1])
        else
          let tail := UG_inode_dirty_blocks_trim_flush env preserve rest
          (tail.1, flush.2 :: tail.2.1, UG_dirty_block_id d1 :: tail.2.2)
      else
        let tail := UG_inode_dirty_blocks_trim_flush env preserve rest
        (tail.1, d1 :: tail.2.1, tail.2.2)

/-- The second loop of the trim: every flushing block is finished, and the
last failure is kept as `worst_rc`. -/
def UG_inode_dirty_blocks_trim_finish (env : trim_env) :
    List UG_dirty_block → Int → Int × List UG_dirty_block
  | [], worst_rc => (worst_rc, [])
  | d :: rest, worst_rc =>
    if d.flushing then
      let finish := UG_dirty_block_flush_finish env d
      let tail := UG_inode_dirty_blocks_trim_finish env rest
        (if finish.1 ≠ 0 then finish.1 else worst_rc)
      (tail.1, finish.2 :: tail.2)
    else
      let tail := UG_inode_dirty_blocks_trim_finish env rest worst_rc
      (tail.1, d :: tail.2)

/-- The function `UG_inode_dirty_blocks_trim( gateway, fs_path, inode,
preserve, preserve_len )`: the return code, the inode afterwards and the ids
of the blocks a flush was started on. -/
def UG_inode_dirty_blocks_trim (env : trim_env) (inode : UG_inode) (preserve : Option (List Nat)) :
    Int × UG_inode × List Nat :=
  let flushed := UG_inode_dirty_blocks_trim_flush env preserve inode.dirty_blocks
  match flushed.1 with
  | trim_exit.returned rc => (rc, { inode with dirty_blocks := flushed.2.1 }, flushed.2.2)
  | trim_exit.fell_through worst_rc =>
    let finished := UG_inode_dirty_blocks_trim_finish env flushed.2.1 worst_rc
    (finished.1, { inode with dirty_blocks := finished.2 }, flushed.2.2)

/-! ## Closures and their drivers (`src/libsyndicate/closure.cpp`)

The reload lock is not part of the model: the functions below are the
single-threaded behaviour of the code. -/

/-- The value of `ENOENT`. -/
def ENOENT : Int := 2

/-- The value of `ENODATA`. -/
def ENODATA : Int := 61

/-- One row of a callback table: `struct md_closure_callback_entry`. A table
is the list of the rows before the row with the NULL name; `sym_ptr` is
`none` for NULL. -/
structure md_closure_callback_entry where
  sym_name : String
  sym_ptr : Option Nat
deriving DecidableEq, Repr

/-- A closure: `struct md_closure`, without its lock. Pointers are `none` for
NULL; the defaults are the zeroed structure. -/
structure md_closure where
  so_path : Option String := none
  so_handle : Option Nat := none
  callbacks : Option (List md_closure_callback_entry) := none
  closure_conf : Option (List (String × String)) := none
  closure_secrets : Option (List (String × String)) := none
  cls : Option Nat := none
  running : Int := 0
  ignore_stubs : Bool := false
  on_disk : Bool := false
deriving DecidableEq, Repr

/-- What a closure function does to the world outside the closure. -/
inductive closure_op where
  /-- The driver text is written to a temporary file. -/
  | write_driver (driver_text : List Nat)
  /-- The driver's `closure_shutdown` at `sym_ptr` is called with `cls`. -/
  | call_shutdown (sym_ptr : Nat) (cls : Option Nat)
  /-- The driver's `closure_init` at `sym_ptr` is called. -/
  | call_init (sym_ptr : Nat)
  /-- The shared object behind a handle is closed. -/
  | dlclose (so_handle : Nat)
  /-- The file at a path is unlinked. -/
  | unlink (path : Option String)
deriving DecidableEq, Repr

/-- What the environment decides during the closure functions: the results
of the JSON, base64 and decryption helpers on the closure text, the
allocations that fail, the result of writing the driver to disk, the dynamic
linker (`dlopen` by path, `dlsym` by handle and name), and the results of
the driver's own `closure_shutdown` and `closure_init`. -/
structure closure_env where
  parse_json_rc : Int
  config_b64 : Option String
  parse_closure_config : Int × List (String × String)
  secrets_b64 : Option String
  parse_closure_secrets : Int × List (String × String)
  driver_b64 : Option String
  base64_decode : Int × List Nat
  oom_conf : Bool
  oom_secrets : Bool
  oom_so_path : Bool
  oom_callbacks : Bool
  fullpath : Option String
  write_to_tmpfile : Int × Option String
  dlopen : Option String → Option Nat
  dlsym : Nat → String → Option Nat
  closure_shutdown_rc : Int
  closure_init : Int × Option Nat

/-- The function `md_closure_callback_table_from_prototype( prototype )`: a
copy of the names with every `sym_ptr` NULL, or NULL when memory runs out
(`SG_safe_free` leaves the pointer it frees NULL). -/
def md_closure_callback_table_from_prototype (oom : Bool)
    (prototype : List md_closure_callback_entry) : Option (List md_closure_callback_entry) :=
  if oom then none else some (prototype.map (fun e => { e with sym_ptr := none }))

/-- The function `md_parse_json_b64_string( toplevel_obj, "driver", val, val_len )`:
the return code and `*val`. -/
def md_parse_json_b64_string (env : closure_env) : Int × Option (List Nat) :=
  match env.driver_b64 with
  | none => (-ENOENT, none)
  | some b64 =>
    if b64.length = 0 then (-ENOENT, none)
    else if env.base64_decode.1 ≠ 0 then (env.base64_decode.1, none)
    else (0, some env.base64_decode.2)

/-- The function `md_parse_closure`, called with a non-NULL `driver_bin`: the
return code, the config map, the secrets map and `*driver_bin` afterwards. -/
def md_parse_closure (env : closure_env)
    (closure_conf closure_secrets : Option (List (String × String))) :
    Int × Option (List (String × String)) × Option (List (String × String)) × Option (List Nat) :=
  if env.parse_json_rc ≠ 0 then (-EINVAL, closure_conf, closure_secrets, none)
  else
    -- requested config?
    let config : Int × Option (List (String × String)) :=
      match closure_conf, env.config_b64 with
      | some conf, some json_b64 =>
        if json_b64.length ≠ 0 then
          (env.parse_closure_config.1, some (conf ++ env.parse_closure_config.2))
        else (0, some conf)
      | conf, _ => (0, conf)
    -- requested secrets?
    let secrets : Int × Option (List (String × String)) :=
      if config.1 = 0 then
        match closure_secrets, env.secrets_b64 with
        | some sec, some _ =>
          (env.parse_closure_secrets.1, some (sec ++ env.parse_closure_secrets.2))
        | sec, _ => (0, sec)
      else (config.1, closure_secrets)
    -- requested driver?
    let driver : Int × Option (List Nat) :=
      if secrets.1 = 0 then
        let parsed := md_parse_json_b64_string env
        -- not an error if not present...
        if parsed.1 = -ENOENT then (0, parsed.2) else parsed
      else (secrets.1, none)
    if driver.1 ≠ 0 then
      -- failed somewhere...clean up
      (driver.1, config.2.map (fun _ => []), secrets.2.map (fun _ => []), none)
    else (0, config.2, secrets.2, driver.2)

/-- The function `md_write_driver( conf, _so_path_ret, driver_text, driver_text_len )`:
the return code and `*_so_path_ret`. -/
def md_write_driver (env : closure_env) : Int × Option String :=
  match env.fullpath with
  | none => (-ENOMEM, none)
  | some _ => env.write_to_tmpfile

/-- The loop of `md_load_driver` over the symbol table, for the handle
`so_handle`: the return code and the table afterwards. -/
def md_load_driver_symbols (env : closure_env) (so_handle : Nat) (ignore_stubs : Bool) :
    List md_closure_callback_entry → Int × List md_closure_callback_entry
  | [] => (0, [])
  | entry :: rest =>
    let sym_ptr := env.dlsym so_handle entry.sym_name
    let entry1 : md_closure_callback_entry := { entry with sym_ptr := sym_ptr }
    match sym_ptr with
    | none =>
      if ignore_stubs then
        let tail := md_load_driver_symbols env so_handle ignore_stubs rest
        (tail.1, entry1 :: tail.2)
      else (-ENOENT, entry1 :: rest)
    | some _ =>
      let tail := md_load_driver_symbols env so_handle ignore_stubs rest
      (tail.1, entry1 :: tail.2)

/-- The function `md_load_driver( closure, so_path, closure_symtable )`: the
return code, the closure, the symbol table and the calls made afterwards. -/
def md_load_driver (env : closure_env) (closure : md_closure) (so_path : Option String)
    (closure_symtable : List md_closure_callback_entry) :
    Int × md_closure × List md_closure_callback_entry × List closure_op :=
  match env.dlopen so_path with
  | none => (-ENODATA, { closure with so_handle := none }, closure_symtable, [])
  | some so_handle =>
    let loaded := md_load_driver_symbols env so_handle closure.ignore_stubs closure_symtable
    if loaded.1 ≠ 0 then
      (loaded.1, { closure with so_handle := none }, loaded.2, [closure_op.dlclose so_handle])
    else (0, { closure with so_handle := some so_handle }, loaded.2, [])

/-- The function `md_closure_find_callback( closure, cb_name )` for a non-NULL
closure: the `sym_ptr` of the last row of that name, NULL when the closure
is not running or has no table. -/
def md_closure_find_callback (closure : md_closure) (cb_name : String) : Option Nat :=
  if closure.running = 0 then none
  else
    match closure.callbacks with
    | none => none
    | some callbacks =>
      callbacks.foldl (fun ret entry => if entry.sym_name = cb_name then entry.sym_ptr else ret)
        none

/-- The part of `md_closure_driver_reload` that follows the choice of
`new_so_path`: the copy of the callback table, the shutdown of the existing
closure, the load and the initialization of the new driver, and the swap.
`new_closure` is the local closure of the function and `log` the calls made
so far. There is no defined result (`none`) when the closure has no callback
table, since the prototype is then read through a NULL pointer. -/
def md_closure_driver_reload_load (env : closure_env) (closure new_closure : md_closure)
    (stored_to_disk : Bool) (new_so_path : Option String) (log : List closure_op) :
    Option (Int × md_closure × List closure_op) :=
  let unlink_new : List closure_op :=
    if stored_to_disk then [closure_op.unlink new_so_path] else []
  match closure.callbacks with
  | none => none
  | some prototype =>
    -- there's closure code to be had...
    match md_closure_callback_table_from_prototype env.oom_callbacks prototype with
    | none => some (-ENOMEM, closure, log ++ unlink_new)
    | some callbacks =>
      let new_closure1 : md_closure := { new_closure with callbacks := some callbacks }
      -- shut down the existing closure
      let shutdown : List closure_op :=
        match md_closure_find_callback closure "closure_shutdown" with
        | some shutdown_sym => [closure_op.call_shutdown shutdown_sym closure.cls]
        | none => []
      -- load the driver
      let load := md_load_driver env new_closure1 new_so_path callbacks
      if load.1 ≠ 0 then some (load.1, closure, log ++ shutdown ++ load.2.2.2 ++ unlink_new)
      else
        let new_closure2 : md_closure := { load.2.1 with callbacks := some load.2.2.1 }
        -- success so far... initialize it
        match md_closure_find_callback new_closure2 "closure_init" with
        | some init_sym =>
          some (env.closure_init.1, closure,
            log ++ shutdown ++ load.2.2.2 ++ [closure_op.call_init init_sym] ++ unlink_new)
        | none =>
          -- copy over the dynamic link handle
          let close_old : List closure_op :=
            match closure.so_handle with
            | some old_so_handle => [closure_op.dlclose old_so_handle]
            | none => []
          -- load the new callbacks
          let closure1 : md_closure :=
            { closure with so_handle := new_closure2.so_handle, callbacks := new_closure2.callbacks }
          -- clean up old cached closure code
          let unlink_old : List closure_op :=
            match closure1.so_path with
            | some old_so_path =>
              if stored_to_disk then [closure_op.unlink (some old_so_path)] else []
            | none => []
          let closure2 : md_closure :=
            if closure1.so_path.isSome && stored_to_disk then { closure1 with on_disk := false }
            else closure1
          some (load.1, { closure2 with so_path := new_so_path },
            log ++ shutdown ++ load.2.2.2 ++ close_old ++ unlink_old)

/-- The function `md_closure_driver_reload( conf, closure, driver_text,
driver_text_len )`: the return code, the closure afterwards and the calls
made; `driver_text` is `none` for NULL. -/
def md_closure_driver_reload (env : closure_env) (closure : md_closure)
    (driver_text : Option (List Nat)) : Option (Int × md_closure × List closure_op) :=
  -- preserve closure-handling preferences
  let new_closure : md_closure := { ignore_stubs := closure.ignore_stubs }
  match driver_text with
  | some text =>
    -- store to disk
    let written := md_write_driver env
    if written.1 ≠ 0 ∧ written.1 ≠ -ENOENT then
      some (-ENODATA, closure, [closure_op.write_driver text])
    else
      md_closure_driver_reload_load env closure new_closure true written.2
        [closure_op.write_driver text]
  | none =>
    match closure.so_path with
    | some so_path =>
      -- reload from disk
      if env.oom_so_path then some (-ENOMEM, closure, [])
      else md_closure_driver_reload_load env closure new_closure false (some so_path) []
    | none =>
      -- invalid arguments
      some (-EINVAL, closure, [])

/-- The function `md_closure_reload( closure, conf, pubkey, privkey,
closure_text, closure_text_len )`: the return code, the closure afterwards
and the calls made. -/
def md_closure_reload (env : closure_env) (closure : md_closure) :
    Option (Int × md_closure × List closure_op) :=
  -- attempt to reload the essentials...
  let closure_conf : Option (List (String × String)) := if env.oom_conf then none else some []
  let closure_secrets : Option (List (String × String)) :=
    if env.oom_secrets then none else some []
  let parsed := md_parse_closure env closure_conf closure_secrets
  if parsed.1 ≠ 0 then some (parsed.1, closure, [])
  else
    -- copy over the new conf and secrets...
    let old_closure_conf := closure.closure_conf
    let old_closure_secrets := closure.closure_secrets
    let closure1 : md_closure :=
      { closure with closure_conf := parsed.2.1, closure_secrets := parsed.2.2.1 }
    -- attempt to reload the driver...
    match md_closure_driver_reload env closure1 parsed.2.2.2 with
    | none => none
    | some (rc, closure2, log) =>
      if rc ≠ 0 then
        -- revert
        some (rc,
          { closure2 with closure_conf := old_closure_conf, closure_secrets := old_closure_secrets },
          log)
      else some (rc, closure2, log)

/-! ## Truncate of an open file (`src/UG/fs/trunc.cpp`) -/

/-- The value of `EREMOTEIO`. -/
def EREMOTEIO : Int := 121

/-- The part of `struct fs_entry` the truncate reads and writes: the size,
the version, whether the file is local (`URL_LOCAL( fent->url )`), the block
versions of the manifest in id order, and the mark left by
`fs_entry_mark_read_stale`. -/
structure fs_entry where
  size : Nat
  version : Int
  is_local : Bool
  manifest : List (Nat × Int)
  read_stale : Bool
deriving DecidableEq, Repr

/-- What the truncate asks of the storage, replication and network layers. -/
inductive trunc_op where
  /-- A call of `fs_entry_put_block` with this block id and buffer. -/
  | put_block (block_id : Nat) (block : List Nat)
  /-- A call of `fs_entry_remove_block`. -/
  | remove_block (block_id : Nat)
  /-- The truncate message posted to the remote owner: the size, the number
  of blocks and their versions. -/
  | post_write (size : Nat) (new_max_block : Nat) (versions : List Int)
  /-- A call of `fs_entry_replicate_write` with the modified blocks. -/
  | replicate_write (modified_blocks : List (Nat × Int))
  /-- A call of `fs_entry_reversion_file`. -/
  | reversion_file (new_version : Int)
deriving DecidableEq, Repr

/-- The reply to a posted write: `withdraw_ack->type()` and, for an error,
`withdraw_ack->errorcode()`. -/
inductive write_ack where
  | accepted
  | error (errorcode : Int)
  | other
deriving DecidableEq, Repr

/-- What the environment decides during one truncate: the block size of the
volume, the code of `fs_entry_revalidate_manifest`, what
`fs_entry_do_read_block` returns and delivers for an offset, the code of
`fs_entry_put_block` and the version the manifest holds for the block
afterwards, the outcome of `fs_entry_expand_file`, the code and the reply of
`fs_entry_post_write`, the value of `fs_entry_next_file_version` and the code
of `fs_entry_reversion_file`. The codes of `fs_entry_remove_block` and
`fs_entry_replicate_write` are only logged by the truncate and are left out. -/
structure trunc_env where
  blocking_factor : Nat
  revalidate_manifest_rc : Int
  do_read_block : Nat → Int × List Nat
  put_block_rc : Nat → Int
  put_block_version : Nat → Int
  expand_file : fs_entry → Nat → Int × fs_entry × List (Nat × Int)
  post_write_rc : Int
  withdraw_ack : write_ack
  next_file_version : Int
  reversion_file_rc : Int

/-- Modelled from the spec: `get_block_version( id )` of the manifest, body
not among the sources: the version filed under the id, `0` when there is
none. -/
def file_manifest_get_block_version (manifest : List (Nat × Int)) (block_id : Nat) : Int :=
  match manifest.find? (fun e => e.1 = block_id) with
  | some e => e.2
  | none => 0

/-- Modelled from the spec: `truncate(max_id)` of the manifest (§4.1), which
drops all entries with `id ≥ max_id`. -/
def file_manifest_truncate (manifest : List (Nat × Int)) (new_max_block : Nat) : List (Nat × Int) :=
  manifest.filter (fun e => decide (e.1 < new_max_block))

/-- Modelled from the spec: the effect of a successful `fs_entry_put_block`
on the manifest, body not among the sources: the block is filed under its
new version. -/
def file_manifest_put_block (manifest : List (Nat × Int)) (block_id : Nat) (version : Int) :
    List (Nat × Int) :=
  manifest.filter (fun e => decide (e.1 < block_id)) ++ [(block_id, version)]
    ++ manifest.filter (fun e => decide (block_id < e.1))

/-- The assignment `modified_blocks[ block_id ] = version`. -/
def modification_map_put (modified_blocks : List (Nat × Int)) (block_id : Nat) (version : Int) :
    List (Nat × Int) :=
  modified_blocks.filter (fun e => decide (e.1 < block_id)) ++ [(block_id, version)]
    ++ modified_blocks.filter (fun e => decide (block_id < e.1))

/-- The buffer of one block after `CALLOC_LIST`, `fs_entry_do_read_block`
and the `memset` of the truncate: the bytes read, cut or padded with zeros
to the block size, with every byte from `size % blocking_factor` on set to
zero. -/
def fs_entry_truncate_block_buffer (blocking_factor size : Nat) (read : List Nat) : List Nat :=
  let block := (read ++ List.replicate blocking_factor 0).take blocking_factor
  block.take (size % blocking_factor)
    ++ List.replicate (blocking_factor - size % blocking_factor) 0

/-- The block `if( trunc_block_id > 0 )` of `fs_entry_truncate_impl`: the
code `err`, the entry, `modified_blocks` and the calls made. -/
def fs_entry_truncate_tail (env : trunc_env) (fent : fs_entry) (size trunc_block_id : Nat) :
    Int × fs_entry × List (Nat × Int) × List trunc_op :=
  if trunc_block_id > 0 then
    -- truncate the last block
    let nr := env.do_read_block (trunc_block_id * env.blocking_factor)
    if nr.1 < 0 then (nr.1, fent, [], [])
    else
      -- truncate this block
      let block := fs_entry_truncate_block_buffer env.blocking_factor size nr.2
      let rc := env.put_block_rc trunc_block_id
      if rc ≠ 0 then (rc, fent, [], [trunc_op.put_block trunc_block_id block])
      else
        let fent1 : fs_entry :=
          { fent with
            manifest := file_manifest_put_block fent.manifest trunc_block_id
              (env.put_block_version trunc_block_id) }
        -- record that we've written this block
        (0, fent1,
          modification_map_put [] trunc_block_id
            (file_manifest_get_block_version fent1.manifest trunc_block_id),
          [trunc_op.put_block trunc_block_id block])
  else (0, fent, [], [])

/-- The part of `fs_entry_truncate_impl` that changes the size of the file
(`if( size < fent->size ) ... else if( size > fent->size ) ...`): the code
`err`, the entry, `modified_blocks` and the calls made. -/
def fs_entry_truncate_resize (env : trunc_env) (fent : fs_entry) (size : Nat) :
    Int × fs_entry × List (Nat × Int) × List trunc_op :=
  let blocking_factor := env.blocking_factor
  -- which blocks need to be withdrawn?
  let max_block :=
    if fent.size % blocking_factor > 0 then fent.size / blocking_factor + 1
    else fent.size / blocking_factor
  let trunc_block_id := if size % blocking_factor > 0 then size / blocking_factor else 0
  let new_max_block :=
    if size % blocking_factor > 0 then size / blocking_factor + 1 else size / blocking_factor
  -- if we're removing blocks, then we'll need to withdraw them.
  if size < fent.size then
    let tail := fs_entry_truncate_tail env fent size trunc_block_id
    let err := tail.1
    let fent1 := tail.2.1
    let unlinked : fs_entry × List trunc_op :=
      if fent1.is_local then
        -- unlink the blocks that would have been cut off
        ({ fent1 with manifest := file_manifest_truncate fent1.manifest new_max_block },
          ((List.range (max_block - new_max_block)).map
            (fun i => trunc_op.remove_block (new_max_block + i))))
      else (fent1, [])
    let fent2 := unlinked.1
    let fent3 : fs_entry := if err = 0 then { fent2 with size := size } else fent2
    (err, fent3, tail.2.2.1, tail.2.2.2 ++ unlinked.2)
  else if size > fent.size then
    let expand := env.expand_file fent size
    (expand.1, expand.2.1, expand.2.2, [])
  else (0, fent, [], [])

/-- The function `fs_entry_truncate_impl( core, fs_path, fent, size, user,
volume )`: the return code, the entry afterwards, `modified_blocks` and the
calls made. There is no defined result (`none`) for a block size of zero,
which the code divides by. -/
def fs_entry_truncate_impl (env : trunc_env) (fent : fs_entry) (size : Nat) :
    Option (Int × fs_entry × List (Nat × Int) × List trunc_op) :=
  -- make sure we have the latest manifest
  if env.revalidate_manifest_rc ≠ 0 then some (env.revalidate_manifest_rc, fent, [], [])
  else if env.blocking_factor = 0 then none
  else
    let new_max_block :=
      if size % env.blocking_factor > 0 then size / env.blocking_factor + 1
      else size / env.blocking_factor
    let is_local := fent.is_local
    let resized := fs_entry_truncate_resize env fent size
    let modified_blocks := resized.2.2.1
    -- inform the remote block owner that the data must be truncated
    let posted : Int × fs_entry × List trunc_op :=
      if resized.1 = 0 ∧ ¬ is_local then
        let message := trunc_op.post_write resized.2.1.size new_max_block
          ((List.range new_max_block).map
            (fun i => file_manifest_get_block_version resized.2.1.manifest i))
        let err : Int :=
          if env.post_write_rc ≠ 0 then - EIO
          else
            match env.withdraw_ack with
            | write_ack.accepted => 0
            | write_ack.error errorcode => errorcode
            | write_ack.other => - EIO
        (err, { resized.2.1 with read_stale := true }, [message])
      else (resized.1, resized.2.1, [])
    -- replicate if the file is local
    let replicated : List trunc_op :=
      if posted.1 = 0 ∧ is_local ∧ modified_blocks.length > 0 then
        [trunc_op.replicate_write modified_blocks]
      else []
    -- reversion this file atomically
    let reversioned : Int × fs_entry × List trunc_op :=
      if posted.1 = 0 ∧ is_local then
        let new_version := env.next_file_version
        (env.reversion_file_rc,
          if env.reversion_file_rc = 0 then { posted.2.1 with version := new_version }
          else posted.2.1,
          [trunc_op.reversion_file new_version])
      else (posted.1, posted.2.1, [])
    some (reversioned.1, reversioned.2.1, modified_blocks,
      resized.2.2.2 ++ posted.2.2 ++ replicated ++ reversioned.2.2)

/-- What the environment decides during `fs_entry_versioned_truncate` before
the truncate itself: the code of `fs_entry_revalidate_path`, and the entry
and the code `fs_entry_resolve_path` gives for the path. -/
structure resolve_env where
  revalidate_path_rc : Int
  resolve_path : Option fs_entry × Int

/-- The function `fs_entry_versioned_truncate( core, fs_path, newsize,
known_version, user, volume )`: the return code, the entry of the path
afterwards (when it resolves), `modified_blocks` and the calls made. -/
def fs_entry_versioned_truncate (env : trunc_env) (path : resolve_env) (newsize : Nat)
    (known_version : Int) : Option (Int × Option fs_entry × List (Nat × Int) × List trunc_op) :=
  if path.revalidate_path_rc ≠ 0 then some (- EREMOTEIO, path.resolve_path.1, [], [])
  else
    match path.resolve_path with
    | (none, err) => some (err, none, [], [])
    | (some fent, err) =>
      if err ≠ 0 then some (err, some fent, [], [])
      else if known_version > 0 ∧ fent.version ≠ known_version then
        some (-EINVAL, some fent, [], [])
      else
        match fs_entry_truncate_impl env fent newsize with
        | none => none
        | some (rc, fent1, modified_blocks, log) => some (rc, some fent1, modified_blocks, log)

/-! ## Setting a closure up and shutting it down (`src/libsyndicate/closure.cpp`) -/

/-- What the environment decides in `md_closure_init` and
`md_closure_init_bin` before the driver is loaded: the code of
`pthread_rwlock_init`, whether the copy of the driver prototype runs out of
memory, and whether the copy of the path of the driver does. -/
structure closure_init_env where
  rwlock_init_rc : Int
  oom_prototype : Bool
  oom_so_path : Bool

/-- The function `md_closure_shutdown( closure )`: the return code, the
closure afterwards and the calls made. `SG_safe_free` and `SG_safe_delete`
leave the pointers they release NULL. -/
def md_closure_shutdown (closure : md_closure) : Int × md_closure × List closure_op :=
  -- call the closure shutdown...
  let rc : Int := 0
  let closure1 : md_closure := { closure with running := 0 }
  -- closure shutdown method?
  let shutdown : List closure_op :=
    match md_closure_find_callback closure1 "closure_shutdown" with
    | some shutdown_sym => [closure_op.call_shutdown shutdown_sym closure1.cls]
    | none => []
  let unlink_so : List closure_op :=
    match closure1.so_path with
    | some so_path => if !closure1.on_disk then [closure_op.unlink (some so_path)] else []
    | none => []
  let close_so : List closure_op :=
    match closure1.so_handle with
    | some so_handle => [closure_op.dlclose so_handle]
    | none => []
  (rc,
   { closure1 with
     so_path := none, so_handle := none, callbacks := none, closure_conf := none,
     closure_secrets := none },
   shutdown ++ unlink_so ++ close_so)

/-- The function `md_closure_init( closure, conf, pubkey, privkey,
driver_prototype, closure_text, closure_text_len, ignore_stubs )`: the return
code, the closure afterwards and the calls made; `none` where
`md_closure_driver_reload` has no defined result. -/
def md_closure_init (env : closure_env) (init : closure_init_env)
    (driver_prototype : List md_closure_callback_entry) (ignore_stubs : Bool) :
    Option (Int × md_closure × List closure_op) :=
  let closure : md_closure := {}
  if env.oom_conf ∨ env.oom_secrets then some (-ENOMEM, closure, [])
  else
    -- load up the config, secrets, and driver
    let parsed := md_parse_closure env (some []) (some [])
    if parsed.1 ≠ 0 then some (parsed.1, closure, [])
    -- intialize the closure
    else if init.rwlock_init_rc ≠ 0 then some (init.rwlock_init_rc, closure, [])
    else
      -- initialize the callbacks from the prototype
      match md_closure_callback_table_from_prototype init.oom_prototype driver_prototype with
      | none => some (-ENOMEM, closure, [])
      | some callbacks =>
        -- load the information into the closure
        let closure1 : md_closure :=
          { closure with
            callbacks := some callbacks, closure_conf := parsed.2.1,
            closure_secrets := parsed.2.2.1, ignore_stubs := ignore_stubs }
        -- initialize the driver
        match md_closure_driver_reload env closure1 parsed.2.2.2 with
        | none => none
        | some (rc, closure2, log) =>
          if rc ≠ 0 then
            let down := md_closure_shutdown closure2
            some (rc, down.2.1, log ++ down.2.2)
          else
            -- ready to roll!
            some (rc, { closure2 with running := 1 }, log)

/-- The function `md_closure_init_bin( conf, closure, so_path,
driver_prototype, ignore_stubs )`: the return code, the closure afterwards
and the calls made; `none` where `md_closure_driver_reload` has no defined
result. `so_path` is `none` for NULL. -/
def md_closure_init_bin (env : closure_env) (init : closure_init_env) (so_path : Option String)
    (driver_prototype : List md_closure_callback_entry) (ignore_stubs : Bool) :
    Option (Int × md_closure × List closure_op) :=
  let closure : md_closure := {}
  -- intialize the closure
  if init.rwlock_init_rc ≠ 0 then some (init.rwlock_init_rc, closure, [])
  else
    match md_closure_callback_table_from_prototype init.oom_prototype driver_prototype with
    | none => some (-ENOMEM, closure, [])
    | some callbacks =>
      let closure1 : md_closure := { closure with callbacks := some callbacks }
      if so_path.isNone ∨ init.oom_so_path then
        some (-ENOMEM, { closure1 with callbacks := none }, [])
      else
        let closure2 : md_closure :=
          { closure1 with so_path := so_path, ignore_stubs := ignore_stubs, on_disk := true }
        -- initialize the driver
        match md_closure_driver_reload env closure2 none with
        | none => none
        | some (rc, closure3, log) =>
          if rc ≠ 0 then
            let down := md_closure_shutdown closure3
            some (0, down.2.1, log ++ down.2.2)
          else
            -- ready to roll!
            some (0, { closure3 with running := 1 }, log)

/-! ## Flushing the blocks of a snapshot (`UG_sync_blocks_flush_async`) -/

/-- The function `UG_sync_blocks_flush_async( gateway, fs_path, file_id,
file_version, dirty_blocks )`: the return code, the blocks afterwards and the
ids of the blocks `UG_dirty_block_flush_async` was called on, in call
order. -/
def UG_sync_blocks_flush_async (env : trim_env) :
    List UG_dirty_block → Int × List UG_dirty_block × List Nat
  | [] => (0, [], [])
  | d :: rest =>
    if !d.dirty then
      -- no need to flush
      let tail := UG_sync_blocks_flush_async env rest
      (tail.1, d :: tail.2.1, tail.2.2)
    else if 0 ≤ d.block_fd ∨ d.flushing then
      -- already flushed or flushing
      let tail := UG_sync_blocks_flush_async env rest
      (tail.1, d :: tail.2.1, tail.2.2)
    else
      -- start flushing
      let flush := UG_dirty_block_flush_async env d
      if flush.1 ≠ 0 then (flush.1, flush.2 :: rest, [UG_dirty_block_id d])
      else
        let tail := UG_sync_blocks_flush_async env rest
        (tail.1, flush.2 :: tail.2.1, UG_dirty_block_id d :: tail.2.2)

/-- A flush is due on a block: it is dirty, has no staging descriptor and is
not flushing. -/
def flush_due (d : UG_dirty_block) : Bool :=
  d.dirty && decide (d.block_fd < 0) && !d.flushing

/-- The flushes the specification asks for, given the blocks a flush is due
on in map order: one after the other until the first that fails. The result
is the code of that failure (`0` when there is none) and the ids of the
blocks a flush was asked for. -/
def flush_in_order (env : trim_env) : List UG_dirty_block → Int × List Nat
  | [] => (0, [])
  | d :: rest =>
    if env.flush_async_rc (UG_dirty_block_id d) ≠ 0 then
      (env.flush_async_rc (UG_dirty_block_id d), [UG_dirty_block_id d])
    else ((flush_in_order env rest).1, UG_dirty_block_id d :: (flush_in_order env rest).2)

/-! ## Eviction hints of a file handle (`UG_file_handle_evict_blocks`) -/

/-- A file handle: `struct UG_file_handle`, with its eviction hints (block
id and version, in id order) and its flags; the inode it refers to is passed
along with it. -/
structure UG_file_handle where
  evicts : List (Nat × Int)
  flags : Int
deriving DecidableEq, Repr

/-- The loop of `UG_file_handle_evict_blocks` over the hints: the dirty-block
map afterwards and what `UG_dirty_block_free` was called on. The call is made
through a pointer into the slot that `erase` has just released;
`after_erase` says what is read there for the block the slot held. -/
def UG_file_handle_evict_blocks_loop (after_erase : UG_dirty_block → UG_dirty_block) :
    List (Nat × Int) → List UG_dirty_block → List UG_dirty_block × List UG_dirty_block
  | [], dirty_blocks => (dirty_blocks, [])
  | hint :: rest, dirty_blocks =>
    match map_find hint.1 dirty_blocks with
    | some dirty_block =>
      -- clear, if the version matches and it's not dirty
      if UG_dirty_block_version dirty_block = hint.2 ∧ dirty_block.dirty = false then
        -- evict
        let tail := UG_file_handle_evict_blocks_loop after_erase rest
          (map_erase hint.1 dirty_blocks)
        (tail.1, after_erase dirty_block :: tail.2)
      else UG_file_handle_evict_blocks_loop after_erase rest dirty_blocks
    | none => UG_file_handle_evict_blocks_loop after_erase rest dirty_blocks

/-- The function `UG_file_handle_evict_blocks( fh )`: the return code, the
handle and the inode it refers to afterwards, and what was released. -/
def UG_file_handle_evict_blocks (after_erase : UG_dirty_block → UG_dirty_block)
    (fh : UG_file_handle) (inode_ref : UG_inode) :
    Int × UG_file_handle × UG_inode × List UG_dirty_block :=
  let out := UG_file_handle_evict_blocks_loop after_erase fh.evicts inode_ref.dirty_blocks
  (0, { fh with evicts := [] }, { inode_ref with dirty_blocks := out.1 }, out.2)

/-! ## Export of metadata (`UG_inode_export`) -/

/-- The function `UG_inode_export( dest, src, parent_id, parent_name )`: the
return code and `*dest` afterwards. `oom_name` and `oom_parent_name` say
whether the copies of the two names run out of memory. -/
def UG_inode_export (tc : type_codes) (oom_name oom_parent_name : Bool) (dest : md_entry)
    (src : UG_inode) (parent_id : Nat) (parent_name : Option String) : Int × md_entry :=
  -- get type
  let type := src.entry.type
  let typed : Option md_entry :=
    if type = tc.FSKIT_ENTRY_TYPE_FILE then some { dest with type := tc.MD_ENTRY_FILE }
    else if type = tc.FSKIT_ENTRY_TYPE_DIR then some { dest with type := tc.MD_ENTRY_DIR }
    else none
  match typed with
  | none =>
    -- invalid
    (-EINVAL, dest)
  | some dest1 =>
    if oom_name then (-ENOMEM, dest1)
    else if oom_parent_name ∧ parent_name.isSome then (-ENOMEM, dest1)
    else
      (0,
       { dest1 with
         type := type,
         name := src.entry.name,
         file_id := src.entry.file_id,
         ctime_sec := src.entry.ctime_sec, ctime_nsec := src.entry.ctime_nsec,
         mtime_sec := src.entry.mtime_sec, mtime_nsec := src.entry.mtime_nsec,
         manifest_mtime_sec := src.manifest.mtime_sec,
         manifest_mtime_nsec := src.manifest.mtime_nsec,
         write_nonce := src.write_nonce,
         xattr_nonce := src.xattr_nonce,
         version := src.manifest.file_version,
         max_read_freshness := src.max_read_freshness,
         max_write_freshness := src.max_write_freshness,
         owner := src.entry.owner,
         coordinator := src.manifest.coordinator_id,
         volume := src.manifest.volume_id,
         mode := src.entry.mode,
         size := src.entry.size,
         error := 0,
         generation := src.generation,
         num_children := src.ms_num_children,
         capacity := src.ms_capacity,
         parent_id := parent_id,
         parent_name := parent_name })

/-! ## The path comparator of the SQL driver (`src/AG/drivers/sql/driver.h`) -/

/-- The number of `/` characters of a path: the loops of `path_comp` over
`path1[ i ]` and `path2[ i ]`. -/
def path_nr_comps (path : String) : Nat :=
  (path.toList.filter (fun c => c = '/')).length

/-- The comparator `path_comp::operator()( path1, path2 )`. -/
def path_comp (path1 path2 : String) : Bool :=
  if path1 = path2 then false
  else
    let p1_nr_comps := path_nr_comps path1
    let p2_nr_comps := path_nr_comps path2
    if p1_nr_comps = p2_nr_comps then true
    else decide (p1_nr_comps < p2_nr_comps)

/-! ## Concrete states used by the evaluations below -/

/-- A clean manifest block with the given id and version. -/
def sample_block (block_id : Nat) (block_version : Int) : SG_manifest_block :=
  { block_id := block_id, block_version := block_version, hash := [block_id], dirty := false }

/-- A manifest of file `7`, version `1`, with the given size, modtime (whole
seconds) and blocks. -/
def sample_manifest (size : Nat) (mtime_sec : Int) (blocks : List SG_manifest_block) :
    SG_manifest :=
  { volume_id := 1, coordinator_id := 1, owner_id := 1, file_id := 7, file_version := 1,
    size := size, mtime_sec := mtime_sec, mtime_nsec := 0, blocks := blocks }

/-- A buffered, not yet flushed block with the given id, version and dirty flag. -/
def sample_dirty_block (block_id : Nat) (block_version : Int) (dirty : Bool) : UG_dirty_block :=
  { info := sample_block block_id block_version, buf := some [block_id], block_fd := -1,
    unshared := true, dirty := dirty, flushing := false }

/-- An inode with the given manifest and dirty blocks and an empty ledger. -/
def sample_inode (manifest : SG_manifest) (dirty_blocks : List UG_dirty_block) : UG_inode :=
  { manifest := manifest, replaced_blocks := { manifest with blocks := [] },
    dirty_blocks := dirty_blocks }

/-- A commit during which only the put into the replaced-block ledger runs
out of memory. -/
def ledger_oom : commit_env :=
  { oom_dup := false, oom_put := false, oom_insert := false, oom_ledger := true,
    oom_rewind := false, stack := sample_block 0 0 }

/-- A file of four blocks `0..3` at version 1 (block size 4096, size 16384). -/
def four_blocks : SG_manifest :=
  sample_manifest 16384 1
    [sample_block 0 1, sample_block 1 1, sample_block 2 1, sample_block 3 1]

/-- No allocation fails. -/
def no_oom : Nat → Bool := fun _ => false

/-- An inode whose block 5 was written locally (version 3, dirty, buffered)
and has not been replicated yet. -/
def dirty_five : UG_inode :=
  sample_inode (sample_manifest 24576 1 [{ sample_block 5 3 with dirty := true }])
    [sample_dirty_block 5 3 true]

/-- A remote manifest with a later modtime that holds version 4 of block 5. -/
def remote_five : SG_manifest :=
  sample_manifest 24576 2 [sample_block 5 4]

/-- A commit during which no allocation fails. -/
def quiet_commit : commit_env :=
  { oom_dup := false, oom_put := false, oom_insert := false, oom_ledger := false,
    oom_rewind := false, stack := sample_block 0 0 }

/-- A restore on a volume of block size 4096 during which no allocation
fails; `past_end` is what a read through `end()` yields. -/
def quiet_restore (past_end : UG_dirty_block) : restore_env :=
  { block_size := 4096, past_end := past_end, commit_attempts := fun _ => [quiet_commit] }

/-- An fsync during which nothing fails except, possibly, `UG_replicate`,
which returns `replicate_rc`; nobody else touches the inode meanwhile. -/
def quiet_fsync (replicate_rc : Int) : fsync_env :=
  { oom_alloc := false, oom_extract := no_oom, replica_context_init_rc := 0,
    vacuum_context_init_rc := 0, oom_queue_push := false, return_rounds := [no_oom],
    woken := true, meanwhile := fun inode => inode, replicate_rc := replicate_rc,
    restore := quiet_restore (sample_dirty_block 0 0 false), vacuum_context_restore_rc := 0,
    vacuumer_enqueue_ends := true }

/-- A file of one clean block, nothing buffered, nothing to vacuum, no fsync
waiting. -/
def one_block_inode : UG_inode :=
  sample_inode (sample_manifest 4096 1 [sample_block 0 1]) []

/-- A gateway (id 1, allowed to coordinate) whose remote operation fails as
"remote unavailable" (`-ETIMEDOUT`) and whose `UG_chcoord` fails with `-11`
while naming this very gateway as the coordinator; the local operation would
return 0. -/
def contested_takeover : dispatch_env :=
  { gateway_id := 1, caps := 1, SG_CAP_COORDINATE := 1,
    is_remote_unavailable := fun rc => decide (rc = -ETIMEDOUT),
    remote_oper := -ETIMEDOUT, chcoord_rc := -11, chcoord_response := 1, local_oper := 0 }

/-- A gateway (id 1, allowed to coordinate) whose remote operation fails as
"remote unavailable" and whose `UG_chcoord` fails with `-11`, naming gateway
3 as the coordinator. -/
def lost_takeover : dispatch_env :=
  { gateway_id := 1, caps := 1, SG_CAP_COORDINATE := 1,
    is_remote_unavailable := fun rc => decide (rc = -ETIMEDOUT),
    remote_oper := -ETIMEDOUT, chcoord_rc := -11, chcoord_response := 3, local_oper := 0 }

/-- Type constants with the file codes 1 and the directory codes 2. -/
def sample_type_codes : type_codes :=
  { FSKIT_ENTRY_TYPE_FILE := 1, FSKIT_ENTRY_TYPE_DIR := 2, MD_ENTRY_FILE := 1, MD_ENTRY_DIR := 2 }

/-- The file `x` (file id 7, version 1, size 4096). -/
def file_x : UG_inode :=
  { sample_inode (sample_manifest 4096 1 [sample_block 0 1]) [] with
    entry := { type := 1, file_id := 7, name := "x", size := 4096 } }

/-- A metadata record for the file `x` that agrees with `file_x` in file id,
name, size, type and version, and brings a new owner and mode. -/
def entry_x : md_entry :=
  { type := 1, name := "x", file_id := 7, version := 1, size := 4096, owner := 5, mode := 420 }

/-- The request is a reversion of the cached file. -/
def cache_op_is_reversion : cache_op → Bool
  | cache_op.evict_block _ _ _ _ => false
  | cache_op.reversion_file _ _ _ => true

/-- An inode whose block 0 has been written twice since the last fsync: the
manifest and the dirty-block map hold version 2, the ledger holds the
replaced version 1. -/
def twice_written : UG_inode :=
  { sample_inode (sample_manifest 4096 1 [{ sample_block 0 2 with dirty := true }])
      [sample_dirty_block 0 2 true] with
    replaced_blocks := sample_manifest 4096 1 [sample_block 0 1] }

/-- A manifest of the same modtime as `one_block_inode` that holds version 2
of block 0. -/
def refreshed_block_zero : SG_manifest :=
  sample_manifest 4096 1 [sample_block 0 2]

/-- Only the allocation for block 0 fails. -/
def oom_at_zero : Nat → Bool := fun id => decide (id = 0)

/-- A dirty-block map of a clean block 0 and the dirty blocks 1 and 2. -/
def clean_then_dirty : UG_inode :=
  sample_inode (sample_manifest 12288 1 [])
    [sample_dirty_block 0 1 false, sample_dirty_block 1 1 true, sample_dirty_block 2 1 true]

/-- A trim during which nothing fails; the flush of block `id` ends with the
staging descriptor `10 + id`. -/
def quiet_trim : trim_env :=
  { unshare_rc := fun _ => 0, flush_async_rc := fun _ => 0,
    flush_finish := fun id => (0, 10 + (id : Int)) }

/-- An inode that buffers block 0 in a buffer of its own and block 1 in a
buffer it shares with the caller; neither is flushing or flushed. -/
def own_and_shared : UG_inode :=
  sample_inode (sample_manifest 8192 1 [])
    [{ sample_dirty_block 0 1 true with unshared := true },
     { sample_dirty_block 1 1 true with unshared := false }]

/-- A closure text that parses, with a config, no secrets and a driver, on a
gateway where nothing runs out of memory and the driver is stored as
`/tmp/new.so`. The linker opens `/tmp/old.so` (handle 7) and `/tmp/new.so`
(handle 8) and resolves `closure_init` and `closure_shutdown` in both; the
driver's `closure_shutdown` and `closure_init` return 0. -/
def quiet_closure : closure_env :=
  { parse_json_rc := 0, config_b64 := some "e30=", parse_closure_config := (0, [("k", "new")]),
    secrets_b64 := none, parse_closure_secrets := (0, []),
    driver_b64 := some "AQID", base64_decode := (0, [1, 2, 3]),
    oom_conf := false, oom_secrets := false, oom_so_path := false, oom_callbacks := false,
    fullpath := some "/tmp/closure", write_to_tmpfile := (0, some "/tmp/new.so"),
    dlopen := fun path =>
      if path = some "/tmp/old.so" then some 7
      else if path = some "/tmp/new.so" then some 8 else none,
    dlsym := fun so_handle name =>
      if name = "closure_init" then some (100 * so_handle)
      else if name = "closure_shutdown" then some (100 * so_handle + 1) else none,
    closure_shutdown_rc := 0, closure_init := (0, some 56) }

/-- The environment `quiet_closure`, except that the stored driver cannot be
opened by the linker. -/
def unloadable_driver : closure_env :=
  { quiet_closure with
    dlopen := fun path => if path = some "/tmp/old.so" then some 7 else none }

/-- A running closure with the driver `/tmp/old.so` loaded under handle 7,
its `closure_init` and `closure_shutdown` resolved, and driver state 55. -/
def running_closure : md_closure :=
  { so_path := some "/tmp/old.so", so_handle := some 7,
    callbacks := some [{ sym_name := "closure_init", sym_ptr := some 700 },
                       { sym_name := "closure_shutdown", sym_ptr := some 701 }],
    closure_conf := some [("k", "old")], closure_secrets := some [],
    cls := some 55, running := 1, ignore_stubs := false, on_disk := false }

/-- A symbol table of `closure_init`, `closure_shutdown` and `get_block`,
nothing resolved yet. -/
def three_symbols : List md_closure_callback_entry :=
  [{ sym_name := "closure_init", sym_ptr := none },
   { sym_name := "closure_shutdown", sym_ptr := none },
   { sym_name := "get_block", sym_ptr := none }]

/-- A truncate on a volume of block size 4 during which nothing fails: every
read delivers a full block of sevens, a put leaves the block at version 2,
and the next file version is 2. -/
def quiet_trunc : trunc_env :=
  { blocking_factor := 4, revalidate_manifest_rc := 0,
    do_read_block := fun _ => (4, [7, 7, 7, 7]), put_block_rc := fun _ => 0,
    put_block_version := fun _ => 2,
    expand_file := fun fent size => (0, { fent with size := size }, []),
    post_write_rc := 0, withdraw_ack := write_ack.accepted, next_file_version := 2,
    reversion_file_rc := 0 }

/-- A local file of two full blocks (size 8) at version 5. -/
def local_two_blocks : fs_entry :=
  { size := 8, version := 5, is_local := true, manifest := [(0, 1), (1, 1)],
    read_stale := false }

/-- A path that revalidates and resolves to `local_two_blocks`. -/
def path_of_two_blocks : resolve_env :=
  { revalidate_path_rc := 0, resolve_path := (some local_two_blocks, 0) }

/-- A manifest of the same modtime as `four_blocks` that holds version 2 of
the blocks 1 and 3. -/
def refreshed_one_three : SG_manifest :=
  sample_manifest 16384 1 [sample_block 1 2, sample_block 3 2]

/-- A driver prototype of `closure_init` and `closure_shutdown`. -/
def two_symbols : List md_closure_callback_entry :=
  [{ sym_name := "closure_init", sym_ptr := none },
   { sym_name := "closure_shutdown", sym_ptr := none }]

/-- The lock is set up and no copy runs out of memory. -/
def quiet_init : closure_init_env :=
  { rwlock_init_rc := 0, oom_prototype := false, oom_so_path := false }

/-- A metadata record for the file `x` that agrees with `file_x` and carries
the nonces 9 and 4 of the MS. -/
def entry_x_nonces : md_entry :=
  { entry_x with write_nonce := 9, xattr_nonce := 4 }

/-- A snapshot of five blocks: block 0 dirty and buffered, block 1 clean,
block 2 dirty and flushed (descriptor 5), block 3 dirty and flushing, block 4
dirty and buffered. -/
def five_blocks : List UG_dirty_block :=
  [sample_dirty_block 0 1 true, sample_dirty_block 1 1 false,
   { sample_dirty_block 2 1 true with block_fd := 5 },
   { sample_dirty_block 3 1 true with flushing := true },
   sample_dirty_block 4 1 true]

/-- A file handle with hints for version 1 of block 0, version 1 of block 1
and version 7 of block 2. -/
def hinting_handle : UG_file_handle :=
  { evicts := [(0, 1), (1, 1), (2, 7)], flags := 0 }

/-- An inode that caches the clean block 0, the dirty block 1 and the clean
block 2, all of version 1. -/
def cached_inode : UG_inode :=
  sample_inode (sample_manifest 12288 1 [])
    [sample_dirty_block 0 1 false, sample_dirty_block 1 1 true, sample_dirty_block 2 1 false]

/-- C1 (commit atomicity) at a failing ledger put. Block 0 is in the manifest
at version 1 and not in the ledger; version 2 of it is committed and the put
of the old block info into the ledger runs out of memory. The call returns
`-ENOMEM` with the manifest and the ledger as before, but the dirty-block map
holds the new block: where it was empty before the call, and also where it
held the version-1 buffer before the call (the old buffer is gone). -/
theorem commit_ledger_failure_keeps_new_dirty_block :
    UG_inode_dirty_block_commit ledger_oom
        (sample_inode (sample_manifest 4096 1 [sample_block 0 1]) [])
        (sample_dirty_block 0 2 true)
      = (-ENOMEM,
         sample_inode (sample_manifest 4096 1 [sample_block 0 1])
           [sample_dirty_block 0 2 true],
         []) ∧
    UG_inode_dirty_block_commit ledger_oom
        (sample_inode (sample_manifest 4096 1 [{ sample_block 0 1 with dirty := true }])
          [sample_dirty_block 0 1 true])
        (sample_dirty_block 0 2 true)
      = (-ENOMEM,
         sample_inode (sample_manifest 4096 1 [{ sample_block 0 1 with dirty := true }])
           [sample_dirty_block 0 2 true],
         []) := by
  decide

/-! ## Merge: evaluations -/

/-- C2 (merge inserts missing blocks) at an inode without blocks and a new
manifest holding block 0: the merge returns 0, sends nothing to the cache and
leaves the inode's manifest without block 0. -/
theorem merge_skips_missing_block :
    UG_inode_manifest_merge_blocks no_oom (sample_inode (sample_manifest 4096 1 []) [])
        (sample_manifest 4096 2 [sample_block 0 1])
      = (0, sample_inode (sample_manifest 4096 1 []) [], []) := by
  decide

/-- C3 (merge conflict rule) at a clean local block 5 of version 3 and a
remote block 5 of version 4. With the remote modtime one second later the
put is made without `replace`: the local entry stays and the merge returns
`-EEXIST`. With equal modtimes, and with the remote modtime one second
earlier, the local entry is replaced by the remote one and the old version is
evicted from the cache. -/
theorem merge_conflict_by_modtime :
    UG_inode_manifest_merge_blocks no_oom
        (sample_inode (sample_manifest 4096 1 [sample_block 5 3]) [])
        (sample_manifest 4096 2 [sample_block 5 4])
      = (-EEXIST, sample_inode (sample_manifest 4096 1 [sample_block 5 3]) [], []) ∧
    UG_inode_manifest_merge_blocks no_oom
        (sample_inode (sample_manifest 4096 1 [sample_block 5 3]) [])
        (sample_manifest 4096 1 [sample_block 5 4])
      = (0,
         { sample_inode (sample_manifest 4096 1 [sample_block 5 3]) [] with
           manifest := sample_manifest 4096 1 [sample_block 5 4] },
         [cache_op.evict_block 7 1 5 3]) ∧
    UG_inode_manifest_merge_blocks no_oom
        (sample_inode (sample_manifest 4096 2 [sample_block 5 3]) [])
        (sample_manifest 4096 1 [sample_block 5 4])
      = (0,
         { sample_inode (sample_manifest 4096 2 [sample_block 5 3]) [] with
           manifest := sample_manifest 4096 2 [sample_block 5 4] },
         [cache_op.evict_block 7 1 5 3]) := by
  decide

/-- C5 (merge commutativity) at `A` = block 0 of version 1 (modtime 1) and
`B` = no blocks (modtime 2), both without dirty blocks: `merge A B` holds
block 0 and `merge B A` holds nothing. -/
theorem merge_not_commutative :
    manifest_clean (sample_manifest 4096 1 [sample_block 0 1]) = true ∧
    manifest_clean (sample_manifest 4096 2 []) = true ∧
    (merge (sample_manifest 4096 1 [sample_block 0 1]) (sample_manifest 4096 2 [])).blocks
      = [sample_block 0 1] ∧
    (merge (sample_manifest 4096 2 []) (sample_manifest 4096 1 [sample_block 0 1])).blocks
      = [] := by
  decide

/-- C6 (merge associativity) at `A` = block 0 of version 1, `B` = no blocks,
`C` = block 0 of version 3, none of them dirty, with modtimes 3, 2, 1 and
also with three equal modtimes: `merge (merge A B) C` holds version 3 of
block 0 and `merge A (merge B C)` holds version 1. -/
theorem merge_not_associative :
    (merge (merge (sample_manifest 4096 3 [sample_block 0 1]) (sample_manifest 4096 2 []))
        (sample_manifest 4096 1 [sample_block 0 3])).blocks = [sample_block 0 3] ∧
    (merge (sample_manifest 4096 3 [sample_block 0 1])
        (merge (sample_manifest 4096 2 []) (sample_manifest 4096 1 [sample_block 0 3]))).blocks
      = [sample_block 0 1] ∧
    (merge (merge (sample_manifest 4096 1 [sample_block 0 1]) (sample_manifest 4096 1 []))
        (sample_manifest 4096 1 [sample_block 0 3])).blocks = [sample_block 0 3] ∧
    (merge (sample_manifest 4096 1 [sample_block 0 1])
        (merge (sample_manifest 4096 1 []) (sample_manifest 4096 1 [sample_block 0 3]))).blocks
      = [sample_block 0 1] := by
  decide

/-! ## Truncate: evaluations -/

/-- C8 (truncate keeps every block below the drop id) at block size 4096,
blocks `{0,1,2,3}` and new size 6000: the drop id is `ceil(6000 / 4096) = 2`,
yet the manifest afterwards holds block 0 only; the tail block 1 is gone. -/
theorem truncate_drops_tail_block :
    ceil_div 6000 4096 = 2 ∧
    UG_inode_drop_block_id 4096 6000 = 2 ∧
    (UG_inode_truncate 4096 (sample_inode four_blocks []) 6000 2).map
        (fun r => map_keys r.1.manifest.blocks) = some [0] := by
  decide

/-- C9 (truncate_find_removed predicts truncate) at block size 4096, blocks
`{0,1,2,3}` and new size 6000: `UG_inode_truncate_find_removed` returns 0,
leaves the inode as it was and reports blocks `{2,3}`, while
`UG_inode_truncate` deletes blocks `{1,2,3}` from the manifest. -/
theorem find_removed_misses_tail_block :
    UG_inode_truncate_find_removed no_oom 4096 (sample_inode four_blocks []) 6000
        (some (sample_manifest 0 0 []))
      = some (0, sample_inode four_blocks [],
          some (sample_manifest 0 0 [sample_block 2 1, sample_block 3 1])) ∧
    (UG_inode_truncate 4096 (sample_inode four_blocks []) 6000 2).map
        (fun r => four_blocks.blocks.filter
          (fun b => (SG_manifest_block_lookup r.1.manifest b.block_id).isNone))
      = some [sample_block 1 1, sample_block 2 1, sample_block 3 1] := by
  decide

/-- C10 (truncate drops the dirty blocks of every truncated block) at block
size 4096, manifest blocks `{0,1,2,3}`, dirty blocks `{2,3}` and new size
6000: the drop id is 2, and afterwards the dirty-block map still holds
block 3; only the cache evictions cover both blocks. -/
theorem truncate_keeps_later_dirty_block :
    ceil_div 6000 4096 = 2 ∧
    UG_inode_truncate 4096
        (sample_inode four_blocks [sample_dirty_block 2 1 true, sample_dirty_block 3 1 true])
        6000 0
      = some
        ({ manifest := sample_manifest 6000 1 [sample_block 0 1],
           replaced_blocks := (sample_inode four_blocks []).replaced_blocks,
           dirty_blocks := [sample_dirty_block 3 1 true] },
         [cache_op.evict_block 7 1 2 1, cache_op.evict_block 7 1 2 1,
          cache_op.evict_block 7 1 3 1]) := by
  decide


/-! ## Facts about the ordered maps -/

/-- A value found under a key carries that key. -/
theorem map_find_id {β : Type} [has_block_id β] (k : Nat) (l : List β) (v : β)
    (h : map_find k l = some v) : has_block_id.id_of v = k := by
  induction l with
  | nil => simp [map_find] at h
  | cons w t ih =>
    simp only [map_find] at h
    split at h
    · rename_i hw
      cases h
      exact hw
    · exact ih h

/-- After `m[ id_of( v ) ] = v` the key of `v` finds `v`. -/
theorem map_find_put_same {β : Type} [has_block_id β] (v : β) (l : List β) :
    map_find (has_block_id.id_of v) (map_put v l) = some v := by
  induction l with
  | nil => simp [map_put, map_find]
  | cons w t ih =>
    simp only [map_put]
    split
    · simp [map_find]
    · split
      · simp [map_find]
      · rename_i hne _
        simp [map_find, hne, ih]

/-- The assignment `m[ id_of( v ) ] = v` changes no other key. -/
theorem map_find_put_other {β : Type} [has_block_id β] (v : β) (l : List β) (k : Nat)
    (h : k ≠ has_block_id.id_of v) : map_find k (map_put v l) = map_find k l := by
  induction l with
  | nil => simp [map_put, map_find, Ne.symm h]
  | cons w t ih =>
    simp only [map_put]
    split
    · rename_i hw
      have hwk : ¬ has_block_id.id_of w = k := fun e => h (e ▸ hw.symm ▸ rfl)
      simp [map_find, Ne.symm h, hwk]
    · split
      · simp [map_find, Ne.symm h]
      · simp [map_find, ih]

/-- An erased key is not found. -/
theorem map_find_erase_same {β : Type} [has_block_id β] (k : Nat) (l : List β) :
    map_find k (map_erase k l) = none := by
  induction l with
  | nil => simp [map_erase, map_find]
  | cons w t ih =>
    simp only [map_erase]
    split
    · exact ih
    · rename_i hne
      simp [map_find, hne, ih]

/-- Erasing a key changes no other key. -/
theorem map_find_erase_other {β : Type} [has_block_id β] (k j : Nat) (l : List β)
    (h : j ≠ k) : map_find j (map_erase k l) = map_find j l := by
  induction l with
  | nil => simp [map_erase, map_find]
  | cons w t ih =>
    simp only [map_erase]
    split
    · rename_i hw
      have hwj : ¬ has_block_id.id_of w = j := fun e => h (e ▸ hw ▸ rfl)
      simp [map_find, hwj, ih]
    · simp [map_find, ih]


/-! ## Facts about the manifest primitives -/

/-- A put changes the entry of no other block id. -/
theorem SG_manifest_put_block_lookup_other (m : SG_manifest) (b : SG_manifest_block)
    (replace oom : Bool) (k : Nat) (h : k ≠ b.block_id) :
    SG_manifest_block_lookup (SG_manifest_put_block m b replace oom).2 k
      = SG_manifest_block_lookup m k := by
  unfold SG_manifest_put_block SG_manifest_block_lookup
  split
  · rfl
  · split
    · rfl
    · exact map_find_put_other b m.blocks k h

/-- A delete changes the entry of no other block id. -/
theorem SG_manifest_delete_block_lookup_other (m : SG_manifest) (k j : Nat) (h : j ≠ k) :
    SG_manifest_block_lookup (SG_manifest_delete_block m k) j = SG_manifest_block_lookup m j := by
  unfold SG_manifest_delete_block SG_manifest_block_lookup
  exact map_find_erase_other k j m.blocks h

/-! ## Merge never touches a locally dirty block -/

/-- One pass of the merge loop leaves a dirty manifest entry, and the
dirty-block and ledger entries of its id, as they are, and evicts nothing
under that id. -/
theorem merge_block_keeps_dirty (oom : Nat → Bool) (replace : Bool) (inode : UG_inode)
    (new_block : SG_manifest_block) (id : Nat) (b : SG_manifest_block)
    (hb : SG_manifest_block_lookup inode.manifest id = some b) (hdirty : b.dirty = true) :
    SG_manifest_block_lookup
        (UG_inode_manifest_merge_block oom replace inode new_block).2.1.manifest id = some b ∧
    map_find id (UG_inode_manifest_merge_block oom replace inode new_block).2.1.dirty_blocks
      = map_find id inode.dirty_blocks ∧
    SG_manifest_block_lookup
        (UG_inode_manifest_merge_block oom replace inode new_block).2.1.replaced_blocks id
      = SG_manifest_block_lookup inode.replaced_blocks id ∧
    ∀ op ∈ (UG_inode_manifest_merge_block oom replace inode new_block).2.2,
      cache_op_evicted_id op ≠ some id := by
  by_cases hid : new_block.block_id = id
  · -- the entry of the dirty block itself: skipped
    have hskip : UG_inode_manifest_merge_block oom replace inode new_block = (0, inode, []) := by
      unfold UG_inode_manifest_merge_block
      simp only [hid, hb, hdirty]
      split <;> rfl
    rw [hskip]
    simp [hb]
  · have hne : id ≠ new_block.block_id := fun e => hid e.symm
    unfold UG_inode_manifest_merge_block
    simp only []
    split
    · simp [hb]
    · split
      · simp [hb]
      · split
        · simp [hb]
        · split
          · simp [SG_manifest_put_block_lookup_other _ _ _ _ _ hne, hb]
          · split
            · simp [SG_manifest_put_block_lookup_other _ _ _ _ _ hne, hb, cache_op_evicted_id, hid]
            · rename_i dirty_block hfind
              have hdid : UG_dirty_block_id dirty_block = new_block.block_id :=
                map_find_id _ _ _ hfind
              have hdne : id ≠ has_block_id.id_of
                  (UG_dirty_block_evict_and_free
                    { inode with manifest := (SG_manifest_put_block inode.manifest new_block replace
                        (oom new_block.block_id)).2 } dirty_block).2 := by
                show id ≠ UG_dirty_block_id dirty_block
                rw [hdid]
                exact hne
              refine ⟨?_, ?_, ?_, ?_⟩
              · split <;> simp [SG_manifest_put_block_lookup_other _ _ _ _ _ hne, hb]
              · split <;> simp [map_find_put_other _ _ _ hdne]
              · split
                · rfl
                · simp [SG_manifest_delete_block_lookup_other _ _ _ hne]
              · intro op hop
                simp only [List.mem_cons, List.mem_singleton, List.not_mem_nil, or_false] at hop
                rcases hop with rfl | rfl
                · simp [cache_op_evicted_id, hid]
                · simp [UG_dirty_block_evict_and_free, cache_op_evicted_id, hdid, hid]


/-- The merge loop leaves a dirty manifest entry, and the dirty-block and
ledger entries of its id, as they are, and evicts nothing under that id. -/
theorem merge_loop_keeps_dirty (oom : Nat → Bool) (replace : Bool) (id : Nat)
    (b : SG_manifest_block) (hdirty : b.dirty = true) (new_blocks : List SG_manifest_block) :
    ∀ inode : UG_inode, SG_manifest_block_lookup inode.manifest id = some b →
      SG_manifest_block_lookup
          (UG_inode_manifest_merge_loop oom replace new_blocks inode).2.1.manifest id = some b ∧
      map_find id (UG_inode_manifest_merge_loop oom replace new_blocks inode).2.1.dirty_blocks
        = map_find id inode.dirty_blocks ∧
      SG_manifest_block_lookup
          (UG_inode_manifest_merge_loop oom replace new_blocks inode).2.1.replaced_blocks id
        = SG_manifest_block_lookup inode.replaced_blocks id ∧
      ∀ op ∈ (UG_inode_manifest_merge_loop oom replace new_blocks inode).2.2,
        cache_op_evicted_id op ≠ some id := by
  induction new_blocks with
  | nil =>
    intro inode hb
    simp [UG_inode_manifest_merge_loop, hb]
  | cons new_block rest ih =>
    intro inode hb
    have hstep := merge_block_keeps_dirty oom replace inode new_block id b hb hdirty
    simp only [UG_inode_manifest_merge_loop]
    split
    · exact hstep
    · have htail := ih (UG_inode_manifest_merge_block oom replace inode new_block).2.1 hstep.1
      refine ⟨htail.1, htail.2.1.trans hstep.2.1, htail.2.2.1.trans hstep.2.2.1, ?_⟩
      intro op hop
      rcases List.mem_append.mp hop with h | h
      · exact hstep.2.2.2 op h
      · exact htail.2.2.2 op h

/-- C4. Merge never overwrites a locally dirty block: when the inode's
manifest entry for a block id is dirty, `UG_inode_manifest_merge_blocks`
leaves that manifest entry, the dirty-block-map entry and the replaced-ledger
entry of the id unchanged and sends no cache eviction for the id, whatever
the new manifest holds, whatever its modtime and whichever put runs out of
memory. -/
theorem merge_keeps_dirty_block (oom : Nat → Bool) (inode : UG_inode)
    (new_manifest : SG_manifest) (id : Nat) (b : SG_manifest_block)
    (hb : SG_manifest_block_lookup inode.manifest id = some b) (hdirty : b.dirty = true) :
    SG_manifest_block_lookup
        (UG_inode_manifest_merge_blocks oom inode new_manifest).2.1.manifest id = some b ∧
    map_find id (UG_inode_manifest_merge_blocks oom inode new_manifest).2.1.dirty_blocks
      = map_find id inode.dirty_blocks ∧
    SG_manifest_block_lookup
        (UG_inode_manifest_merge_blocks oom inode new_manifest).2.1.replaced_blocks id
      = SG_manifest_block_lookup inode.replaced_blocks id ∧
    ∀ op ∈ (UG_inode_manifest_merge_blocks oom inode new_manifest).2.2,
      cache_op_evicted_id op ≠ some id :=
  merge_loop_keeps_dirty oom _ id b hdirty new_manifest.blocks inode hb


/-! ## Truncate -/

/-- The drop id both truncate functions compute is the ceiling of
`new_size / block_size`. -/
theorem UG_inode_drop_block_id_eq_ceil_div (block_size new_size : Nat) (hbs : 0 < block_size) :
    UG_inode_drop_block_id block_size new_size = ceil_div new_size block_size := by
  unfold UG_inode_drop_block_id ceil_div
  have hdm := Nat.div_add_mod new_size block_size
  have hlt := Nat.mod_lt new_size hbs
  split
  · rename_i hrem
    symm
    apply Nat.div_eq_of_lt_le
    · have : (new_size / block_size + 1) * block_size = block_size * (new_size / block_size) + block_size := by ring
      omega
    · have : (new_size / block_size + 1 + 1) * block_size = block_size * (new_size / block_size) + block_size + block_size := by ring
      omega
  · rename_i hrem
    have h0 : new_size % block_size = 0 := by omega
    symm
    apply Nat.div_eq_of_lt_le
    · have : (new_size / block_size) * block_size = block_size * (new_size / block_size) := by ring
      omega
    · have : (new_size / block_size + 1) * block_size = block_size * (new_size / block_size) + block_size := by ring
      omega

/-- The value `ceil_div n bs` is the least integer not below the quotient
`n / bs`. -/
theorem ceil_div_eq_ceil (n bs : Nat) (hbs : 0 < bs) :
    ceil_div n bs = ⌈(n : ℚ) / (bs : ℚ)⌉₊ := by
  have hq : (0 : ℚ) < (bs : ℚ) := by exact_mod_cast hbs
  apply le_antisymm
  · -- ceil_div ≤ ceil
    have h := Nat.le_ceil ((n : ℚ) / (bs : ℚ))
    rw [div_le_iff₀ hq] at h
    have h2 : n ≤ ⌈(n : ℚ) / (bs : ℚ)⌉₊ * bs := by exact_mod_cast h
    unfold ceil_div
    generalize ⌈(n : ℚ) / (bs : ℚ)⌉₊ = c at h2 ⊢
    apply Nat.le_of_lt_succ
    rw [Nat.div_lt_iff_lt_mul hbs, Nat.succ_mul]
    omega
  · apply Nat.ceil_le.mpr
    rw [div_le_iff₀ hq]
    have h : n ≤ ceil_div n bs * bs := by
      unfold ceil_div
      have hdm := Nat.div_add_mod (n + bs - 1) bs
      have hlt := Nat.mod_lt (n + bs - 1) hbs
      have : (n + bs - 1) / bs * bs = bs * ((n + bs - 1) / bs) := by ring
      omega
    exact_mod_cast h

/-- Looking up an id at or above the cut of `SG_manifest_truncate` finds
nothing. -/
theorem SG_manifest_truncate_lookup_ge (m : SG_manifest) (max_block_id id : Nat)
    (h : max_block_id ≤ id) :
    SG_manifest_block_lookup (SG_manifest_truncate m max_block_id) id = none := by
  unfold SG_manifest_block_lookup SG_manifest_truncate
  simp only []
  induction m.blocks with
  | nil => simp [map_find]
  | cons w t ih =>
    simp only [List.filter]
    split
    · rename_i hw
      have hlt : w.block_id < max_block_id := by simpa using hw
      have hne : ¬ has_block_id.id_of w = id := by
        show ¬ w.block_id = id
        omega
      simp [map_find, hne, ih]
    · exact ih

/-- Looking up an id below the cut of `SG_manifest_truncate` finds what was
there. -/
theorem SG_manifest_truncate_lookup_lt (m : SG_manifest) (max_block_id id : Nat)
    (h : id < max_block_id) :
    SG_manifest_block_lookup (SG_manifest_truncate m max_block_id) id
      = SG_manifest_block_lookup m id := by
  unfold SG_manifest_block_lookup SG_manifest_truncate
  simp only []
  induction m.blocks with
  | nil => simp [map_find]
  | cons w t ih =>
    simp only [List.filter]
    split
    · simp [map_find, ih]
    · rename_i hw
      have hge : ¬ w.block_id < max_block_id := by simpa using hw
      have hne : ¬ has_block_id.id_of w = id := by
        show ¬ w.block_id = id
        omega
      simp [map_find, hne, ih]

/-- One pass of the sweep over the dead block ids changes neither the
manifest nor the ledger. -/
theorem UG_inode_truncate_block_manifest (drop_block_id : Nat)
    (state : UG_inode × List cache_op) (dead_block_id : Nat) :
    (UG_inode_truncate_block drop_block_id state dead_block_id).1.manifest = state.1.manifest ∧
    (UG_inode_truncate_block drop_block_id state dead_block_id).1.replaced_blocks
      = state.1.replaced_blocks := by
  unfold UG_inode_truncate_block
  split
  · exact ⟨rfl, rfl⟩
  · simp only []
    split <;> exact ⟨rfl, rfl⟩

/-- The sweep over the dead block ids changes neither the manifest nor the
ledger. -/
theorem UG_inode_truncate_sweep_manifest (drop_block_id : Nat) (ids : List Nat) :
    ∀ state : UG_inode × List cache_op,
      (ids.foldl (UG_inode_truncate_block drop_block_id) state).1.manifest = state.1.manifest ∧
      (ids.foldl (UG_inode_truncate_block drop_block_id) state).1.replaced_blocks
        = state.1.replaced_blocks := by
  induction ids with
  | nil => intro state; exact ⟨rfl, rfl⟩
  | cons d rest ih =>
    intro state
    have hstep := UG_inode_truncate_block_manifest drop_block_id state d
    have htail := ih (UG_inode_truncate_block drop_block_id state d)
    simp only [List.foldl]
    exact ⟨htail.1.trans hstep.1, htail.2.trans hstep.2⟩

/-- What `UG_inode_truncate` does to the manifest and the ledger: the file
version is set when `new_version` is not 0, the blocks are cut at
`new_size / block_size`, the size is set; the ledger is left alone. -/
theorem UG_inode_truncate_manifest (block_size : Nat) (inode : UG_inode) (new_size : Nat)
    (new_version : Int) (hbs : 0 < block_size)
    (hrange : SG_manifest_get_block_range inode.manifest + 1 < 2 ^ 64) :
    ∃ res, UG_inode_truncate block_size inode new_size new_version = some res ∧
      res.1.manifest
        = SG_manifest_set_size
            (SG_manifest_truncate
              (if new_version ≠ 0 then SG_manifest_set_file_version inode.manifest new_version
               else inode.manifest)
              (new_size / block_size))
            new_size ∧
      res.1.replaced_blocks = inode.replaced_blocks := by
  unfold UG_inode_truncate
  simp only [Nat.pos_iff_ne_zero.mp hbs, if_false, if_neg (not_le.mpr hrange)]
  have hsweep := UG_inode_truncate_sweep_manifest (UG_inode_drop_block_id block_size new_size)
    (dead_block_ids (UG_inode_drop_block_id block_size new_size)
      (SG_manifest_get_block_range inode.manifest)) (inode, [])
  refine ⟨_, rfl, ?_, ?_⟩
  · by_cases hv : new_version = 0
    · simp [hv, hsweep.1]
    · simp [hv, hsweep.1]
  · by_cases hv : new_version = 0
    · simp [hv, hsweep.2]
    · simp [hv, hsweep.2]

/-- C7. Truncate postcondition: for a block size `bs > 0` (and a manifest
whose largest block id is below `2^64 - 1`, so that the sweep over the dead
ids ends), `UG_inode_truncate` returns, the manifest's size is then the new
size `n`, and the manifest has no entry with a block id `≥ ceil(n / bs)`,
whether or not `n` is a multiple of `bs`. -/
theorem truncate_postcondition (block_size : Nat) (inode : UG_inode) (new_size : Nat)
    (new_version : Int) (hbs : 0 < block_size)
    (hrange : SG_manifest_get_block_range inode.manifest + 1 < 2 ^ 64) :
    ∃ res, UG_inode_truncate block_size inode new_size new_version = some res ∧
      res.1.manifest.size = new_size ∧
      ∀ id, ceil_div new_size block_size ≤ id →
        SG_manifest_block_lookup res.1.manifest id = none := by
  unfold UG_inode_truncate
  simp only [Nat.pos_iff_ne_zero.mp hbs, if_false, if_neg (not_le.mpr hrange)]
  refine ⟨_, rfl, rfl, ?_⟩
  intro id hid
  have hfloor : new_size / block_size ≤ id := by
    have : new_size / block_size ≤ ceil_div new_size block_size := by
      unfold ceil_div
      apply Nat.div_le_div_right
      omega
    omega
  exact SG_manifest_truncate_lookup_ge _ _ _ hfloor

/-- Witness of C4 at the inode `dirty_five` (block 5 of version 3, dirty) and
the remote manifest `remote_five` (block 5 of version 4, later modtime). -/
theorem merge_keeps_dirty_block_witness :
    SG_manifest_block_lookup dirty_five.manifest 5
      = some { sample_block 5 3 with dirty := true } ∧
    ({ sample_block 5 3 with dirty := true } : SG_manifest_block).dirty = true ∧
    (SG_manifest_block_lookup
        (UG_inode_manifest_merge_blocks no_oom dirty_five remote_five).2.1.manifest 5
      = some { sample_block 5 3 with dirty := true } ∧
    map_find 5 (UG_inode_manifest_merge_blocks no_oom dirty_five remote_five).2.1.dirty_blocks
      = map_find 5 dirty_five.dirty_blocks ∧
    SG_manifest_block_lookup
        (UG_inode_manifest_merge_blocks no_oom dirty_five remote_five).2.1.replaced_blocks 5
      = SG_manifest_block_lookup dirty_five.replaced_blocks 5 ∧
    ∀ op ∈ (UG_inode_manifest_merge_blocks no_oom dirty_five remote_five).2.2,
      cache_op_evicted_id op ≠ some 5) :=
  ⟨by decide, by decide,
   merge_keeps_dirty_block no_oom dirty_five remote_five 5
     { sample_block 5 3 with dirty := true } (by decide) (by decide)⟩

/-- Witness of C7 at block size 4096, blocks `{0,1,2,3}` and new size 6000. -/
theorem truncate_postcondition_witness :
    0 < 4096 ∧
    SG_manifest_get_block_range (sample_inode four_blocks []).manifest + 1 < 2 ^ 64 ∧
    ∃ res, UG_inode_truncate 4096 (sample_inode four_blocks []) 6000 2 = some res ∧
      res.1.manifest.size = 6000 ∧
      ∀ id, ceil_div 6000 4096 ≤ id → SG_manifest_block_lookup res.1.manifest id = none :=
  ⟨by decide, by decide,
   truncate_postcondition 4096 (sample_inode four_blocks []) 6000 2 (by decide) (by decide)⟩


/-! ## Extraction of the modified blocks: evaluation -/

/-- C11 (extract takes exactly the dirty blocks) at a dirty-block map that
holds a clean block 1 followed by a dirty block 2: the call returns 0, the
output map stays empty and the dirty block 2 stays in the inode. At a map
of a dirty block 1, a clean block 2 and a dirty block 3, only block 1 is
extracted and the dirty block 3 stays in the inode. -/
theorem extract_steps_over_block_after_clean_one :
    UG_inode_dirty_blocks_extract_modified no_oom
        (sample_inode (sample_manifest 12288 1 [])
          [sample_dirty_block 1 1 false, sample_dirty_block 2 1 true]) []
      = some (0,
          sample_inode (sample_manifest 12288 1 [])
            [sample_dirty_block 1 1 false, sample_dirty_block 2 1 true],
          []) ∧
    UG_inode_dirty_blocks_extract_modified no_oom
        (sample_inode (sample_manifest 16384 1 [])
          [sample_dirty_block 1 1 true, sample_dirty_block 2 1 false,
           sample_dirty_block 3 1 true]) []
      = some (0,
          sample_inode (sample_manifest 16384 1 [])
            [sample_dirty_block 2 1 false, sample_dirty_block 3 1 true],
          [sample_dirty_block 1 1 true]) := by
  decide

/-! ## The fsync pipeline: evaluations -/

/-- C12 (FIFO fsync) at two calls on an inode whose sync queue is empty:
call 0 runs its snapshot phase, then call 1 runs its snapshot phase before
call 0 has completed. Both find the queue empty, both are first in line,
neither is pushed on the queue, and both are inside `UG_replicate` at the
same time without any semaphore having been posted. -/
theorem fsync_two_calls_replicate_at_once :
    (fsync_pipeline_run (fun _ => quiet_fsync 0)
        { inode := one_block_inode, calls := [fsync_phase.idle, fsync_phase.idle] }
        [fsync_step.enter 0, fsync_step.enter 1, fsync_step.replicate 0,
         fsync_step.replicate 1]).map
      (fun s => (fsync_pipeline_first_in_line s, fsync_pipeline_in_flight s, s.inode.sync_queue))
      = some ([0, 1], [0, 1], []) := by
  decide

/-- C13 (failed replication is reported as EIO) at an inode with nothing to
vacuum: `UG_replicate` returns `-ETIMEDOUT` and `UG_sync_fsync_ex` returns
`-ETIMEDOUT`, not `-EIO`. With a block in the replaced ledger the same call
returns `-EIO`. -/
theorem fsync_failed_replication_without_ledger :
    (UG_sync_fsync_ex (quiet_fsync (-ETIMEDOUT)) 0 one_block_inode).map (fun r => r.rc)
      = some (-ETIMEDOUT) ∧
    (UG_sync_fsync_ex (quiet_fsync (-ETIMEDOUT)) 0
        { sample_inode (sample_manifest 4096 1 [sample_block 0 2]) [] with
          replaced_blocks := sample_manifest 4096 1 [sample_block 0 1] }).map (fun r => r.rc)
      = some (- EIO) ∧
    -ETIMEDOUT ≠ - EIO := by
  decide


/-- C14 (no acknowledged write is lost on failed replication) at the usual
state after a failed replication: the file version is unchanged, the inode's
dirty-block map is empty, and the snapshot holds the dirty block 0 of
version 2 with its buffer. The restore compares the version of the block with
what it reads through `dirty_blocks->end()`. Whatever that read yields, the
inode does not hold block 0 with its buffer afterwards: either the block is
taken for overwritten and discarded, or it is committed and its buffer
released right after. -/
theorem restore_loses_block (past_end : UG_dirty_block) :
    (UG_sync_dirty_blocks_restore (quiet_restore past_end) 1 4096
        (sample_inode (sample_manifest 4096 1 [sample_block 0 2]) [])
        [sample_dirty_block 0 2 true]).map
      (fun r => (map_find 0 r.1.dirty_blocks).bind (fun d => d.buf)) = some none := by
  obtain ⟨⟨block_id, block_version, hash, dirty⟩, buf, block_fd, unshared, dirty2, flushing⟩ :=
    past_end
  by_cases h : block_version = 2
  · subst h
    rfl
  · simp [UG_sync_dirty_blocks_restore, UG_sync_dirty_blocks_restore_block, quiet_restore,
      sample_inode, sample_manifest, sample_dirty_block, sample_block, UG_inode_file_version,
      UG_dirty_block_id, UG_dirty_block_version, map_find, h]


/-! ## Commit: the slot of the new block -/

/-- C18 (commit keeps dirty map and manifest in step) at an inode that holds
the dirty block 0 of version 1, buffered: the commit of version 2 of block 0
returns 0 and the manifest entry has version 2 and is dirty, but the slot of
block 0 in the dirty-block map is the new block without its buffer, and the
cache has been asked to evict version 2: `old_dirty_block` points to the slot
the new block was stored in. -/
theorem commit_releases_new_dirty_block :
    UG_inode_dirty_block_commit quiet_commit
        (sample_inode (sample_manifest 4096 1 [{ sample_block 0 1 with dirty := true }])
          [sample_dirty_block 0 1 true])
        (sample_dirty_block 0 2 true)
      = (0,
         { manifest := sample_manifest 4096 1 [{ sample_block 0 2 with dirty := true }],
           replaced_blocks := sample_manifest 4096 1 [{ sample_block 0 1 with dirty := true }],
           dirty_blocks := [{ sample_dirty_block 0 2 true with buf := none }] },
         [cache_op.evict_block 7 1 0 2]) ∧
    (sample_dirty_block 0 2 true).buf = some [0] := by
  decide

/-! ## The dispatcher -/

/-- C15 (dispatcher result) where the takeover fails: this gateway (id 1) may
coordinate, the coordinator is gateway 2, the remote operation fails as
"remote unavailable", and `UG_chcoord` fails with `-11` while leaving the id
of this gateway in `_current_coordinator`. The dispatcher loop of the
specification returns the error of `UG_chcoord`. The macro stores that error
in `*rc` and leaves its loop, then runs the local operation all the same and
stores its result, 0, over the error. -/
theorem try_or_coordinate_failed_chcoord_naming_self :
    dispatcher_spec contested_takeover 2 = -11 ∧
    (UG_try_or_coordinate_loop contested_takeover 2 (-1)).1 = -11 ∧
    UG_try_or_coordinate contested_takeover 2 (-1)
      = (0, [dispatch_op.remote_oper, dispatch_op.chcoord, dispatch_op.local_oper]) := by
  decide

/-- The value `UG_try_or_coordinate` stores in `*rc`, for every outcome of
the three operations. It is the result of the dispatcher loop of the
specification (the local result if this
gateway is the coordinator; else 0 if the remote operation returns 0; the
remote error if it is not "remote unavailable" or the gateway lacks
`SG_CAP_COORDINATE`; the error of `UG_chcoord` if the takeover fails; the
local result after a takeover that succeeded), except when `UG_chcoord` fails
and leaves the id of this gateway in `_current_coordinator`: then it is the
result of the local operation. -/
theorem try_or_coordinate_result (env : dispatch_env) (coordinator_id : Nat) (rc : Int) :
    (UG_try_or_coordinate env coordinator_id rc).1
      = if chcoord_fails_naming_self env coordinator_id = true then env.local_oper
        else dispatcher_spec env coordinator_id := by
  unfold UG_try_or_coordinate UG_try_or_coordinate_loop dispatcher_spec chcoord_fails_naming_self
  by_cases h1 : coordinator_id = env.gateway_id
  · simp [h1]
  · by_cases h2 : env.remote_oper = 0
    · simp [h1, h2]
    · by_cases h3 : env.is_remote_unavailable env.remote_oper = true
      · by_cases h4 : env.caps &&& env.SG_CAP_COORDINATE = 0
        · simp [h1, h2, h3, h4]
        · by_cases h5 : env.chcoord_rc = 0
          · simp [h1, h2, h3, h4, h5]
          · by_cases h6 : env.chcoord_response = env.gateway_id
            · simp [h1, h2, h3, h4, h5, h6]
            · simp [h1, h2, h3, h4, h5, h6]
      · simp [h1, h2, h3]

/-! ## Import of metadata -/

/-- C16, counterexample: the record `entry_x` agrees with the inode `file_x`
in file id, name, size, type and version, yet when the copy of the inode's
name runs out of memory `UG_inode_import` returns `-EINVAL` (and leaves the
inode as it was). -/
theorem import_out_of_memory :
    md_entry_agrees sample_type_codes file_x entry_x = true ∧
    UG_inode_import sample_type_codes true file_x entry_x = (-EINVAL, file_x) := by
  decide

/-- C16, amended. `UG_inode_import` returns 0 when the md_entry agrees with
the inode in file id, name, size, type and version and the copy of the
inode's name does not run out of memory; in every other case (one of the five
differs, or the copy fails) it returns `-EINVAL` and leaves the inode
(manifest, nonces, freshness, generation, entry times, owner, mode and all
the rest) unchanged. -/
theorem import_validation (tc : type_codes) (oom : Bool) (inode : UG_inode) (e : md_entry) :
    (md_entry_agrees tc inode e = true ∧ oom = false →
      (UG_inode_import tc oom inode e).1 = 0) ∧
    (md_entry_agrees tc inode e = false ∨ oom = true →
      UG_inode_import tc oom inode e = (-EINVAL, inode)) := by
  unfold UG_inode_import UG_inode_export_match_file_id UG_inode_export_match_name
    UG_inode_export_match_size UG_inode_export_match_type UG_inode_export_match_version
    md_entry_agrees
  by_cases h1 : inode.entry.file_id = e.file_id
  · by_cases h2 : inode.entry.name = e.name
    · by_cases h3 : inode.entry.size = e.size
      · by_cases h5 : inode.manifest.file_version = e.version
        · by_cases h4 : inode.entry.type = tc.FSKIT_ENTRY_TYPE_FILE ∧ e.type = tc.MD_ENTRY_FILE
          · cases oom <;> simp [h1, h2, h3, h4, h5, ENOMEM, EINVAL]
          · by_cases h4b : inode.entry.type = tc.FSKIT_ENTRY_TYPE_DIR ∧ e.type = tc.MD_ENTRY_DIR
            · cases oom <;> simp [h1, h2, h3, h4, h4b, h5, ENOMEM, EINVAL]
            · cases oom <;> simp [h1, h2, h3, h4, h4b, h5, ENOMEM, EINVAL]
        · have h5b : ¬ e.version = inode.manifest.file_version := fun h => h5 h.symm
          cases oom <;> simp [h1, h2, h3, h5, h5b, ENOMEM, EINVAL]
      · have h3b : ¬ e.size = inode.entry.size := fun h => h3 h.symm
        cases oom <;> simp [h1, h2, h3, h3b, ENOMEM, EINVAL]
    · have h2b : ¬ e.name = inode.entry.name := fun h => h2 h.symm
      cases oom <;> simp [h1, h2, h2b, ENOMEM, EINVAL]
  · have h1b : ¬ e.file_id = inode.entry.file_id := fun h => h1 h.symm
    simp [h1, h1b]


/-! ## Commit: the state after a successful commit -/

/-- The manifest and the ledger after a commit that returned 0: the manifest
holds the info of the new block, marked dirty; the ledger has taken the old
manifest entry when there was one and the ledger had none for the id, and is
as before otherwise. -/
theorem commit_success_state (env : commit_env) (inode : UG_inode) (d : UG_dirty_block)
    (h : (UG_inode_dirty_block_commit env inode d).1 = 0) :
    (UG_inode_dirty_block_commit env inode d).2.1.manifest
      = SG_manifest_set_block_dirty
          { inode.manifest with blocks := map_put d.info inode.manifest.blocks }
          (UG_dirty_block_id d) true ∧
    (UG_inode_dirty_block_commit env inode d).2.1.replaced_blocks
      = (match SG_manifest_block_lookup inode.manifest (UG_dirty_block_id d),
            SG_manifest_block_lookup inode.replaced_blocks (UG_dirty_block_id d) with
         | some old, none =>
           { inode.replaced_blocks with blocks := map_put old inode.replaced_blocks.blocks }
         | _, _ => inode.replaced_blocks) := by
  have hslot : map_find (UG_dirty_block_id d) (map_put d inode.dirty_blocks) = some d :=
    map_find_put_same d _
  cases hdirty : d.dirty
  · simp [UG_inode_dirty_block_commit, hdirty, EINVAL] at h
  · cases hput : env.oom_put
    · cases hM : map_find (UG_dirty_block_id d) inode.manifest.blocks with
      | none =>
        cases hD : map_find (UG_dirty_block_id d) inode.dirty_blocks <;>
          cases hins : env.oom_insert <;>
          simp [UG_inode_dirty_block_commit, SG_manifest_block_lookup, SG_manifest_put_block,
            SG_manifest_put_block_nocopy, hdirty, hM, hput, hD, hins, ENOMEM,
            hslot] at h ⊢
      | some old =>
        have hid : old.block_id = UG_dirty_block_id d := map_find_id _ _ _ hM
        cases hdup : env.oom_dup
        · cases hR : map_find (UG_dirty_block_id d) inode.replaced_blocks.blocks <;>
            cases hled : env.oom_ledger <;>
            cases hD : map_find (UG_dirty_block_id d) inode.dirty_blocks <;>
            cases hins : env.oom_insert <;>
            simp [UG_inode_dirty_block_commit, SG_manifest_block_lookup, SG_manifest_put_block,
              SG_manifest_put_block_nocopy, hdirty, hM, hput, hD, hins, hdup, hR, hled, hid, ENOMEM,
              hslot] at h ⊢
        · simp [UG_inode_dirty_block_commit, SG_manifest_block_lookup, hdirty, hM, hdup,
            ENOMEM] at h
    · simp [UG_inode_dirty_block_commit, SG_manifest_block_lookup, SG_manifest_put_block,
        hdirty, hput, ENOMEM] at h


/-- Marking a block dirty changes the flag of its entry and nothing else of
it. -/
theorem SG_manifest_set_block_dirty_lookup_same (m : SG_manifest) (id : Nat) (flag : Bool)
    (b : SG_manifest_block) (hb : SG_manifest_block_lookup m id = some b) :
    SG_manifest_block_lookup (SG_manifest_set_block_dirty m id flag) id
      = some { b with dirty := flag } := by
  unfold SG_manifest_block_lookup at hb
  have hid : b.block_id = id := map_find_id _ _ _ hb
  unfold SG_manifest_set_block_dirty SG_manifest_block_lookup
  rw [hb]
  have h := map_find_put_same ({ b with dirty := flag } : SG_manifest_block) m.blocks
  have hk : has_block_id.id_of ({ b with dirty := flag } : SG_manifest_block) = id := hid
  rw [hk] at h
  exact h

/-- Marking a block dirty changes the entry of no other block id. -/
theorem SG_manifest_set_block_dirty_lookup_other (m : SG_manifest) (id k : Nat) (flag : Bool)
    (hk : k ≠ id) :
    SG_manifest_block_lookup (SG_manifest_set_block_dirty m id flag) k
      = SG_manifest_block_lookup m k := by
  unfold SG_manifest_set_block_dirty
  cases hb : map_find id m.blocks with
  | none => rfl
  | some b =>
    have hid : b.block_id = id := map_find_id _ _ _ hb
    have hne : k ≠ has_block_id.id_of ({ b with dirty := flag } : SG_manifest_block) := by
      show k ≠ b.block_id
      rw [hid]
      exact hk
    exact map_find_put_other _ m.blocks k hne

/-- After a commit that returned 0 the manifest entry of the block is the
info of the new block, marked dirty, and no other entry has changed. -/
theorem commit_success_manifest (env : commit_env) (inode : UG_inode) (d : UG_dirty_block)
    (h : (UG_inode_dirty_block_commit env inode d).1 = 0) :
    SG_manifest_block_lookup (UG_inode_dirty_block_commit env inode d).2.1.manifest
        (UG_dirty_block_id d) = some { d.info with dirty := true } ∧
    ∀ k, k ≠ UG_dirty_block_id d →
      SG_manifest_block_lookup (UG_inode_dirty_block_commit env inode d).2.1.manifest k
        = SG_manifest_block_lookup inode.manifest k := by
  rw [(commit_success_state env inode d h).1]
  have hput : SG_manifest_block_lookup
      { inode.manifest with blocks := map_put d.info inode.manifest.blocks }
      (UG_dirty_block_id d) = some d.info := map_find_put_same d.info inode.manifest.blocks
  refine ⟨SG_manifest_set_block_dirty_lookup_same _ _ _ _ hput, ?_⟩
  intro k hk
  rw [SG_manifest_set_block_dirty_lookup_other _ _ _ _ hk]
  exact map_find_put_other d.info inode.manifest.blocks k hk

/-- The ledger after a commit that returned 0: it has taken the old manifest
entry of the block when the ledger had none for its id, it is as before when
it had one or when the manifest had none, and no entry for another id has
changed. -/
theorem commit_success_ledger (env : commit_env) (inode : UG_inode) (d : UG_dirty_block)
    (hok : (UG_inode_dirty_block_commit env inode d).1 = 0) :
    (∀ old, SG_manifest_block_lookup inode.manifest (UG_dirty_block_id d) = some old →
      SG_manifest_block_lookup inode.replaced_blocks (UG_dirty_block_id d) = none →
      SG_manifest_block_lookup (UG_inode_dirty_block_commit env inode d).2.1.replaced_blocks
        (UG_dirty_block_id d) = some old) ∧
    (∀ r, SG_manifest_block_lookup inode.replaced_blocks (UG_dirty_block_id d) = some r →
      SG_manifest_block_lookup (UG_inode_dirty_block_commit env inode d).2.1.replaced_blocks
        (UG_dirty_block_id d) = some r ∧
      (UG_inode_dirty_block_commit env inode d).2.1.replaced_blocks = inode.replaced_blocks) ∧
    (SG_manifest_block_lookup inode.manifest (UG_dirty_block_id d) = none →
      (UG_inode_dirty_block_commit env inode d).2.1.replaced_blocks = inode.replaced_blocks) ∧
    (∀ k, k ≠ UG_dirty_block_id d →
      SG_manifest_block_lookup (UG_inode_dirty_block_commit env inode d).2.1.replaced_blocks k
        = SG_manifest_block_lookup inode.replaced_blocks k) := by
  rw [(commit_success_state env inode d hok).2]
  refine ⟨?_, ?_, ?_, ?_⟩
  · intro old hM hR
    rw [hM, hR]
    have hid : old.block_id = UG_dirty_block_id d := map_find_id _ _ _ hM
    have h := map_find_put_same old inode.replaced_blocks.blocks
    have hk : has_block_id.id_of old = UG_dirty_block_id d := hid
    rw [hk] at h
    exact h
  · intro r hR
    rw [hR]
    constructor
    · split <;> first | exact hR | simp_all
    · split <;> first | rfl | simp_all
  · intro hM
    rw [hM]
  · intro k hk
    cases hM : SG_manifest_block_lookup inode.manifest (UG_dirty_block_id d) with
    | none => rfl
    | some old =>
      cases hR : SG_manifest_block_lookup inode.replaced_blocks (UG_dirty_block_id d) with
      | some r => rfl
      | none =>
        have hid : old.block_id = UG_dirty_block_id d := map_find_id _ _ _ hM
        have hne : k ≠ has_block_id.id_of old := by
          show k ≠ old.block_id
          rw [hid]
          exact hk
        exact map_find_put_other old inode.replaced_blocks.blocks k hne


/-- C17. Replaced-ledger rule of commit: after a commit of block `d` that
returned 0, (a) if the manifest had an entry for `d.id` and the replaced
ledger had none, the ledger's entry for `d.id` is that old manifest entry;
(b) if the ledger already had an entry for `d.id`, that entry (and with it
the whole ledger) is unchanged; (c) if the manifest had no entry for `d.id`,
the ledger is unchanged; and the ledger's entries for other ids are never
changed. -/
theorem commit_ledger_rule (env : commit_env) (inode : UG_inode) (d : UG_dirty_block)
    (hok : (UG_inode_dirty_block_commit env inode d).1 = 0) :
    (∀ old, SG_manifest_block_lookup inode.manifest (UG_dirty_block_id d) = some old →
      SG_manifest_block_lookup inode.replaced_blocks (UG_dirty_block_id d) = none →
      SG_manifest_block_lookup (UG_inode_dirty_block_commit env inode d).2.1.replaced_blocks
        (UG_dirty_block_id d) = some old) ∧
    (∀ r, SG_manifest_block_lookup inode.replaced_blocks (UG_dirty_block_id d) = some r →
      SG_manifest_block_lookup (UG_inode_dirty_block_commit env inode d).2.1.replaced_blocks
        (UG_dirty_block_id d) = some r ∧
      (UG_inode_dirty_block_commit env inode d).2.1.replaced_blocks = inode.replaced_blocks) ∧
    (SG_manifest_block_lookup inode.manifest (UG_dirty_block_id d) = none →
      (UG_inode_dirty_block_commit env inode d).2.1.replaced_blocks = inode.replaced_blocks) ∧
    (∀ k, k ≠ UG_dirty_block_id d →
      SG_manifest_block_lookup (UG_inode_dirty_block_commit env inode d).2.1.replaced_blocks k
        = SG_manifest_block_lookup inode.replaced_blocks k) :=
  commit_success_ledger env inode d hok

/-- C19. Ledger versions differ from manifest versions: when every id present
in both the ledger and the manifest has different versions in the two, and
the version of the dirty block `d` differs from the versions of the entries
for `d.id` in the manifest and in the ledger (where present), the same holds
after a commit of `d` that returned 0: for every id in the ledger that is in
the manifest, the two versions differ. -/
theorem commit_keeps_ledger_versions_apart (env : commit_env) (inode : UG_inode)
    (d : UG_dirty_block)
    (hinv : ∀ k r m, SG_manifest_block_lookup inode.replaced_blocks k = some r →
      SG_manifest_block_lookup inode.manifest k = some m →
      r.block_version ≠ m.block_version)
    (hM : ∀ m, SG_manifest_block_lookup inode.manifest (UG_dirty_block_id d) = some m →
      m.block_version ≠ UG_dirty_block_version d)
    (hR : ∀ r, SG_manifest_block_lookup inode.replaced_blocks (UG_dirty_block_id d) = some r →
      r.block_version ≠ UG_dirty_block_version d)
    (hok : (UG_inode_dirty_block_commit env inode d).1 = 0) :
    ∀ k r m,
      SG_manifest_block_lookup (UG_inode_dirty_block_commit env inode d).2.1.replaced_blocks k
        = some r →
      SG_manifest_block_lookup (UG_inode_dirty_block_commit env inode d).2.1.manifest k
        = some m →
      r.block_version ≠ m.block_version := by
  have hman := commit_success_manifest env inode d hok
  have hled := commit_success_ledger env inode d hok
  intro k r m hr hm
  by_cases hk : k = UG_dirty_block_id d
  · subst hk
    rw [hman.1] at hm
    cases hm
    show r.block_version ≠ UG_dirty_block_version d
    cases hR0 : SG_manifest_block_lookup inode.replaced_blocks (UG_dirty_block_id d) with
    | some r0 =>
      have h1 := (hled.2.1 r0 hR0).1
      rw [h1] at hr
      have e : r0 = r := Option.some.inj hr
      rw [← e]
      exact hR r0 hR0
    | none =>
      cases hM0 : SG_manifest_block_lookup inode.manifest (UG_dirty_block_id d) with
      | some old =>
        have h1 := hled.1 old hM0 hR0
        rw [h1] at hr
        have e : old = r := Option.some.inj hr
        rw [← e]
        exact hM old hM0
      | none =>
        have h1 := hled.2.2.1 hM0
        rw [h1, hR0] at hr
        cases hr
  · rw [hman.2 k hk] at hm
    rw [hled.2.2.2 k hk] at hr
    exact hinv k r m hr hm

/-! ## Truncate: the file version and the reversion of the cache -/

/-- One pass of the sweep over the dead block ids sends evictions only. -/
theorem UG_inode_truncate_block_reversions (drop_block_id : Nat)
    (state : UG_inode × List cache_op) (dead_block_id : Nat) :
    (UG_inode_truncate_block drop_block_id state dead_block_id).2.filter cache_op_is_reversion
      = state.2.filter cache_op_is_reversion := by
  unfold UG_inode_truncate_block
  split
  · rfl
  · simp only []
    split <;> simp [List.filter_append, cache_op_is_reversion, UG_dirty_block_evict_and_free]

/-- The sweep over the dead block ids sends evictions only. -/
theorem UG_inode_truncate_sweep_reversions (drop_block_id : Nat) (ids : List Nat) :
    ∀ state : UG_inode × List cache_op,
      (ids.foldl (UG_inode_truncate_block drop_block_id) state).2.filter cache_op_is_reversion
        = state.2.filter cache_op_is_reversion := by
  induction ids with
  | nil => intro state; rfl
  | cons d rest ih =>
    intro state
    simp only [List.foldl]
    rw [ih, UG_inode_truncate_block_reversions]

/-- C20. Truncate and file version: for a block size `bs > 0` (and a manifest
whose largest block id is below `2^64 - 1`), after `UG_inode_truncate` the
manifest's file version is `new_version` when `new_version ≠ 0` and the
version before the call when `new_version = 0`; and the reversions asked of
the cache are exactly one, from the old version to `new_version`, when
`new_version ≠ 0`, and none when `new_version = 0`. -/
theorem truncate_file_version (block_size : Nat) (inode : UG_inode) (new_size : Nat)
    (new_version : Int) (hbs : 0 < block_size)
    (hrange : SG_manifest_get_block_range inode.manifest + 1 < 2 ^ 64) :
    ∃ res, UG_inode_truncate block_size inode new_size new_version = some res ∧
      res.1.manifest.file_version
        = (if new_version ≠ 0 then new_version else inode.manifest.file_version) ∧
      res.2.filter cache_op_is_reversion
        = (if new_version ≠ 0 then
            [cache_op.reversion_file (UG_inode_file_id inode) (UG_inode_file_version inode)
              new_version]
           else []) := by
  unfold UG_inode_truncate
  simp only [Nat.pos_iff_ne_zero.mp hbs, if_false, if_neg (not_le.mpr hrange)]
  have hman := UG_inode_truncate_sweep_manifest (UG_inode_drop_block_id block_size new_size)
    (dead_block_ids (UG_inode_drop_block_id block_size new_size)
      (SG_manifest_get_block_range inode.manifest)) (inode, [])
  have hrev := UG_inode_truncate_sweep_reversions (UG_inode_drop_block_id block_size new_size)
    (dead_block_ids (UG_inode_drop_block_id block_size new_size)
      (SG_manifest_get_block_range inode.manifest)) (inode, [])
  refine ⟨_, rfl, ?_, ?_⟩
  · by_cases hv : new_version = 0
    · simp [hv, SG_manifest_set_size, SG_manifest_truncate, hman.1]
    · simp [hv, SG_manifest_set_size, SG_manifest_truncate, SG_manifest_set_file_version]
  · by_cases hv : new_version = 0
    · simpa [hv] using hrev
    · simp only [hv, ne_eq, not_false_eq_true, if_true, List.filter_append, hrev]
      simp [cache_op_is_reversion, UG_inode_file_id, hman.1]


/-- Witness of C17 at the commit of version 2 of block 0 into an inode that
holds version 1 of it in the manifest and nothing in the ledger: the ledger
entry of block 0 is then the old manifest entry. -/
theorem commit_ledger_rule_witness :
    (UG_inode_dirty_block_commit quiet_commit one_block_inode (sample_dirty_block 0 2 true)).1
      = 0 ∧
    SG_manifest_block_lookup
        (UG_inode_dirty_block_commit quiet_commit one_block_inode
          (sample_dirty_block 0 2 true)).2.1.replaced_blocks 0
      = some (sample_block 0 1) :=
  ⟨by decide,
   (commit_ledger_rule quiet_commit one_block_inode (sample_dirty_block 0 2 true)
      (by decide)).1 (sample_block 0 1) (by decide) (by decide)⟩

/-- Witness of C19 at the commit of version 3 of block 0 into the inode
`twice_written` (manifest: version 2, ledger: version 1). -/
theorem commit_keeps_ledger_versions_apart_witness :
    (UG_inode_dirty_block_commit quiet_commit twice_written (sample_dirty_block 0 3 true)).1
      = 0 ∧
    ∀ k r m,
      SG_manifest_block_lookup
          (UG_inode_dirty_block_commit quiet_commit twice_written
            (sample_dirty_block 0 3 true)).2.1.replaced_blocks k = some r →
      SG_manifest_block_lookup
          (UG_inode_dirty_block_commit quiet_commit twice_written
            (sample_dirty_block 0 3 true)).2.1.manifest k = some m →
      r.block_version ≠ m.block_version :=
  ⟨by decide,
   commit_keeps_ledger_versions_apart quiet_commit twice_written (sample_dirty_block 0 3 true)
     (by
       intro k r m hr hm
       by_cases hk : k = 0
       · subst hk
         have e1 : r = sample_block 0 1 := (Option.some.inj hr).symm
         have e2 : m = { sample_block 0 2 with dirty := true } := (Option.some.inj hm).symm
         subst e1 e2
         decide
       · have hnone : SG_manifest_block_lookup twice_written.replaced_blocks k = none := by
           simp [SG_manifest_block_lookup, twice_written, sample_manifest, sample_block,
             map_find, has_block_id.id_of, Ne.symm hk]
         rw [hnone] at hr
         cases hr)
     (by
       intro m hm
       have e2 : m = { sample_block 0 2 with dirty := true } := (Option.some.inj hm).symm
       subst e2
       decide)
     (by
       intro r hr
       have e1 : r = sample_block 0 1 := (Option.some.inj hr).symm
       subst e1
       decide)
     (by decide)⟩

/-- Witness of C20 at block size 4096, blocks `{0,1,2,3}`, new size 6000 and
new version 2. -/
theorem truncate_file_version_witness :
    0 < 4096 ∧
    SG_manifest_get_block_range (sample_inode four_blocks []).manifest + 1 < 2 ^ 64 ∧
    ∃ res, UG_inode_truncate 4096 (sample_inode four_blocks []) 6000 2 = some res ∧
      res.1.manifest.file_version
        = (if (2 : Int) ≠ 0 then 2 else (sample_inode four_blocks []).manifest.file_version) ∧
      res.2.filter cache_op_is_reversion
        = (if (2 : Int) ≠ 0 then
            [cache_op.reversion_file (UG_inode_file_id (sample_inode four_blocks []))
              (UG_inode_file_version (sample_inode four_blocks [])) 2]
           else []) :=
  ⟨by decide, by decide,
   truncate_file_version 4096 (sample_inode four_blocks []) 6000 2 (by decide) (by decide)⟩


/-! ## Merge: what a merge leaves alone -/

/-- A put changes nothing of a manifest but its blocks. -/
theorem SG_manifest_put_block_header (m : SG_manifest) (b : SG_manifest_block)
    (replace oom : Bool) :
    { (SG_manifest_put_block m b replace oom).2 with blocks := [] } = { m with blocks := [] } := by
  unfold SG_manifest_put_block
  split
  · rfl
  · split <;> rfl

/-- A put removes no block id. -/
theorem SG_manifest_put_block_keeps_ids (m : SG_manifest) (b : SG_manifest_block)
    (replace oom : Bool) (k : Nat) (h : (SG_manifest_block_lookup m k).isSome = true) :
    (SG_manifest_block_lookup (SG_manifest_put_block m b replace oom).2 k).isSome = true := by
  by_cases hk : k = b.block_id
  · unfold SG_manifest_put_block
    split
    · exact h
    · split
      · exact h
      · subst hk
        have e := map_find_put_same b m.blocks
        simp only [SG_manifest_block_lookup]
        rw [show b.block_id = has_block_id.id_of b from rfl, e]
        rfl
  · rw [SG_manifest_put_block_lookup_other m b replace oom k hk]
    exact h

/-- One pass of the merge loop changes the inode's manifest by one put at
most. -/
theorem merge_block_manifest (oom : Nat → Bool) (replace : Bool) (inode : UG_inode)
    (b : SG_manifest_block) :
    (UG_inode_manifest_merge_block oom replace inode b).2.1.manifest = inode.manifest ∨
    (UG_inode_manifest_merge_block oom replace inode b).2.1.manifest
      = (SG_manifest_put_block inode.manifest b replace (oom b.block_id)).2 := by
  unfold UG_inode_manifest_merge_block
  simp only []
  split
  · left; rfl
  · split
    · left; rfl
    · split
      · left; rfl
      · right
        split
        · rfl
        · split
          · rfl
          · split <;> rfl

/-- One pass of the merge loop leaves the header of the manifest as it was
and removes no block id. -/
theorem merge_block_frame (oom : Nat → Bool) (replace : Bool) (inode : UG_inode)
    (b : SG_manifest_block) :
    { (UG_inode_manifest_merge_block oom replace inode b).2.1.manifest with blocks := [] }
        = { inode.manifest with blocks := [] } ∧
      ∀ k, (SG_manifest_block_lookup inode.manifest k).isSome = true →
        (SG_manifest_block_lookup
          (UG_inode_manifest_merge_block oom replace inode b).2.1.manifest k).isSome = true := by
  rcases merge_block_manifest oom replace inode b with h | h
  · rw [h]; exact ⟨rfl, fun _ hk => hk⟩
  · rw [h]
    exact ⟨SG_manifest_put_block_header _ _ _ _,
      fun k hk => SG_manifest_put_block_keeps_ids _ _ _ _ k hk⟩

/-- The merge loop leaves the header of the manifest as it was and removes
no block id. -/
theorem merge_loop_frame (oom : Nat → Bool) (replace : Bool) (blocks : List SG_manifest_block) :
    ∀ inode : UG_inode,
      { (UG_inode_manifest_merge_loop oom replace blocks inode).2.1.manifest with blocks := [] }
          = { inode.manifest with blocks := [] } ∧
        ∀ k, (SG_manifest_block_lookup inode.manifest k).isSome = true →
          (SG_manifest_block_lookup
            (UG_inode_manifest_merge_loop oom replace blocks inode).2.1.manifest k).isSome
              = true := by
  induction blocks with
  | nil => intro inode; exact ⟨rfl, fun _ hk => hk⟩
  | cons b rest ih =>
    intro inode
    have hb := merge_block_frame oom replace inode b
    simp only [UG_inode_manifest_merge_loop]
    split
    · exact hb
    · have ht := ih (UG_inode_manifest_merge_block oom replace inode b).2.1
      exact ⟨ht.1.trans hb.1, fun k hk => ht.2 k (hb.2 k hk)⟩

/-- C30. Merge frame: a merge leaves the size, the modtime, the file version,
the coordinator and the volume id of the inode's manifest as they were, and every
block id the manifest held is still held afterwards, whatever the new
manifest and whichever puts run out of memory. -/
theorem merge_frame (oom : Nat → Bool) (inode : UG_inode) (new_manifest : SG_manifest) :
    (UG_inode_manifest_merge_blocks oom inode new_manifest).2.1.manifest.size
        = inode.manifest.size ∧
      (UG_inode_manifest_merge_blocks oom inode new_manifest).2.1.manifest.mtime_sec
        = inode.manifest.mtime_sec ∧
      (UG_inode_manifest_merge_blocks oom inode new_manifest).2.1.manifest.mtime_nsec
        = inode.manifest.mtime_nsec ∧
      (UG_inode_manifest_merge_blocks oom inode new_manifest).2.1.manifest.file_version
        = inode.manifest.file_version ∧
      (UG_inode_manifest_merge_blocks oom inode new_manifest).2.1.manifest.coordinator_id
        = inode.manifest.coordinator_id ∧
      (UG_inode_manifest_merge_blocks oom inode new_manifest).2.1.manifest.volume_id
        = inode.manifest.volume_id ∧
      ∀ block_id, (SG_manifest_block_lookup inode.manifest block_id).isSome = true →
        (SG_manifest_block_lookup
          (UG_inode_manifest_merge_blocks oom inode new_manifest).2.1.manifest block_id).isSome
            = true := by
  have h := merge_loop_frame oom
    (!UG_inode_manifest_is_newer_than inode.manifest new_manifest.mtime_sec
      new_manifest.mtime_nsec) new_manifest.blocks inode
  have e := h.1
  refine ⟨?_, ?_, ?_, ?_, ?_, ?_, h.2⟩
  · have t := congrArg SG_manifest.size e
    exact t
  · have t := congrArg SG_manifest.mtime_sec e
    exact t
  · have t := congrArg SG_manifest.mtime_nsec e
    exact t
  · have t := congrArg SG_manifest.file_version e
    exact t
  · have t := congrArg SG_manifest.coordinator_id e
    exact t
  · have t := congrArg SG_manifest.volume_id e
    exact t

/-! ## Merge: a second merge of the same manifest -/

/-- A put that fails leaves the manifest as it was. -/
theorem SG_manifest_put_block_failed (m : SG_manifest) (b : SG_manifest_block)
    (replace oom : Bool) (h : (SG_manifest_put_block m b replace oom).1 ≠ 0) :
    (SG_manifest_put_block m b replace oom).2 = m := by
  unfold SG_manifest_put_block at h ⊢
  split
  · rfl
  · split
    · rfl
    · rename_i h1 h2
      simp [h1, h2] at h

/-- A put that succeeds files the block under its id. -/
theorem SG_manifest_put_block_done (m : SG_manifest) (b : SG_manifest_block)
    (replace oom : Bool) (h : (SG_manifest_put_block m b replace oom).1 = 0) :
    SG_manifest_block_lookup (SG_manifest_put_block m b replace oom).2 b.block_id = some b := by
  unfold SG_manifest_put_block at h ⊢
  split
  · rename_i h1
    simp [h1, ENOMEM] at h
  · split
    · rename_i h1 h2
      simp [h1, h2, EEXIST] at h
    · exact map_find_put_same b m.blocks

/-- A pass of the merge loop that fails leaves the inode as it was. -/
theorem merge_block_failed (oom : Nat → Bool) (replace : Bool) (inode : UG_inode)
    (b : SG_manifest_block) (h : (UG_inode_manifest_merge_block oom replace inode b).1 ≠ 0) :
    (UG_inode_manifest_merge_block oom replace inode b).2.1 = inode := by
  unfold UG_inode_manifest_merge_block at h ⊢
  simp only [] at h ⊢
  split
  · rfl
  · split
    · rfl
    · split
      · rfl
      · split
        · rename_i hput
          simp only [SG_manifest_put_block_failed _ _ _ _ hput]
        · rename_i h1 h2 h3 hput
          simp [h1, h2, h3, hput] at h
          revert h
          split
          · simp
          · simp

/-- A pass of the merge loop does nothing when the entry the manifest holds
under the id of the new block (if any) has the version of the new block or
is dirty. -/
theorem merge_block_skips (oom : Nat → Bool) (replace : Bool) (inode : UG_inode)
    (b : SG_manifest_block)
    (h : ∀ e, SG_manifest_block_lookup inode.manifest b.block_id = some e →
      e.block_version = b.block_version ∨ e.dirty = true) :
    UG_inode_manifest_merge_block oom replace inode b = (0, inode, []) := by
  cases hM : SG_manifest_block_lookup inode.manifest b.block_id with
  | none =>
    unfold UG_inode_manifest_merge_block
    simp only [hM]
  | some x =>
    unfold UG_inode_manifest_merge_block
    simp only [hM]
    rcases h x hM with hv | hd
    · simp [hv]
    · simp [hd]

/-- A pass of the merge loop over an entry that is clean and of another
version returns the code of the put and has the manifest of the put. -/
theorem merge_block_puts (oom : Nat → Bool) (replace : Bool) (inode : UG_inode)
    (b x : SG_manifest_block)
    (hM : SG_manifest_block_lookup inode.manifest b.block_id = some x)
    (hv : x.block_version ≠ b.block_version) (hd : x.dirty = false) :
    (UG_inode_manifest_merge_block oom replace inode b).1
        = (SG_manifest_put_block inode.manifest b replace (oom b.block_id)).1 ∧
      (UG_inode_manifest_merge_block oom replace inode b).2.1.manifest
        = (SG_manifest_put_block inode.manifest b replace (oom b.block_id)).2 := by
  unfold UG_inode_manifest_merge_block
  simp only [hM, hv, hd]
  simp only [if_false, Bool.false_eq_true]
  split
  · exact ⟨rfl, rfl⟩
  · rename_i hput
    have hput0 : (SG_manifest_put_block inode.manifest b replace (oom b.block_id)).1 = 0 := by
      simpa using hput
    split
    · exact ⟨hput0.symm, rfl⟩
    · refine ⟨hput0.symm, ?_⟩
      split <;> rfl

/-- After a pass of the merge loop that succeeds, the entry the manifest
holds under the id of the new block (if any) has the version of the new
block or is dirty. -/
theorem merge_block_settles (oom : Nat → Bool) (replace : Bool) (inode : UG_inode)
    (b : SG_manifest_block) (h : (UG_inode_manifest_merge_block oom replace inode b).1 = 0) :
    ∀ e, SG_manifest_block_lookup
        (UG_inode_manifest_merge_block oom replace inode b).2.1.manifest b.block_id = some e →
      e.block_version = b.block_version ∨ e.dirty = true := by
  intro e he
  by_cases hs : ∀ x, SG_manifest_block_lookup inode.manifest b.block_id = some x →
      x.block_version = b.block_version ∨ x.dirty = true
  · rw [merge_block_skips oom replace inode b hs] at he
    exact hs e he
  · push_neg at hs
    obtain ⟨x, hM, hv, hd⟩ := hs
    have hd2 : x.dirty = false := by simpa using hd
    have hp := merge_block_puts oom replace inode b x hM hv hd2
    rw [hp.1] at h
    rw [hp.2, SG_manifest_put_block_done _ _ _ _ h] at he
    cases he
    exact Or.inl rfl

/-- A pass of the merge loop changes the manifest entry of no other id. -/
theorem merge_block_lookup_other (oom : Nat → Bool) (replace : Bool) (inode : UG_inode)
    (b : SG_manifest_block) (k : Nat) (hk : k ≠ b.block_id) :
    SG_manifest_block_lookup (UG_inode_manifest_merge_block oom replace inode b).2.1.manifest k
      = SG_manifest_block_lookup inode.manifest k := by
  rcases merge_block_manifest oom replace inode b with hm | hm
  · rw [hm]
  · rw [hm]
    exact SG_manifest_put_block_lookup_other _ _ _ _ k hk

/-- The merge loop changes the manifest entry of no id the new manifest
lacks. -/
theorem merge_loop_lookup_other (oom : Nat → Bool) (replace : Bool) (k : Nat)
    (blocks : List SG_manifest_block) (hk : k ∉ map_keys blocks) :
    ∀ inode : UG_inode,
      SG_manifest_block_lookup (UG_inode_manifest_merge_loop oom replace blocks inode).2.1.manifest k
        = SG_manifest_block_lookup inode.manifest k := by
  induction blocks with
  | nil => intro inode; rfl
  | cons b rest ih =>
    intro inode
    have hkb : k ≠ b.block_id := by
      intro e
      apply hk
      simp [map_keys, has_block_id.id_of, e]
    have hkr : k ∉ map_keys rest := by
      intro e
      apply hk
      simp only [map_keys, List.map_cons, List.mem_cons]
      exact Or.inr e
    simp only [UG_inode_manifest_merge_loop]
    split
    · exact merge_block_lookup_other oom replace inode b k hkb
    · rw [ih hkr]
      exact merge_block_lookup_other oom replace inode b k hkb

/-- Run on its own outcome, the merge loop over a manifest that holds each
block id once returns the same code and changes nothing. -/
theorem merge_loop_again (oom : Nat → Bool) (replace : Bool) (blocks : List SG_manifest_block)
    (hnodup : (map_keys blocks).Nodup) :
    ∀ inode : UG_inode,
      (UG_inode_manifest_merge_loop oom replace blocks
          (UG_inode_manifest_merge_loop oom replace blocks inode).2.1).1
        = (UG_inode_manifest_merge_loop oom replace blocks inode).1 ∧
      (UG_inode_manifest_merge_loop oom replace blocks
          (UG_inode_manifest_merge_loop oom replace blocks inode).2.1).2.1
        = (UG_inode_manifest_merge_loop oom replace blocks inode).2.1 := by
  induction blocks with
  | nil => intro inode; exact ⟨rfl, rfl⟩
  | cons b rest ih =>
    intro inode
    have hb : b.block_id ∉ map_keys rest := by
      have := (List.nodup_cons.mp hnodup).1
      simpa [map_keys, has_block_id.id_of] using this
    have hrest : (map_keys rest).Nodup := (List.nodup_cons.mp hnodup).2
    by_cases hstep : (UG_inode_manifest_merge_block oom replace inode b).1 ≠ 0
    · have hstate := merge_block_failed oom replace inode b hstep
      have hloop : UG_inode_manifest_merge_loop oom replace (b :: rest) inode
          = UG_inode_manifest_merge_block oom replace inode b := by
        simp only [UG_inode_manifest_merge_loop]
        rw [if_pos hstep]
      rw [hloop, hstate, hloop]
      exact ⟨rfl, hstate⟩
    · have hstep0 : (UG_inode_manifest_merge_block oom replace inode b).1 = 0 := by
        simpa using hstep
      have hloop : UG_inode_manifest_merge_loop oom replace (b :: rest) inode
          = ((UG_inode_manifest_merge_loop oom replace rest
                (UG_inode_manifest_merge_block oom replace inode b).2.1).1,
             (UG_inode_manifest_merge_loop oom replace rest
                (UG_inode_manifest_merge_block oom replace inode b).2.1).2.1,
             (UG_inode_manifest_merge_block oom replace inode b).2.2 ++
               (UG_inode_manifest_merge_loop oom replace rest
                (UG_inode_manifest_merge_block oom replace inode b).2.1).2.2) := by
        simp only [UG_inode_manifest_merge_loop]
        rw [if_neg hstep]
      have hsettled := merge_block_settles oom replace inode b hstep0
      have hskip : UG_inode_manifest_merge_block oom replace
          (UG_inode_manifest_merge_loop oom replace rest
            (UG_inode_manifest_merge_block oom replace inode b).2.1).2.1 b
          = (0, (UG_inode_manifest_merge_loop oom replace rest
            (UG_inode_manifest_merge_block oom replace inode b).2.1).2.1, []) := by
        apply merge_block_skips
        intro e he
        rw [merge_loop_lookup_other oom replace b.block_id rest hb] at he
        exact hsettled e he
      have hih := ih hrest (UG_inode_manifest_merge_block oom replace inode b).2.1
      rw [hloop]
      simp only [UG_inode_manifest_merge_loop, hskip]
      simp only [ne_eq, not_true_eq_false, if_false]
      exact hih

/-- The test of the modtime reads only the modtime of the manifest. -/
theorem UG_inode_manifest_is_newer_than_header (a b : SG_manifest) (mtime_sec mtime_nsec : Int)
    (h : { a with blocks := [] } = { b with blocks := [] }) :
    UG_inode_manifest_is_newer_than a mtime_sec mtime_nsec
      = UG_inode_manifest_is_newer_than b mtime_sec mtime_nsec := by
  have h1 : a.mtime_sec = b.mtime_sec := by
    have t := congrArg SG_manifest.mtime_sec h
    exact t
  have h2 : a.mtime_nsec = b.mtime_nsec := by
    have t := congrArg SG_manifest.mtime_nsec h
    exact t
  unfold UG_inode_manifest_is_newer_than
  rw [h1, h2]

/-- C23, counterexample: an inode whose clean block 0 (version 1) meets
version 2 in a manifest of the same modtime: a first merge during which the
put of block 0 runs out of memory returns `-ENOMEM` and leaves the inode as
it was; a second merge of the same manifest, with memory available, returns
`0` and files version 2 under block 0. -/
theorem merge_again_after_out_of_memory :
    (UG_inode_manifest_merge_blocks oom_at_zero one_block_inode refreshed_block_zero).1
      = -ENOMEM ∧
    (UG_inode_manifest_merge_blocks oom_at_zero one_block_inode refreshed_block_zero).2.1
      = one_block_inode ∧
    (UG_inode_manifest_merge_blocks no_oom
        (UG_inode_manifest_merge_blocks oom_at_zero one_block_inode refreshed_block_zero).2.1
        refreshed_block_zero).1 = 0 ∧
    SG_manifest_block_lookup (UG_inode_manifest_merge_blocks no_oom
        (UG_inode_manifest_merge_blocks oom_at_zero one_block_inode refreshed_block_zero).2.1
        refreshed_block_zero).2.1.manifest 0 = some (sample_block 0 2) := by
  decide

/-- C23, amended. For every inode and every new manifest that holds each
block id once, a second merge of the manifest during which the same puts run
out of memory as during the first (in particular when none does) returns the
code of the first merge and leaves the whole inode, and with it the manifest,
the dirty-block map and the replaced-block ledger, as the first merge left
it. -/
theorem merge_twice (oom : Nat → Bool) (inode : UG_inode) (new_manifest : SG_manifest)
    (hnodup : (map_keys new_manifest.blocks).Nodup) :
    (UG_inode_manifest_merge_blocks oom
        (UG_inode_manifest_merge_blocks oom inode new_manifest).2.1 new_manifest).1
      = (UG_inode_manifest_merge_blocks oom inode new_manifest).1 ∧
    (UG_inode_manifest_merge_blocks oom
        (UG_inode_manifest_merge_blocks oom inode new_manifest).2.1 new_manifest).2.1
      = (UG_inode_manifest_merge_blocks oom inode new_manifest).2.1 := by
  have hframe := (merge_loop_frame oom
    (!UG_inode_manifest_is_newer_than inode.manifest new_manifest.mtime_sec
      new_manifest.mtime_nsec) new_manifest.blocks inode).1
  have hnewer := UG_inode_manifest_is_newer_than_header _ _ new_manifest.mtime_sec
    new_manifest.mtime_nsec hframe
  unfold UG_inode_manifest_merge_blocks
  simp only []
  rw [hnewer]
  exact merge_loop_again oom _ new_manifest.blocks hnodup inode

/-- The theorem `merge_twice` at a file of four blocks into which a manifest
of the same modtime with new versions of the blocks 1 and 3 is merged. -/
theorem merge_twice_witness :
    (map_keys refreshed_one_three.blocks).Nodup ∧
    (UG_inode_manifest_merge_blocks no_oom
        (UG_inode_manifest_merge_blocks no_oom (sample_inode four_blocks [])
          refreshed_one_three).2.1 refreshed_one_three).1
      = (UG_inode_manifest_merge_blocks no_oom (sample_inode four_blocks [])
          refreshed_one_three).1 ∧
    (UG_inode_manifest_merge_blocks no_oom
        (UG_inode_manifest_merge_blocks no_oom (sample_inode four_blocks [])
          refreshed_one_three).2.1 refreshed_one_three).2.1
      = (UG_inode_manifest_merge_blocks no_oom (sample_inode four_blocks [])
          refreshed_one_three).2.1 :=
  ⟨by decide, merge_twice no_oom (sample_inode four_blocks []) refreshed_one_three (by decide)⟩

/-! ## Caching a block that is not dirty -/

/-- C24, counterexample: a clean block 0 that the dirty-block map does not
hold, when the insertion runs out of memory: the call returns `-ENOMEM`, not
`0`, and leaves the inode as it was. -/
theorem dirty_block_cache_out_of_memory :
    UG_inode_dirty_block_cache true one_block_inode (sample_dirty_block 0 1 false)
      = (-ENOMEM, one_block_inode) := by
  decide

/-- C24, amended. `UG_inode_dirty_block_cache` returns `-EINVAL` exactly
for a dirty block; for a clean block it returns `-EEXIST` exactly when the
dirty-block map holds the id under another version, `-ENOMEM` exactly when the
map does not hold the id and the insertion runs out of memory, and `0` in
every other case. A non-zero code, and `0` with the id already held, leave the
inode as it was; `0` without the id held files the block under its id and
changes no other id of the map. The manifest and the replaced-block ledger
are as before in every case. -/
theorem dirty_block_cache_result (oom : Bool) (inode : UG_inode) (b : UG_dirty_block) :
    ((UG_inode_dirty_block_cache oom inode b).1 = -EINVAL ↔ b.dirty = true) ∧
    (b.dirty = false →
      ((UG_inode_dirty_block_cache oom inode b).1 = -EEXIST ↔
        ∃ old, map_find (UG_dirty_block_id b) inode.dirty_blocks = some old ∧
          UG_dirty_block_version old ≠ UG_dirty_block_version b)) ∧
    (b.dirty = false →
      ((UG_inode_dirty_block_cache oom inode b).1 = -ENOMEM ↔
        map_find (UG_dirty_block_id b) inode.dirty_blocks = none ∧ oom = true)) ∧
    ((UG_inode_dirty_block_cache oom inode b).1 = -EINVAL ∨
      (UG_inode_dirty_block_cache oom inode b).1 = -EEXIST ∨
      (UG_inode_dirty_block_cache oom inode b).1 = -ENOMEM ∨
      (UG_inode_dirty_block_cache oom inode b).1 = 0) ∧
    ((UG_inode_dirty_block_cache oom inode b).1 ≠ 0 →
      (UG_inode_dirty_block_cache oom inode b).2 = inode) ∧
    ((UG_inode_dirty_block_cache oom inode b).1 = 0 →
      (map_find (UG_dirty_block_id b) inode.dirty_blocks).isSome = true →
      (UG_inode_dirty_block_cache oom inode b).2 = inode) ∧
    ((UG_inode_dirty_block_cache oom inode b).1 = 0 →
      map_find (UG_dirty_block_id b) inode.dirty_blocks = none →
      (UG_inode_dirty_block_cache oom inode b).2.dirty_blocks = map_put b inode.dirty_blocks ∧
      map_find (UG_dirty_block_id b) (UG_inode_dirty_block_cache oom inode b).2.dirty_blocks
        = some b ∧
      ∀ k, k ≠ UG_dirty_block_id b →
        map_find k (UG_inode_dirty_block_cache oom inode b).2.dirty_blocks
          = map_find k inode.dirty_blocks) ∧
    (UG_inode_dirty_block_cache oom inode b).2.manifest = inode.manifest ∧
    (UG_inode_dirty_block_cache oom inode b).2.replaced_blocks = inode.replaced_blocks := by
  have hsame : map_find (UG_dirty_block_id b) (map_put b inode.dirty_blocks) = some b :=
    map_find_put_same b _
  have hother : ∀ k, k ≠ UG_dirty_block_id b →
      map_find k (map_put b inode.dirty_blocks) = map_find k inode.dirty_blocks :=
    fun k hk => map_find_put_other b _ k hk
  cases hd : b.dirty
  · cases hD : map_find (UG_dirty_block_id b) inode.dirty_blocks with
    | none =>
      cases oom
      · simp [UG_inode_dirty_block_cache, hd, hD, EINVAL, EEXIST, ENOMEM, hsame]
        exact hother
      · simp [UG_inode_dirty_block_cache, hd, hD, EINVAL, EEXIST, ENOMEM]
    | some old =>
      by_cases hv : UG_dirty_block_version b = UG_dirty_block_version old
      · simp [UG_inode_dirty_block_cache, hd, hD, hv, EINVAL, EEXIST, ENOMEM]
      · have hv2 : ¬ UG_dirty_block_version old = UG_dirty_block_version b := fun e => hv e.symm
        simp [UG_inode_dirty_block_cache, hd, hD, hv, hv2, EINVAL, EEXIST, ENOMEM]
  · simp [UG_inode_dirty_block_cache, hd, EINVAL, EEXIST, ENOMEM]

/-! ## Loading a driver -/

/-- The symbol loop of `md_load_driver` returns `-ENOENT` exactly when stubs
are not ignored and some symbol does not resolve, and `0` otherwise; when it
returns `0` every row holds what `dlsym` gave for its name. -/
theorem md_load_driver_symbols_result (env : closure_env) (so_handle : Nat) (ignore_stubs : Bool)
    (symtable : List md_closure_callback_entry) :
    ((md_load_driver_symbols env so_handle ignore_stubs symtable).1 = -ENOENT ↔
      ignore_stubs = false ∧ ∃ entry ∈ symtable, env.dlsym so_handle entry.sym_name = none) ∧
    ((md_load_driver_symbols env so_handle ignore_stubs symtable).1 = -ENOENT ∨
      (md_load_driver_symbols env so_handle ignore_stubs symtable).1 = 0) ∧
    ((md_load_driver_symbols env so_handle ignore_stubs symtable).1 = 0 →
      (md_load_driver_symbols env so_handle ignore_stubs symtable).2
        = symtable.map
            (fun entry => { entry with sym_ptr := env.dlsym so_handle entry.sym_name })) := by
  induction symtable with
  | nil => simp [md_load_driver_symbols, ENOENT]
  | cons entry rest ih =>
    obtain ⟨ih1, ih2, ih3⟩ := ih
    cases hsym : env.dlsym so_handle entry.sym_name with
    | none =>
      cases ignore_stubs
      · simp [md_load_driver_symbols, hsym, ENOENT]
      · simp only [md_load_driver_symbols, hsym, if_true]
        refine ⟨?_, ih2, ?_⟩
        · simp at ih1 ⊢
          exact ih1
        · intro h
          simp [ih3 h, hsym]
    | some ptr =>
      simp only [md_load_driver_symbols, hsym]
      refine ⟨?_, ih2, ?_⟩
      · rw [ih1]
        simp [hsym]
      · intro h
        simp [ih3 h, hsym]

/-- C22. Missing driver symbols: for a driver that can be opened,
`md_load_driver` returns `-ENOENT`, and leaves the closure's `so_handle` NULL, exactly when `ignore_stubs` is
false and some symbol of the table does not resolve; in every other case it
returns `0` with the handle of the driver in `so_handle`. With `ignore_stubs`
true it returns `0` and every row of the table holds what `dlsym` gave for
its name: the address of a resolved symbol, NULL for an unresolved one. -/
theorem load_driver_missing_symbols (env : closure_env) (closure : md_closure)
    (so_path : Option String) (symtable : List md_closure_callback_entry) (so_handle : Nat)
    (hopen : env.dlopen so_path = some so_handle) :
    ((md_load_driver env closure so_path symtable).1 = -ENOENT ↔
      closure.ignore_stubs = false ∧
        ∃ entry ∈ symtable, env.dlsym so_handle entry.sym_name = none) ∧
    ((md_load_driver env closure so_path symtable).2.1.so_handle = none ↔
      closure.ignore_stubs = false ∧
        ∃ entry ∈ symtable, env.dlsym so_handle entry.sym_name = none) ∧
    (¬ (closure.ignore_stubs = false ∧
        ∃ entry ∈ symtable, env.dlsym so_handle entry.sym_name = none) →
      (md_load_driver env closure so_path symtable).1 = 0 ∧
      (md_load_driver env closure so_path symtable).2.1.so_handle = some so_handle) ∧
    (closure.ignore_stubs = true →
      (md_load_driver env closure so_path symtable).1 = 0 ∧
      (md_load_driver env closure so_path symtable).2.2.1
        = symtable.map
            (fun entry => { entry with sym_ptr := env.dlsym so_handle entry.sym_name })) := by
  obtain ⟨h1, h2, h3⟩ :=
    md_load_driver_symbols_result env so_handle closure.ignore_stubs symtable
  have hne : (-ENOENT : Int) ≠ 0 := by decide
  by_cases hrc : (md_load_driver_symbols env so_handle closure.ignore_stubs symtable).1 = 0
  · have hno : ¬ (closure.ignore_stubs = false ∧
        ∃ entry ∈ symtable, env.dlsym so_handle entry.sym_name = none) := by
      rw [← h1, hrc]
      exact fun e => hne e.symm
    have hload : md_load_driver env closure so_path symtable
        = (0, { closure with so_handle := some so_handle },
            (md_load_driver_symbols env so_handle closure.ignore_stubs symtable).2, []) := by
      simp [md_load_driver, hopen, hrc]
    rw [hload]
    refine ⟨?_, ?_, ?_, ?_⟩
    · simp only [hno, iff_false]
      exact fun e => hne e.symm
    · simp only [hno, iff_false]
      simp
    · intro _
      exact ⟨rfl, rfl⟩
    · intro _
      exact ⟨rfl, h3 hrc⟩
  · have hrc2 : (md_load_driver_symbols env so_handle closure.ignore_stubs symtable).1 = -ENOENT := by
      rcases h2 with h | h
      · exact h
      · exact absurd h hrc
    have hyes := h1.mp hrc2
    have hload : md_load_driver env closure so_path symtable
        = (-ENOENT, { closure with so_handle := none },
            (md_load_driver_symbols env so_handle closure.ignore_stubs symtable).2,
            [closure_op.dlclose so_handle]) := by
      simp [md_load_driver, hopen, hrc2, ENOENT]
    rw [hload]
    refine ⟨?_, ?_, ?_, ?_⟩
    · simp only [hyes, and_self, iff_true]
    · simp only [hyes, and_self, iff_true]
    · intro hn
      exact absurd hyes hn
    · intro ht
      rw [hyes.1] at ht
      cases ht

/-- The theorem `load_driver_missing_symbols` at a driver that resolves
`closure_init` and `closure_shutdown` but not `get_block`: without
`ignore_stubs` the load returns `-ENOENT`, with it the load returns `0`. -/
theorem load_driver_missing_symbols_witness :
    quiet_closure.dlopen (some "/tmp/new.so") = some 8 ∧
    (md_load_driver quiet_closure {} (some "/tmp/new.so") three_symbols).1 = -ENOENT ∧
    (md_load_driver quiet_closure { ignore_stubs := true } (some "/tmp/new.so")
        three_symbols).1 = 0 :=
  ⟨by decide,
   (load_driver_missing_symbols quiet_closure {} (some "/tmp/new.so") three_symbols 8
      (by decide)).1.mpr
     ⟨rfl, ⟨{ sym_name := "get_block", sym_ptr := none }, by decide, by decide⟩⟩,
   ((load_driver_missing_symbols quiet_closure { ignore_stubs := true } (some "/tmp/new.so")
      three_symbols 8 (by decide)).2.2.2 rfl).1⟩

/-! ## Reloading a closure: evaluation -/

/-- C21 (reload is atomic on failure) at a running closure and a closure text
whose driver is stored but cannot be opened: `md_closure_reload` returns
`-ENODATA` and leaves every field of the closure as it was, but it has called
the `closure_shutdown` of the old driver (at 701, with the driver state 55)
before it tried to load the new one. -/
theorem reload_failed_load_shuts_old_driver_down :
    md_closure_reload unloadable_driver running_closure
      = some (-ENODATA, running_closure,
          [closure_op.write_driver [1, 2, 3], closure_op.call_shutdown 701 (some 55),
           closure_op.unlink (some "/tmp/new.so")]) := by
  decide

/-! ## Restore: what is left of the snapshot -/

/-- A commit of a dirty block during which no allocation fails succeeds. -/
theorem commit_without_oom (env : commit_env) (inode : UG_inode) (d : UG_dirty_block)
    (hdirty : d.dirty = true) (hdup : env.oom_dup = false) (hput : env.oom_put = false)
    (hins : env.oom_insert = false) (hled : env.oom_ledger = false) :
    (UG_inode_dirty_block_commit env inode d).1 = 0 := by
  have hslot : map_find (UG_dirty_block_id d) (map_put d inode.dirty_blocks) = some d :=
    map_find_put_same d _
  cases hM : map_find (UG_dirty_block_id d) inode.manifest.blocks <;>
    cases hR : map_find (UG_dirty_block_id d) inode.replaced_blocks.blocks <;>
    cases hD : map_find (UG_dirty_block_id d) inode.dirty_blocks <;>
    simp [UG_inode_dirty_block_commit, SG_manifest_block_lookup, SG_manifest_put_block,
      SG_manifest_put_block_nocopy, hdirty, hM, hput, hD, hins, hdup, hR, hled, hslot]

/-- The pass of the restore over one dirty block returns when the first try
of its commit has no allocation failing. -/
theorem restore_block_returns (env : restore_env) (old_file_version : Int)
    (old_file_size : Nat) (inode : UG_inode) (block : UG_dirty_block)
    (hdirty : block.dirty = true)
    (hquiet : ∃ e rest, env.commit_attempts (UG_dirty_block_id block) = e :: rest ∧
      e.oom_dup = false ∧ e.oom_put = false ∧ e.oom_insert = false ∧ e.oom_ledger = false) :
    ∃ p, UG_sync_dirty_blocks_restore_block env old_file_version old_file_size inode block
      = some p := by
  obtain ⟨e, attempts, hatt, h1, h2, h3, h4⟩ := hquiet
  have hc := commit_without_oom e inode block hdirty h1 h2 h3 h4
  unfold UG_sync_dirty_blocks_restore_block
  simp only []
  split
  · exact ⟨_, rfl⟩
  · split
    · exact ⟨_, rfl⟩
    · rw [hatt]
      simp only [UG_sync_commit_retry, hc]
      exact ⟨_, rfl⟩

/-- The restore returns when every block of the snapshot is dirty and the
first try of every commit has no allocation failing. -/
theorem restore_returns (env : restore_env) (old_file_version : Int)
    (old_file_size : Nat) (blocks : List UG_dirty_block)
    (hdirty : ∀ b ∈ blocks, b.dirty = true)
    (hquiet : ∀ id, ∃ e rest, env.commit_attempts id = e :: rest ∧
      e.oom_dup = false ∧ e.oom_put = false ∧ e.oom_insert = false ∧ e.oom_ledger = false) :
    ∀ inode : UG_inode,
      ∃ r, UG_sync_dirty_blocks_restore env old_file_version old_file_size inode blocks
        = some r := by
  induction blocks with
  | nil => intro inode; exact ⟨_, rfl⟩
  | cons block rest ih =>
    intro inode
    obtain ⟨p, hp⟩ := restore_block_returns env old_file_version old_file_size inode block
      (hdirty block (List.mem_cons_self _ _)) (hquiet _)
    obtain ⟨inode1, log1, kept⟩ := p
    obtain ⟨q, hq⟩ := ih (fun b hb => hdirty b (List.mem_cons_of_mem _ hb)) inode1
    obtain ⟨inode2, log2, left⟩ := q
    simp only [UG_sync_dirty_blocks_restore, hp, hq]
    exact ⟨_, rfl⟩

/-- What a lookup finds is an element of the map. -/
theorem map_find_mem {β : Type} [has_block_id β] (k : Nat) (l : List β) (v : β)
    (h : map_find k l = some v) : v ∈ l := by
  induction l with
  | nil => simp [map_find] at h
  | cons w t ih =>
    simp only [map_find] at h
    split at h
    · cases h
      exact List.mem_cons_self _ _
    · exact List.mem_cons_of_mem _ (ih h)

/-- A key no element carries is not found. -/
theorem map_find_none_of_ne {β : Type} [has_block_id β] (k : Nat) (l : List β)
    (h : ∀ x ∈ l, has_block_id.id_of x ≠ k) : map_find k l = none := by
  induction l with
  | nil => rfl
  | cons w t ih =>
    simp only [map_find]
    rw [if_neg (h w (List.mem_cons_self _ _))]
    exact ih (fun x hx => h x (List.mem_cons_of_mem _ hx))

/-- A key that is not found is carried by no element. -/
theorem map_find_none_ne {β : Type} [has_block_id β] (k : Nat) (l : List β)
    (h : map_find k l = none) : ∀ x ∈ l, has_block_id.id_of x ≠ k := by
  induction l with
  | nil => intro x hx; cases hx
  | cons w t ih =>
    simp only [map_find] at h
    split at h
    · cases h
    · rename_i hw
      intro x hx
      rcases List.mem_cons.mp hx with rfl | hx
      · exact hw
      · exact ih h x hx

/-- In a map with its keys in order, every element is found under its key. -/
theorem map_find_of_mem_sorted {β : Type} [has_block_id β] (l : List β) (v : β)
    (hs : map_sorted l) (hv : v ∈ l) : map_find (has_block_id.id_of v) l = some v := by
  induction l with
  | nil => cases hv
  | cons w t ih =>
    have hp := List.pairwise_cons.mp hs
    rcases List.mem_cons.mp hv with rfl | hv
    · simp [map_find]
    · have hlt := hp.1 v hv
      simp only [map_find]
      rw [if_neg (Nat.ne_of_lt hlt)]
      exact ih hp.2 hv

/-- Two maps with their keys in order that agree on every lookup are equal. -/
theorem map_sorted_ext {β : Type} [has_block_id β] (a : List β) :
    ∀ b : List β, map_sorted a → map_sorted b → (∀ k, map_find k a = map_find k b) → a = b := by
  induction a with
  | nil =>
    intro b _ _ h
    cases b with
    | nil => rfl
    | cons y tb =>
      have := h (has_block_id.id_of y)
      simp [map_find] at this
  | cons x ta ih =>
    intro b ha hb h
    cases b with
    | nil =>
      have := h (has_block_id.id_of x)
      simp [map_find] at this
    | cons y tb =>
      have hpa := List.pairwise_cons.mp ha
      have hpb := List.pairwise_cons.mp hb
      have hx : map_find (has_block_id.id_of x) (y :: tb) = some x := by
        rw [← h]; simp [map_find]
      have hy : map_find (has_block_id.id_of y) (x :: ta) = some y := by
        rw [h]; simp [map_find]
      have hxy : x = y := by
        rcases List.mem_cons.mp (map_find_mem _ _ _ hx) with e | hxm
        · exact e
        · rcases List.mem_cons.mp (map_find_mem _ _ _ hy) with e | hym
          · exact e.symm
          · have h1 := hpb.1 x hxm
            have h2 := hpa.1 y hym
            omega
      subst hxy
      have htail : ∀ k, map_find k ta = map_find k tb := by
        intro k
        by_cases hk : has_block_id.id_of x = k
        · rw [map_find_none_of_ne k ta (fun z hz => by
              have := hpa.1 z hz
              omega),
            map_find_none_of_ne k tb (fun z hz => by
              have := hpb.1 z hz
              omega)]
        · have := h k
          simpa [map_find, hk] using this
      rw [ih tb hpa.2 hpb.2 htail]

/-- An element of a map after an assignment is the value assigned or was in
the map before. -/
theorem map_mem_put {β : Type} [has_block_id β] (v : β) (l : List β) (x : β)
    (h : x ∈ map_put v l) : x = v ∨ x ∈ l := by
  induction l with
  | nil =>
    simp only [map_put, List.mem_singleton] at h
    exact Or.inl h
  | cons w t ih =>
    simp only [map_put] at h
    split at h
    · rcases List.mem_cons.mp h with e | e
      · exact Or.inl e
      · exact Or.inr (List.mem_cons_of_mem _ e)
    · split at h
      · rcases List.mem_cons.mp h with e | e
        · exact Or.inl e
        · exact Or.inr e
      · rcases List.mem_cons.mp h with e | e
        · exact Or.inr (e ▸ List.mem_cons_self _ _)
        · rcases ih e with e2 | e2
          · exact Or.inl e2
          · exact Or.inr (List.mem_cons_of_mem _ e2)

/-- An assignment keeps the keys of a map in order. -/
theorem map_put_sorted {β : Type} [has_block_id β] (v : β) (l : List β) (hs : map_sorted l) :
    map_sorted (map_put v l) := by
  induction l with
  | nil => simp [map_put, map_sorted]
  | cons w t ih =>
    have hp := List.pairwise_cons.mp hs
    simp only [map_put]
    split
    · rename_i hw
      apply List.pairwise_cons.mpr
      exact ⟨fun x hx => by have := hp.1 x hx; omega, hp.2⟩
    · split
      · rename_i hlt
        apply List.pairwise_cons.mpr
        refine ⟨fun x hx => ?_, hs⟩
        rcases List.mem_cons.mp hx with rfl | hx
        · exact hlt
        · have := hp.1 x hx
          omega
      · rename_i hne hnlt
        apply List.pairwise_cons.mpr
        refine ⟨fun x hx => ?_, ih hp.2⟩
        rcases map_mem_put v t x hx with rfl | hx
        · omega
        · exact hp.1 x hx

/-- An element of a map after an erase was in the map before. -/
theorem map_mem_erase {β : Type} [has_block_id β] (k : Nat) (l : List β) (x : β)
    (h : x ∈ map_erase k l) : x ∈ l := by
  induction l with
  | nil => simp [map_erase] at h
  | cons w t ih =>
    simp only [map_erase] at h
    split at h
    · exact List.mem_cons_of_mem _ (ih h)
    · rcases List.mem_cons.mp h with e | e
      · exact e ▸ List.mem_cons_self _ _
      · exact List.mem_cons_of_mem _ (ih e)

/-- An erase keeps the keys of a map in order. -/
theorem map_erase_sorted {β : Type} [has_block_id β] (k : Nat) (l : List β) (hs : map_sorted l) :
    map_sorted (map_erase k l) := by
  induction l with
  | nil => simp [map_erase, map_sorted]
  | cons w t ih =>
    have hp := List.pairwise_cons.mp hs
    simp only [map_erase]
    split
    · exact ih hp.2
    · apply List.pairwise_cons.mpr
      exact ⟨fun x hx => hp.1 x (map_mem_erase k t x hx), ih hp.2⟩

/-! ## Extraction followed by return -/

/-- The erase loop of the extraction keeps the keys of the map in order. -/
theorem UG_inode_dirty_blocks_erase_all_sorted (modified : List UG_dirty_block) :
    ∀ dirty_blocks : List UG_dirty_block, map_sorted dirty_blocks →
      map_sorted (UG_inode_dirty_blocks_erase_all modified dirty_blocks) := by
  induction modified with
  | nil => intro dirty_blocks hs; exact hs
  | cons d rest ih =>
    intro dirty_blocks hs
    simp only [UG_inode_dirty_blocks_erase_all, List.foldl_cons]
    exact ih _ (map_erase_sorted _ _ hs)

/-- The erase loop of the extraction leaves the ids `*modified` lacks as
they are. -/
theorem UG_inode_dirty_blocks_erase_all_other (k : Nat) (modified : List UG_dirty_block)
    (hk : map_find k modified = none) :
    ∀ dirty_blocks : List UG_dirty_block,
      map_find k (UG_inode_dirty_blocks_erase_all modified dirty_blocks)
        = map_find k dirty_blocks := by
  induction modified with
  | nil => intro dirty_blocks; rfl
  | cons d rest ih =>
    intro dirty_blocks
    have hne := map_find_none_ne k (d :: rest) hk
    have hd : k ≠ UG_dirty_block_id d := fun e => hne d (List.mem_cons_self _ _) e.symm
    have hrest : map_find k rest = none :=
      map_find_none_of_ne k rest (fun x hx => hne x (List.mem_cons_of_mem _ hx))
    simp only [UG_inode_dirty_blocks_erase_all, List.foldl_cons]
    have h1 := ih hrest (map_erase (UG_dirty_block_id d) dirty_blocks)
    simp only [UG_inode_dirty_blocks_erase_all] at h1
    rw [h1]
    exact map_find_erase_other _ _ _ hd

/-- The return loop, when it returns `0`, leaves `*extracted` empty, keeps
the keys of the dirty-block map in order, and files every block of
`*extracted` under its id without changing another id. -/
theorem UG_inode_dirty_blocks_return_loop_done (oom : Nat → Bool)
    (extracted : List UG_dirty_block) (hs : map_sorted extracted) :
    ∀ dirty_blocks : List UG_dirty_block,
      (UG_inode_dirty_blocks_return_loop oom extracted dirty_blocks).1 = 0 →
      (UG_inode_dirty_blocks_return_loop oom extracted dirty_blocks).2.2 = [] ∧
      (map_sorted dirty_blocks →
        map_sorted (UG_inode_dirty_blocks_return_loop oom extracted dirty_blocks).2.1) ∧
      ∀ k, map_find k (UG_inode_dirty_blocks_return_loop oom extracted dirty_blocks).2.1
        = (match map_find k extracted with
           | some v => some v
           | none => map_find k dirty_blocks) := by
  induction extracted with
  | nil =>
    intro dirty_blocks _
    exact ⟨rfl, fun h => h, fun k => rfl⟩
  | cons d rest ih =>
    intro dirty_blocks h
    have hp := List.pairwise_cons.mp hs
    simp only [UG_inode_dirty_blocks_return_loop] at h ⊢
    split at h
    · simp [ENOMEM] at h
    · rename_i hoom
      rw [if_neg hoom]
      obtain ⟨h1, h2, h3⟩ := ih hp.2 (map_put d dirty_blocks) h
      refine ⟨h1, fun hsd => h2 (map_put_sorted d dirty_blocks hsd), ?_⟩
      intro k
      rw [h3 k]
      by_cases hk : UG_dirty_block_id d = k
      · have hnone : map_find k rest = none :=
          map_find_none_of_ne k rest (fun x hx => by
            have hlt := hp.1 x hx
            have e1 : has_block_id.id_of d = UG_dirty_block_id d := rfl
            omega)
        have hput : map_find k (map_put d dirty_blocks) = some d := by
          rw [← hk]
          exact map_find_put_same d dirty_blocks
        have hhead : map_find k (d :: rest) = some d := by
          simp only [map_find]
          rw [if_pos (show has_block_id.id_of d = k from hk)]
        rw [hnone, hhead]
        exact hput
      · have hput : map_find k (map_put d dirty_blocks) = map_find k dirty_blocks :=
          map_find_put_other d dirty_blocks k (fun e => hk e.symm)
        have hhead : map_find k (d :: rest) = map_find k rest := by
          simp only [map_find]
          rw [if_neg (show ¬ has_block_id.id_of d = k from hk)]
        rw [hhead, hput]

/-- The first loop of the extraction keeps the keys of `*modified` in order
and puts into it only blocks of the dirty-block map. -/
theorem UG_inode_dirty_blocks_extract_modified_loop_from (oom : Nat → Bool)
    (all : List UG_dirty_block) (hall : map_sorted all) :
    ∀ (n : Nat) (dirty_blocks modified : List UG_dirty_block) (rc : Int)
      (out : List UG_dirty_block),
      dirty_blocks.length ≤ n →
      UG_inode_dirty_blocks_extract_modified_loop oom dirty_blocks modified = some (rc, out) →
      (∀ x ∈ dirty_blocks, x ∈ all) →
      map_sorted modified →
      (∀ k v, map_find k modified = some v → map_find k all = some v) →
      map_sorted out ∧ ∀ k v, map_find k out = some v → map_find k all = some v := by
  intro n
  induction n with
  | zero =>
    intro dirty_blocks modified rc out hlen h _ hsm hfrom
    cases dirty_blocks with
    | nil =>
      simp only [UG_inode_dirty_blocks_extract_modified_loop] at h
      cases h
      exact ⟨hsm, hfrom⟩
    | cons d t => simp at hlen
  | succ n ih =>
    intro dirty_blocks modified rc out hlen h hmem hsm hfrom
    have hstep : ∀ d, d ∈ all → map_sorted (map_put d modified) ∧
        ∀ k v, map_find k (map_put d modified) = some v → map_find k all = some v := by
      intro d hd
      refine ⟨map_put_sorted d modified hsm, ?_⟩
      intro k v hk
      by_cases hkd : k = has_block_id.id_of d
      · rw [hkd, map_find_put_same] at hk
        cases hk
        rw [hkd]
        exact map_find_of_mem_sorted all d hall hd
      · rw [map_find_put_other d modified k hkd] at hk
        exact hfrom k v hk
    match dirty_blocks, hlen, h, hmem with
    | [], _, h, _ =>
      simp only [UG_inode_dirty_blocks_extract_modified_loop] at h
      cases h
      exact ⟨hsm, hfrom⟩
    | [d], _, h, hmem =>
      simp only [UG_inode_dirty_blocks_extract_modified_loop] at h
      split at h
      · cases h
      · split at h
        · cases h
          exact ⟨hsm, hfrom⟩
        · cases h
          exact hstep d (hmem d (List.mem_cons_self _ _))
    | d :: skipped :: rest, hlen, h, hmem =>
      simp only [UG_inode_dirty_blocks_extract_modified_loop] at h
      split at h
      · exact ih rest modified rc out (by simp at hlen; omega) h
          (fun x hx => hmem x (List.mem_cons_of_mem _ (List.mem_cons_of_mem _ hx))) hsm hfrom
      · split at h
        · cases h
          exact ⟨hsm, hfrom⟩
        · have hs := hstep d (hmem d (List.mem_cons_self _ _))
          exact ih (skipped :: rest) (map_put d modified) rc out (by simp at hlen ⊢; omega) h
            (fun x hx => hmem x (List.mem_cons_of_mem _ hx)) hs.1 hs.2

/-- C28. Extract/return round trip: for a dirty-block map with its keys in
order, an extraction of the modified blocks into an empty map that returns
`0`, followed by a return of the extracted blocks that returns `0`, leaves
the inode, and with it the dirty-block map, exactly as before the extraction,
and leaves the extracted map empty. -/
theorem extract_then_return (oom1 oom2 : Nat → Bool) (inode inode1 : UG_inode)
    (modified : List UG_dirty_block)
    (hsorted : map_sorted inode.dirty_blocks)
    (hextract : UG_inode_dirty_blocks_extract_modified oom1 inode [] = some (0, inode1, modified))
    (hreturn : (UG_inode_dirty_blocks_return oom2 inode1 modified).1 = 0) :
    (UG_inode_dirty_blocks_return oom2 inode1 modified).2.1 = inode ∧
    (UG_inode_dirty_blocks_return oom2 inode1 modified).2.1.dirty_blocks = inode.dirty_blocks ∧
    (UG_inode_dirty_blocks_return oom2 inode1 modified).2.2 = [] := by
  unfold UG_inode_dirty_blocks_extract_modified at hextract
  cases hloop : UG_inode_dirty_blocks_extract_modified_loop oom1 inode.dirty_blocks [] with
  | none => simp [hloop] at hextract
  | some p =>
    obtain ⟨rc, out⟩ := p
    simp only [hloop] at hextract
    have hfrom := UG_inode_dirty_blocks_extract_modified_loop_from oom1 inode.dirty_blocks hsorted
      inode.dirty_blocks.length inode.dirty_blocks [] rc out (Nat.le_refl _) hloop
      (fun x hx => hx) List.Pairwise.nil (fun k v h => by simp [map_find] at h)
    by_cases hrc : rc ≠ 0
    · rw [if_pos hrc] at hextract
      have := (Prod.mk.inj (Option.some.inj hextract)).1
      exact absurd this hrc
    · rw [if_neg hrc] at hextract
      have hinj := Prod.mk.inj (Prod.mk.inj (Option.some.inj hextract)).2
      have hmod : out = modified := hinj.2
      have hinode1 : inode1 = { inode with
          dirty_blocks := UG_inode_dirty_blocks_erase_all out inode.dirty_blocks } := hinj.1.symm
      subst hmod
      have hret : (UG_inode_dirty_blocks_return_loop oom2 out inode1.dirty_blocks).1 = 0 := hreturn
      obtain ⟨h1, h2, h3⟩ :=
        UG_inode_dirty_blocks_return_loop_done oom2 out hfrom.1 inode1.dirty_blocks hret
      have hD1 : inode1.dirty_blocks
          = UG_inode_dirty_blocks_erase_all out inode.dirty_blocks := by rw [hinode1]
      have hsorted1 : map_sorted inode1.dirty_blocks := by
        rw [hD1]
        exact UG_inode_dirty_blocks_erase_all_sorted out _ hsorted
      have hD : (UG_inode_dirty_blocks_return_loop oom2 out inode1.dirty_blocks).2.1
          = inode.dirty_blocks := by
        apply map_sorted_ext _ _ (h2 hsorted1) hsorted
        intro k
        rw [h3 k]
        cases hk : map_find k out with
        | some v => exact (hfrom.2 k v hk).symm
        | none =>
          simp only []
          rw [hD1]
          exact UG_inode_dirty_blocks_erase_all_other k out hk _
      have hstate : (UG_inode_dirty_blocks_return oom2 inode1 out).2.1 = inode := by
        simp only [UG_inode_dirty_blocks_return, hD]
        rw [hinode1]
      exact ⟨hstate, by rw [hstate], h1⟩

/-- The theorem `extract_then_return` at a dirty-block map of a clean block 0
and the dirty blocks 1 and 2, of which the extraction takes block 2 only. -/
theorem extract_then_return_witness :
    map_sorted clean_then_dirty.dirty_blocks ∧
    UG_inode_dirty_blocks_extract_modified no_oom clean_then_dirty []
      = some (0,
          { clean_then_dirty with
            dirty_blocks := [sample_dirty_block 0 1 false, sample_dirty_block 1 1 true] },
          [sample_dirty_block 2 1 true]) ∧
    (UG_inode_dirty_blocks_return no_oom
        { clean_then_dirty with
          dirty_blocks := [sample_dirty_block 0 1 false, sample_dirty_block 1 1 true] }
        [sample_dirty_block 2 1 true]).2.1 = clean_then_dirty ∧
    (UG_inode_dirty_blocks_return no_oom
        { clean_then_dirty with
          dirty_blocks := [sample_dirty_block 0 1 false, sample_dirty_block 1 1 true] }
        [sample_dirty_block 2 1 true]).2.1.dirty_blocks = clean_then_dirty.dirty_blocks ∧
    (UG_inode_dirty_blocks_return no_oom
        { clean_then_dirty with
          dirty_blocks := [sample_dirty_block 0 1 false, sample_dirty_block 1 1 true] }
        [sample_dirty_block 2 1 true]).2.2 = [] :=
  ⟨by decide, by decide,
   extract_then_return no_oom no_oom clean_then_dirty
     { clean_then_dirty with
       dirty_blocks := [sample_dirty_block 0 1 false, sample_dirty_block 1 1 true] }
     [sample_dirty_block 2 1 true] (by decide) (by decide) (by decide)⟩

/-! ## Trim: evaluation -/

/-- C29 (trim preserves the listed blocks) at an inode that buffers block 0
in a buffer of its own and block 1 in a shared buffer, with both ids in the
preserve list and nothing failing: the trim returns 0 and has started a flush
on block 0, which ends up with the staging descriptor 10; block 1 is unshared
and not flushed. -/
theorem trim_flushes_unshared_preserved_block :
    (UG_inode_dirty_blocks_trim quiet_trim own_and_shared (some [0, 1])).1 = 0 ∧
    (UG_inode_dirty_blocks_trim quiet_trim own_and_shared (some [0, 1])).2.2 = [0] ∧
    (map_find 0 (UG_inode_dirty_blocks_trim quiet_trim own_and_shared
        (some [0, 1])).2.1.dirty_blocks).map (fun d => d.block_fd) = some 10 ∧
    (map_find 1 (UG_inode_dirty_blocks_trim quiet_trim own_and_shared
        (some [0, 1])).2.1.dirty_blocks).map (fun d => (d.block_fd, d.unshared))
      = some (-1, true) := by
  decide

/-! ## Truncate of an open file: evaluations -/

/-- C26 (tail block zero-fill) at a local file of two blocks of size 4
(size 8) whose reads deliver sevens. Truncated to size 1, which lies inside
block 0, the file gets its new size and version, block 1 is removed, and no
block is rewritten or recorded as modified: block 0 keeps its bytes past the
new size. Truncated to size 5, which lies inside block 1, that block is
rewritten as `[7, 0, 0, 0]` and recorded as modified. -/
theorem truncate_below_one_block_skips_tail :
    fs_entry_truncate_impl quiet_trunc local_two_blocks 1
      = some (0, { size := 1, version := 2, is_local := true, manifest := [(0, 1)],
                   read_stale := false },
          [], [trunc_op.remove_block 1, trunc_op.reversion_file 2]) ∧
    fs_entry_truncate_impl quiet_trunc local_two_blocks 5
      = some (0, { size := 5, version := 2, is_local := true, manifest := [(0, 1), (1, 2)],
                   read_stale := false },
          [(1, 2)],
          [trunc_op.put_block 1 [7, 0, 0, 0], trunc_op.replicate_write [(1, 2)],
           trunc_op.reversion_file 2]) :=
  ⟨rfl, rfl⟩

/-- C27 (versioned truncate) at a file of size 8 and version 5: with the
known versions 0 and -2, which are neither -1 nor the current version, the
truncate to size 4 is performed and returns 0; with the known version 3 the
call returns `-EINVAL` and the size stays 8. -/
theorem versioned_truncate_nonpositive_known_version :
    (fs_entry_versioned_truncate quiet_trunc path_of_two_blocks 4 0).map
        (fun r => (r.1, r.2.1.map (fun fent => fent.size)))
      = some (0, some 4) ∧
    (fs_entry_versioned_truncate quiet_trunc path_of_two_blocks 4 (-2)).map
        (fun r => (r.1, r.2.1.map (fun fent => fent.size)))
      = some (0, some 4) ∧
    (fs_entry_versioned_truncate quiet_trunc path_of_two_blocks 4 3).map
        (fun r => (r.1, r.2.1.map (fun fent => fent.size)))
      = some (-EINVAL, some 8) := by
  decide


/-! ## fsync: a failure in the snapshot phase -/

/-- A closure that is not running has no callback to be found. -/
theorem md_closure_find_callback_not_running (closure : md_closure) (cb_name : String)
    (h : closure.running = 0) : md_closure_find_callback closure cb_name = none := by
  simp [md_closure_find_callback, h]

/-- The load of a driver leaves `running` as it was. -/
theorem md_load_driver_running (env : closure_env) (closure : md_closure)
    (so_path : Option String) (symtable : List md_closure_callback_entry) :
    (md_load_driver env closure so_path symtable).2.1.running = closure.running := by
  unfold md_load_driver
  cases env.dlopen so_path with
  | none => rfl
  | some so_handle =>
    simp only []
    split <;> rfl

/-- The second half of `md_closure_driver_reload` never calls the
`closure_init` of the new driver: the local closure it looks the callback up
in is not running. -/
theorem md_closure_driver_reload_load_no_init (env : closure_env)
    (closure new_closure : md_closure) (stored_to_disk : Bool) (new_so_path : Option String)
    (log : List closure_op) (r : Int × md_closure × List closure_op)
    (hrun : new_closure.running = 0)
    (hlog : ∀ sym, closure_op.call_init sym ∉ log)
    (h : md_closure_driver_reload_load env closure new_closure stored_to_disk new_so_path log
      = some r) :
    ∀ sym, closure_op.call_init sym ∉ r.2.2 := by
  intro sym
  have hl := hlog sym
  unfold md_closure_driver_reload_load at h
  cases hcb : closure.callbacks with
  | none => simp [hcb] at h
  | some prototype =>
    simp only [hcb] at h
    cases htab : md_closure_callback_table_from_prototype env.oom_callbacks prototype with
    | none =>
      simp only [htab] at h
      cases h
      cases stored_to_disk <;> simp [hl]
    | some callbacks =>
      simp only [htab] at h
      have hfind : md_closure_find_callback
          { (md_load_driver env { new_closure with callbacks := some callbacks } new_so_path
              callbacks).2.1 with
            callbacks := some (md_load_driver env { new_closure with callbacks := some callbacks }
              new_so_path callbacks).2.2.1 } "closure_init" = none := by
        apply md_closure_find_callback_not_running
        show (md_load_driver env { new_closure with callbacks := some callbacks } new_so_path
          callbacks).2.1.running = 0
        rw [md_load_driver_running]
        exact hrun
      have hload : ∀ op ∈ (md_load_driver env { new_closure with callbacks := some callbacks }
          new_so_path callbacks).2.2.2, op ≠ closure_op.call_init sym := by
        intro op hop
        unfold md_load_driver at hop
        cases hopen : env.dlopen new_so_path with
        | none => simp [hopen] at hop
        | some so_handle =>
          simp only [hopen] at hop
          split at hop
          · simp at hop
            rw [hop]
            simp
          · simp at hop
      have hload2 : closure_op.call_init sym ∉ (md_load_driver env
          { new_closure with callbacks := some callbacks } new_so_path callbacks).2.2.2 :=
        fun hm => hload _ hm rfl
      split at h
      · cases h
        cases stored_to_disk <;> cases hs : md_closure_find_callback closure "closure_shutdown" <;>
          simp [hl, hload2]
      · rw [hfind] at h
        simp only [] at h
        cases h
        cases stored_to_disk <;> cases hs : md_closure_find_callback closure "closure_shutdown" <;>
          cases hh : closure.so_handle <;> cases hp : closure.so_path <;>
          simp [hl, hload2]

/-- The function `md_closure_driver_reload` never calls the `closure_init`
of the new driver. -/
theorem md_closure_driver_reload_no_init (env : closure_env) (closure : md_closure)
    (driver_text : Option (List Nat)) (r : Int × md_closure × List closure_op)
    (h : md_closure_driver_reload env closure driver_text = some r) :
    ∀ sym, closure_op.call_init sym ∉ r.2.2 := by
  unfold md_closure_driver_reload at h
  cases driver_text with
  | some text =>
    simp only [] at h
    split at h
    · cases h
      intro sym
      simp
    · exact md_closure_driver_reload_load_no_init env closure _ true _ _ r rfl
        (fun sym => by simp) h
  | none =>
    simp only [] at h
    cases hp : closure.so_path with
    | none =>
      simp only [hp] at h
      cases h
      intro sym
      simp
    | some so_path =>
      simp only [hp] at h
      split at h
      · cases h
        intro sym
        simp
      · exact md_closure_driver_reload_load_no_init env closure _ false _ _ r rfl
          (fun sym => by simp) h

/-- C32 (reload initialises the new driver) at a running closure and a
closure text whose driver loads and exports `closure_init`: `md_closure_reload`
returns 0 with the new driver installed, and `md_closure_init` with the same
text returns 0 with the closure running, but neither has called the driver's
`closure_init`. In no execution does `md_closure_driver_reload` call
`closure_init`: it looks the callback up in its local closure, which is not
running, and `md_closure_find_callback` finds nothing there. -/
theorem reload_never_calls_closure_init :
    md_closure_reload quiet_closure running_closure
      = some (0,
          { running_closure with
            so_path := some "/tmp/new.so", so_handle := some 8,
            callbacks := some [{ sym_name := "closure_init", sym_ptr := some 800 },
                               { sym_name := "closure_shutdown", sym_ptr := some 801 }],
            closure_conf := some [("k", "new")] },
          [closure_op.write_driver [1, 2, 3], closure_op.call_shutdown 701 (some 55),
           closure_op.dlclose 7, closure_op.unlink (some "/tmp/old.so")]) ∧
    (md_closure_init quiet_closure quiet_init two_symbols false).map
        (fun r => (r.1, r.2.1.running, r.2.1.so_handle, r.2.2))
      = some (0, 1, some 8, [closure_op.write_driver [1, 2, 3]]) ∧
    ∀ (env : closure_env) (closure : md_closure) (driver_text : Option (List Nat))
      (r : Int × md_closure × List closure_op),
      md_closure_driver_reload env closure driver_text = some r →
      ∀ sym, closure_op.call_init sym ∉ r.2.2 :=
  ⟨by decide, by decide, md_closure_driver_reload_no_init⟩

/-- C33 (shutdown runs the driver's shutdown hook) at a running closure whose
table holds `closure_shutdown` at 701: `md_closure_shutdown` returns 0,
unlinks the stored driver and closes its handle, and does not call the
callback. No closure has its `closure_shutdown` called by
`md_closure_shutdown`: `running` is set to 0 before the callback is looked
up, and `md_closure_find_callback` finds nothing in a closure that is not
running. -/
theorem shutdown_never_calls_closure_shutdown :
    md_closure_find_callback running_closure "closure_shutdown" = some 701 ∧
    md_closure_shutdown running_closure
      = (0,
         { running_closure with
           so_path := none, so_handle := none, callbacks := none, closure_conf := none,
           closure_secrets := none, running := 0 },
         [closure_op.unlink (some "/tmp/old.so"), closure_op.dlclose 7]) ∧
    ∀ (closure : md_closure) (sym : Nat) (cls : Option Nat),
      closure_op.call_shutdown sym cls ∉ (md_closure_shutdown closure).2.2 := by
  refine ⟨by decide, by decide, ?_⟩
  intro closure sym cls
  have hfind : md_closure_find_callback { closure with running := 0 } "closure_shutdown"
      = none := md_closure_find_callback_not_running _ _ rfl
  unfold md_closure_shutdown
  simp only [hfind]
  cases hp : closure.so_path <;> cases hh : closure.so_handle <;> cases hd : closure.on_disk <;>
    simp

/-- C34 (`md_closure_init_bin` reports driver failure) at a driver that lacks
the symbol `get_block` of the prototype, with `ignore_stubs` false:
`md_closure_driver_reload` fails with `-ENOENT`, the closure is shut down and
left not running, and `md_closure_init_bin` returns 0. -/
theorem init_bin_hides_driver_failure :
    (md_closure_driver_reload quiet_closure
        { so_path := some "/tmp/new.so", on_disk := true,
          callbacks := some three_symbols } none).map (fun r => r.1)
      = some (-ENOENT) ∧
    md_closure_init_bin quiet_closure quiet_init (some "/tmp/new.so") three_symbols false
      = some (0, { on_disk := true }, [closure_op.dlclose 8]) := by
  decide

/-! ## The modtime test -/

/-- C38 (manifest-newer test), with `md_timespec_diff_ms( a, b )` the
difference `a - b` in milliseconds: for a manifest of modtime 2 s and a given
time of 1 s the test returns false although the manifest is more recent; for
a manifest of modtime 1 s and a given time of 2 s it returns true although
the manifest is older. In general the test is true exactly when the given
time is later than the manifest's modtime by a millisecond or more. -/
theorem manifest_newer_test_is_inverted :
    UG_inode_manifest_is_newer_than (sample_manifest 0 2 []) 1 0 = false ∧
    UG_inode_manifest_is_newer_than (sample_manifest 0 1 []) 2 0 = true ∧
    ∀ (manifest : SG_manifest) (mtime_sec mtime_nsec : Int),
      (UG_inode_manifest_is_newer_than manifest mtime_sec mtime_nsec = true ↔
        md_timespec_diff_ms { tv_sec := mtime_sec, tv_nsec := mtime_nsec }
          { tv_sec := manifest.mtime_sec, tv_nsec := manifest.mtime_nsec } > 0) := by
  refine ⟨by decide, by decide, ?_⟩
  intro manifest mtime_sec mtime_nsec
  simp [UG_inode_manifest_is_newer_than]

/-! ## The path comparator -/

/-- C40 (`path_comp` is a valid ordering) at the paths `/a` and `/b`, which
have one `/` each: `path_comp` is true in both directions. It is false on
equal paths. -/
theorem path_comp_not_asymmetric :
    path_comp "/a" "/b" = true ∧ path_comp "/b" "/a" = true ∧
    ∀ path : String, path_comp path path = false := by
  refine ⟨by decide, by decide, ?_⟩
  intro path
  simp [path_comp]

/-! ## Eviction hints of a file handle -/

/-- The loop over the hints removes from the dirty-block map the blocks that
are not dirty and whose id and version are among the hints, and no other. -/
theorem UG_file_handle_evict_blocks_loop_find (after_erase : UG_dirty_block → UG_dirty_block)
    (k : Nat) (evicts : List (Nat × Int)) :
    ∀ dirty_blocks : List UG_dirty_block,
      map_find k (UG_file_handle_evict_blocks_loop after_erase evicts dirty_blocks).1
        = (match map_find k dirty_blocks with
           | some b =>
             if b.dirty = false ∧ (k, UG_dirty_block_version b) ∈ evicts then none else some b
           | none => none) := by
  induction evicts with
  | nil =>
    intro dirty_blocks
    simp only [UG_file_handle_evict_blocks_loop]
    cases map_find k dirty_blocks <;> simp
  | cons hint rest ih =>
    intro dirty_blocks
    obtain ⟨id, version⟩ := hint
    simp only [UG_file_handle_evict_blocks_loop]
    have hskip : ∀ (hno : ∀ b, map_find id dirty_blocks = some b →
        ¬ (UG_dirty_block_version b = version ∧ b.dirty = false)),
        (match map_find k dirty_blocks with
          | some b =>
            if b.dirty = false ∧ (k, UG_dirty_block_version b) ∈ rest then none else some b
          | none => none)
        = (match map_find k dirty_blocks with
          | some b =>
            if b.dirty = false ∧ (k, UG_dirty_block_version b) ∈ (id, version) :: rest then none
            else some b
          | none => none) := by
      intro hno
      cases hk : map_find k dirty_blocks with
      | none => rfl
      | some b =>
        simp only []
        have hiff : (b.dirty = false ∧ (k, UG_dirty_block_version b) ∈ (id, version) :: rest) ↔
            (b.dirty = false ∧ (k, UG_dirty_block_version b) ∈ rest) := by
          constructor
          · rintro ⟨hd, hm⟩
            rcases List.mem_cons.mp hm with e | hm
            · exfalso
              have e1 : k = id := (Prod.mk.inj e).1
              have e2 : UG_dirty_block_version b = version := (Prod.mk.inj e).2
              rw [e1] at hk
              exact hno b hk ⟨e2, hd⟩
            · exact ⟨hd, hm⟩
          · rintro ⟨hd, hm⟩
            exact ⟨hd, List.mem_cons_of_mem _ hm⟩
        by_cases hc : b.dirty = false ∧ (k, UG_dirty_block_version b) ∈ rest
        · rw [if_pos hc, if_pos (hiff.mpr hc)]
        · rw [if_neg hc, if_neg (fun h => hc (hiff.mp h))]
    cases hfind : map_find id dirty_blocks with
    | none =>
      simp only []
      rw [ih dirty_blocks]
      exact hskip (fun b hb => by rw [hfind] at hb; cases hb)
    | some d =>
      simp only []
      by_cases hmatch : UG_dirty_block_version d = version ∧ d.dirty = false
      · rw [if_pos hmatch]
        simp only []
        rw [ih (map_erase id dirty_blocks)]
        by_cases hk : k = id
        · subst hk
          rw [map_find_erase_same, hfind]
          simp only []
          rw [if_pos ⟨hmatch.2, by rw [hmatch.1]; exact List.mem_cons_self _ _⟩]
        · rw [map_find_erase_other id k dirty_blocks hk]
          cases hkf : map_find k dirty_blocks with
          | none => rfl
          | some b =>
            simp only []
            have hiff : (b.dirty = false ∧ (k, UG_dirty_block_version b) ∈ (id, version) :: rest) ↔
                (b.dirty = false ∧ (k, UG_dirty_block_version b) ∈ rest) := by
              constructor
              · rintro ⟨hd, hm⟩
                rcases List.mem_cons.mp hm with e | hm
                · exact absurd (Prod.mk.inj e).1 hk
                · exact ⟨hd, hm⟩
              · rintro ⟨hd, hm⟩
                exact ⟨hd, List.mem_cons_of_mem _ hm⟩
            by_cases hc : b.dirty = false ∧ (k, UG_dirty_block_version b) ∈ rest
            · rw [if_pos hc, if_pos (hiff.mpr hc)]
            · rw [if_neg hc, if_neg (fun h => hc (hiff.mp h))]
      · rw [if_neg hmatch]
        rw [ih dirty_blocks]
        exact hskip (fun b hb => by
          rw [hfind] at hb
          cases hb
          exact hmatch)

/-- C35. Handle eviction hints: `UG_file_handle_evict_blocks` returns 0 and
leaves the hint map of the handle empty. Afterwards the dirty-block map of
the inode lacks exactly the blocks that were not dirty and whose block id
and version were a recorded hint: every other block, in particular every
dirty block and every block of another version than its hint, is found as
before. The manifest and the replaced-block ledger are as before. This holds
whatever is read through the pointer into the erased slot. -/
theorem handle_evict_blocks_result (after_erase : UG_dirty_block → UG_dirty_block)
    (fh : UG_file_handle) (inode : UG_inode) :
    (UG_file_handle_evict_blocks after_erase fh inode).1 = 0 ∧
    (UG_file_handle_evict_blocks after_erase fh inode).2.1.evicts = [] ∧
    (∀ k, map_find k (UG_file_handle_evict_blocks after_erase fh inode).2.2.1.dirty_blocks
        = (match map_find k inode.dirty_blocks with
           | some b =>
             if b.dirty = false ∧ (k, UG_dirty_block_version b) ∈ fh.evicts then none
             else some b
           | none => none)) ∧
    (UG_file_handle_evict_blocks after_erase fh inode).2.2.1.manifest = inode.manifest ∧
    (UG_file_handle_evict_blocks after_erase fh inode).2.2.1.replaced_blocks
      = inode.replaced_blocks :=
  ⟨rfl, rfl, fun k => UG_file_handle_evict_blocks_loop_find after_erase k fh.evicts
    inode.dirty_blocks, rfl, rfl⟩

/-! ## The dispatcher: the operations it evaluates -/

/-- C36 (the local operation is evaluated only at the coordinator or after
`UG_chcoord` returned 0) where the takeover fails: this gateway (id 1) may
coordinate, the coordinator is gateway 2, the remote operation fails as
"remote unavailable", and `UG_chcoord` returns `-11` while leaving the id of
this gateway in `_current_coordinator`. The local operation is evaluated
although `UG_chcoord` did not return 0. -/
theorem try_or_coordinate_local_after_failed_chcoord :
    contested_takeover.chcoord_rc = -11 ∧
    (UG_try_or_coordinate contested_takeover 2 (-1)).2.count dispatch_op.chcoord = 1 ∧
    (UG_try_or_coordinate contested_takeover 2 (-1)).2.count dispatch_op.local_oper = 1 := by
  decide

/-- The operations `UG_try_or_coordinate` evaluates, for every outcome of
them. The remote operation, `UG_chcoord` and the local operation are
evaluated at most once each. The local operation is evaluated exactly when this gateway is the
coordinator at entry, or the remote operation failed as "remote unavailable",
the gateway has `SG_CAP_COORDINATE`, and `UG_chcoord` returned 0 or left the
id of this gateway in `_current_coordinator`. It is never evaluated after the
remote operation returned 0. -/
theorem try_or_coordinate_operations (env : dispatch_env) (coordinator_id : Nat) (rc : Int) :
    (UG_try_or_coordinate env coordinator_id rc).2.count dispatch_op.remote_oper ≤ 1 ∧
    (UG_try_or_coordinate env coordinator_id rc).2.count dispatch_op.chcoord ≤ 1 ∧
    (UG_try_or_coordinate env coordinator_id rc).2.count dispatch_op.local_oper ≤ 1 ∧
    (dispatch_op.local_oper ∈ (UG_try_or_coordinate env coordinator_id rc).2 ↔
      coordinator_id = env.gateway_id ∨
      (env.remote_oper ≠ 0 ∧ env.is_remote_unavailable env.remote_oper = true ∧
        env.caps &&& env.SG_CAP_COORDINATE ≠ 0 ∧
        (env.chcoord_rc = 0 ∨ env.chcoord_response = env.gateway_id))) ∧
    (dispatch_op.remote_oper ∈ (UG_try_or_coordinate env coordinator_id rc).2 →
      env.remote_oper = 0 →
      dispatch_op.local_oper ∉ (UG_try_or_coordinate env coordinator_id rc).2) := by
  unfold UG_try_or_coordinate UG_try_or_coordinate_loop
  by_cases h1 : coordinator_id = env.gateway_id
  · simp [h1]
  · by_cases h2 : env.remote_oper = 0
    · simp [h1, h2]
    · by_cases h3 : env.is_remote_unavailable env.remote_oper = true
      · by_cases h4 : env.caps &&& env.SG_CAP_COORDINATE = 0
        · simp [h1, h2, h3, h4]
        · by_cases h5 : env.chcoord_rc = 0
          · simp [h1, h2, h3, h4, h5]
          · by_cases h6 : env.chcoord_response = env.gateway_id
            · simp [h1, h2, h3, h4, h5, h6]
            · simp [h1, h2, h3, h4, h5, h6]
      · simp [h1, h2, h3]

/-! ## Import followed by export -/

/-- C39, counterexample: the record `entry_x_nonces` agrees with the inode
`file_x` and carries the nonces 9 and 4; the inode's own nonces are 0.
The import returns 0 and keeps the nonces of the record as `ms_write_nonce`
and `ms_xattr_nonce`; the export that follows returns 0 with the inode's own
nonces, 0 and 0. -/
theorem export_after_import_has_own_nonces :
    (UG_inode_import sample_type_codes false file_x entry_x_nonces).1 = 0 ∧
    (UG_inode_export sample_type_codes false false {}
      (UG_inode_import sample_type_codes false file_x entry_x_nonces).2 0 none).1 = 0 ∧
    entry_x_nonces.write_nonce = 9 ∧ entry_x_nonces.xattr_nonce = 4 ∧
    (UG_inode_import sample_type_codes false file_x entry_x_nonces).2.ms_write_nonce = 9 ∧
    (UG_inode_import sample_type_codes false file_x entry_x_nonces).2.ms_xattr_nonce = 4 ∧
    (UG_inode_export sample_type_codes false false {}
      (UG_inode_import sample_type_codes false file_x entry_x_nonces).2 0 none).2.write_nonce
        = 0 ∧
    (UG_inode_export sample_type_codes false false {}
      (UG_inode_import sample_type_codes false file_x entry_x_nonces).2 0 none).2.xattr_nonce
        = 0 := by
  decide

/-- An import that returns 0 sets the fields of the inode from the record and
leaves the inode's own nonces as they were. -/
theorem import_success_state (tc : type_codes) (oom : Bool) (inode : UG_inode) (e : md_entry)
    (h : (UG_inode_import tc oom inode e).1 = 0) :
    (UG_inode_import tc oom inode e).2
      = { inode with
          entry :=
            { inode.entry with
              ctime_sec := e.ctime_sec, ctime_nsec := e.ctime_nsec,
              mtime_sec := e.mtime_sec, mtime_nsec := e.mtime_nsec,
              owner := e.owner, group := e.volume, mode := e.mode },
          ms_write_nonce := e.write_nonce,
          ms_xattr_nonce := e.xattr_nonce,
          manifest :=
            { inode.manifest with coordinator_id := e.coordinator, owner_id := e.owner },
          max_read_freshness := e.max_read_freshness,
          max_write_freshness := e.max_write_freshness,
          generation := e.generation,
          ms_num_children := e.num_children,
          ms_capacity := e.capacity } := by
  unfold UG_inode_import at h ⊢
  split
  · rename_i c; simp [c, EINVAL] at h
  · split
    · rename_i c1 c; simp [c1, c, EINVAL] at h
    · split
      · rename_i c1 c2 c; simp [c1, c2, c, EINVAL] at h
      · split
        · rename_i c1 c2 c3 c; simp [c1, c2, c3, c, EINVAL] at h
        · split
          · rename_i c1 c2 c3 c4 c; simp [c1, c2, c3, c4, c, EINVAL] at h
          · rfl

/-- An export that returns 0 fills the record from the inode. -/
theorem export_success_fields (tc : type_codes) (oom_name oom_parent_name : Bool)
    (dest : md_entry) (src : UG_inode) (parent_id : Nat) (parent_name : Option String)
    (h : (UG_inode_export tc oom_name oom_parent_name dest src parent_id parent_name).1 = 0) :
    (UG_inode_export tc oom_name oom_parent_name dest src parent_id parent_name).2
      = { dest with
          type := src.entry.type,
          name := src.entry.name,
          file_id := src.entry.file_id,
          ctime_sec := src.entry.ctime_sec, ctime_nsec := src.entry.ctime_nsec,
          mtime_sec := src.entry.mtime_sec, mtime_nsec := src.entry.mtime_nsec,
          manifest_mtime_sec := src.manifest.mtime_sec,
          manifest_mtime_nsec := src.manifest.mtime_nsec,
          write_nonce := src.write_nonce,
          xattr_nonce := src.xattr_nonce,
          version := src.manifest.file_version,
          max_read_freshness := src.max_read_freshness,
          max_write_freshness := src.max_write_freshness,
          owner := src.entry.owner,
          coordinator := src.manifest.coordinator_id,
          volume := src.manifest.volume_id,
          mode := src.entry.mode,
          size := src.entry.size,
          error := 0,
          generation := src.generation,
          num_children := src.ms_num_children,
          capacity := src.ms_capacity,
          parent_id := parent_id,
          parent_name := parent_name } := by
  unfold UG_inode_export at h ⊢
  by_cases hf : src.entry.type = tc.FSKIT_ENTRY_TYPE_FILE
  · simp only [hf, if_true] at h ⊢
    cases oom_name
    · by_cases hp : oom_parent_name = true ∧ parent_name.isSome = true
      · simp [hp, ENOMEM] at h
      · simp [hp]
    · simp [ENOMEM] at h
  · by_cases hd : src.entry.type = tc.FSKIT_ENTRY_TYPE_DIR
    · rw [hd] at hf
      simp only [hd, hf, if_true, if_false] at h ⊢
      cases oom_name
      · by_cases hp : oom_parent_name = true ∧ parent_name.isSome = true
        · simp [hp, ENOMEM] at h
        · simp [hp]
      · simp [ENOMEM] at h
    · simp [hf, hd, EINVAL] at h

/-- C39, amended. For every inode and md_entry `e` for which `UG_inode_import`
returns 0, a following `UG_inode_export` that returns 0 gives an md_entry
whose ctime, mtime, coordinator, owner, mode, max_read_freshness,
max_write_freshness, generation, num_children and capacity equal those of
`e`. Its write_nonce and xattr_nonce are the inode's own, as they were before
the import; the nonces of `e` are kept in the inode as `ms_write_nonce` and
`ms_xattr_nonce`. -/
theorem import_then_export (tc : type_codes) (oom oom_name oom_parent_name : Bool)
    (dest : md_entry) (inode : UG_inode) (e : md_entry) (parent_id : Nat)
    (parent_name : Option String)
    (himport : (UG_inode_import tc oom inode e).1 = 0)
    (hexport : (UG_inode_export tc oom_name oom_parent_name dest
      (UG_inode_import tc oom inode e).2 parent_id parent_name).1 = 0) :
    (UG_inode_export tc oom_name oom_parent_name dest
        (UG_inode_import tc oom inode e).2 parent_id parent_name).2.ctime_sec = e.ctime_sec ∧
    (UG_inode_export tc oom_name oom_parent_name dest
        (UG_inode_import tc oom inode e).2 parent_id parent_name).2.ctime_nsec = e.ctime_nsec ∧
    (UG_inode_export tc oom_name oom_parent_name dest
        (UG_inode_import tc oom inode e).2 parent_id parent_name).2.mtime_sec = e.mtime_sec ∧
    (UG_inode_export tc oom_name oom_parent_name dest
        (UG_inode_import tc oom inode e).2 parent_id parent_name).2.mtime_nsec = e.mtime_nsec ∧
    (UG_inode_export tc oom_name oom_parent_name dest
        (UG_inode_import tc oom inode e).2 parent_id parent_name).2.coordinator
          = e.coordinator ∧
    (UG_inode_export tc oom_name oom_parent_name dest
        (UG_inode_import tc oom inode e).2 parent_id parent_name).2.owner = e.owner ∧
    (UG_inode_export tc oom_name oom_parent_name dest
        (UG_inode_import tc oom inode e).2 parent_id parent_name).2.mode = e.mode ∧
    (UG_inode_export tc oom_name oom_parent_name dest
        (UG_inode_import tc oom inode e).2 parent_id parent_name).2.max_read_freshness
          = e.max_read_freshness ∧
    (UG_inode_export tc oom_name oom_parent_name dest
        (UG_inode_import tc oom inode e).2 parent_id parent_name).2.max_write_freshness
          = e.max_write_freshness ∧
    (UG_inode_export tc oom_name oom_parent_name dest
        (UG_inode_import tc oom inode e).2 parent_id parent_name).2.generation
          = e.generation ∧
    (UG_inode_export tc oom_name oom_parent_name dest
        (UG_inode_import tc oom inode e).2 parent_id parent_name).2.num_children
          = e.num_children ∧
    (UG_inode_export tc oom_name oom_parent_name dest
        (UG_inode_import tc oom inode e).2 parent_id parent_name).2.capacity = e.capacity ∧
    (UG_inode_export tc oom_name oom_parent_name dest
        (UG_inode_import tc oom inode e).2 parent_id parent_name).2.write_nonce
          = inode.write_nonce ∧
    (UG_inode_export tc oom_name oom_parent_name dest
        (UG_inode_import tc oom inode e).2 parent_id parent_name).2.xattr_nonce
          = inode.xattr_nonce ∧
    (UG_inode_import tc oom inode e).2.ms_write_nonce = e.write_nonce ∧
    (UG_inode_import tc oom inode e).2.ms_xattr_nonce = e.xattr_nonce := by
  rw [export_success_fields tc oom_name oom_parent_name dest _ parent_id parent_name hexport]
  rw [import_success_state tc oom inode e himport]
  simp

/-- The theorem `import_then_export` at the inode `file_x` and the record
`entry_x_nonces`. -/
theorem import_then_export_witness :
    (UG_inode_export sample_type_codes false false {}
        (UG_inode_import sample_type_codes false file_x entry_x_nonces).2 0 none).2.owner = 5 ∧
    (UG_inode_export sample_type_codes false false {}
        (UG_inode_import sample_type_codes false file_x entry_x_nonces).2 0 none).2.write_nonce
          = file_x.write_nonce :=
  ⟨(import_then_export sample_type_codes false false false {} file_x entry_x_nonces 0 none
      (by decide) (by decide)).2.2.2.2.2.1,
   (import_then_export sample_type_codes false false false {} file_x entry_x_nonces 0 none
      (by decide) (by decide)).2.2.2.2.2.2.2.2.2.2.2.2.1⟩

/-! ## Flushing the blocks of a snapshot -/

/-- On a block that is neither flushing nor flushed, `UG_dirty_block_flush_async`
returns the code the environment gives, and the block is flushing when that
code is 0. -/
theorem UG_dirty_block_flush_async_due (env : trim_env) (d : UG_dirty_block)
    (h : ¬ (0 ≤ d.block_fd ∨ d.flushing = true)) :
    UG_dirty_block_flush_async env d
      = if env.flush_async_rc (UG_dirty_block_id d) ≠ 0 then
          (env.flush_async_rc (UG_dirty_block_id d), d)
        else (0, { d with flushing := true }) := by
  have h1 : ¬ (d.flushing = true ∨ 0 ≤ d.block_fd) := fun e => h (Or.symm e)
  unfold UG_dirty_block_flush_async
  rw [if_neg h1]

/-- The code and the calls of `UG_sync_blocks_flush_async` are those of the
flushes in order over the blocks a flush is due on. -/
theorem UG_sync_blocks_flush_async_in_order (env : trim_env) (blocks : List UG_dirty_block) :
    ((UG_sync_blocks_flush_async env blocks).1, (UG_sync_blocks_flush_async env blocks).2.2)
      = flush_in_order env (blocks.filter flush_due) := by
  induction blocks with
  | nil => rfl
  | cons d rest ih =>
    simp only [UG_sync_blocks_flush_async]
    by_cases hd : d.dirty = true
    · by_cases hf : 0 ≤ d.block_fd ∨ d.flushing = true
      · have hdue : flush_due d = false := by
          rcases hf with hf | hf
          · simp [flush_due, hd, hf]
          · simp [flush_due, hd, hf]
        simp only [hd, hf, hdue, List.filter_cons]
        simpa using ih
      · have hdue : flush_due d = true := by
          have h1 : d.block_fd < 0 := by
            by_contra hc
            exact hf (Or.inl (not_lt.mp hc))
          have h2 : d.flushing = false := by
            cases hfl : d.flushing
            · rfl
            · exact absurd (Or.inr hfl) hf
          simp [flush_due, hd, h1, h2]
        rw [UG_dirty_block_flush_async_due env d hf]
        simp only [hd, hf, hdue, List.filter_cons, flush_in_order]
        by_cases hrc : env.flush_async_rc (UG_dirty_block_id d) ≠ 0
        · simp [hrc]
        · have hrc0 : env.flush_async_rc (UG_dirty_block_id d) = 0 := by simpa using hrc
          have e1 := congrArg Prod.fst ih
          have e2 := congrArg Prod.snd ih
          simp only [] at e1 e2
          simp [hrc0, e1, e2]
    · have hd2 : d.dirty = false := by simpa using hd
      have hdue : flush_due d = false := by simp [flush_due, hd2]
      simp only [hd2, hdue, List.filter_cons]
      simpa using ih

/-- The flushes in order ask for a flush on a prefix of the blocks, on all
of them when no flush fails; a non-zero code is that of the flush asked for
last, and every flush before it returned 0. -/
theorem flush_in_order_calls (env : trim_env) (due : List UG_dirty_block) :
    (flush_in_order env due).2 <+: due.map UG_dirty_block_id ∧
    ((flush_in_order env due).1 = 0 → (flush_in_order env due).2 = due.map UG_dirty_block_id) ∧
    ((flush_in_order env due).1 ≠ 0 →
      ∃ started failed, (flush_in_order env due).2 = started ++ [failed] ∧
        env.flush_async_rc failed = (flush_in_order env due).1 ∧
        ∀ id ∈ started, env.flush_async_rc id = 0) := by
  induction due with
  | nil => simp [flush_in_order]
  | cons d rest ih =>
    obtain ⟨ih1, ih2, ih3⟩ := ih
    simp only [flush_in_order]
    by_cases hrc : env.flush_async_rc (UG_dirty_block_id d) ≠ 0
    · rw [if_pos hrc]
      refine ⟨?_, fun h => absurd h hrc, fun _ => ⟨[], UG_dirty_block_id d, rfl, rfl, ?_⟩⟩
      · simp only [List.map_cons]
        exact ⟨rest.map UG_dirty_block_id, rfl⟩
      · intro id hid
        cases hid
    · rw [if_neg hrc]
      have hrc0 : env.flush_async_rc (UG_dirty_block_id d) = 0 := by simpa using hrc
      refine ⟨?_, ?_, ?_⟩
      · simp only [List.map_cons]
        obtain ⟨t, ht⟩ := ih1
        exact ⟨t, by simp [← ht]⟩
      · intro h
        simp only [List.map_cons]
        rw [ih2 h]
      · intro h
        obtain ⟨started, failed, e1, e2, e3⟩ := ih3 h
        refine ⟨UG_dirty_block_id d :: started, failed, ?_, e2, ?_⟩
        · simp only [e1, List.cons_append]
        · intro id hid
          rcases List.mem_cons.mp hid with rfl | hid
          · exact hrc0
          · exact e3 id hid

/-- Every block `UG_sync_blocks_flush_async` calls the flush on is a block of
the map a flush is due on. -/
theorem UG_sync_blocks_flush_async_called (env : trim_env) (blocks : List UG_dirty_block)
    (id : Nat) (h : id ∈ (UG_sync_blocks_flush_async env blocks).2.2) :
    ∃ d ∈ blocks, UG_dirty_block_id d = id ∧ flush_due d = true := by
  have e := congrArg Prod.snd (UG_sync_blocks_flush_async_in_order env blocks)
  simp only [] at e
  rw [e] at h
  have hp := (flush_in_order_calls env (blocks.filter flush_due)).1
  have hm := hp.subset h
  obtain ⟨d, hd, hid⟩ := List.mem_map.mp hm
  have hf := List.mem_filter.mp hd
  exact ⟨d, hf.1, hid, hf.2⟩

/-- The blocks after `UG_sync_blocks_flush_async` are the blocks before, with
their ids and staging descriptors. -/
theorem UG_sync_blocks_flush_async_blocks (env : trim_env) (blocks : List UG_dirty_block) :
    ∀ d1 ∈ (UG_sync_blocks_flush_async env blocks).2.1,
      ∃ d ∈ blocks, UG_dirty_block_id d1 = UG_dirty_block_id d ∧ d1.block_fd = d.block_fd := by
  induction blocks with
  | nil =>
    intro d1 h
    simp [UG_sync_blocks_flush_async] at h
  | cons d rest ih =>
    intro d1 h
    have htail : ∀ x ∈ (UG_sync_blocks_flush_async env rest).2.1,
        ∃ y ∈ d :: rest, UG_dirty_block_id x = UG_dirty_block_id y ∧ x.block_fd = y.block_fd := by
      intro x hx
      obtain ⟨y, hy, e⟩ := ih x hx
      exact ⟨y, List.mem_cons_of_mem _ hy, e⟩
    simp only [UG_sync_blocks_flush_async] at h
    split at h
    · rcases List.mem_cons.mp h with rfl | h
      · exact ⟨d1, List.mem_cons_self _ _, rfl, rfl⟩
      · exact htail d1 h
    · split at h
      · rcases List.mem_cons.mp h with rfl | h
        · exact ⟨d1, List.mem_cons_self _ _, rfl, rfl⟩
        · exact htail d1 h
      · rename_i hf
        rw [UG_dirty_block_flush_async_due env d hf] at h
        by_cases hrc : env.flush_async_rc (UG_dirty_block_id d) ≠ 0
        · simp only [hrc, if_true, ne_eq, not_false_eq_true] at h
          rcases List.mem_cons.mp h with rfl | h
          · exact ⟨d1, List.mem_cons_self _ _, rfl, rfl⟩
          · exact ⟨d1, List.mem_cons_of_mem _ h, rfl, rfl⟩
        · have hrc0 : env.flush_async_rc (UG_dirty_block_id d) = 0 := by simpa using hrc
          simp only [hrc0, ne_eq, not_true_eq_false, if_false] at h
          rcases List.mem_cons.mp h with rfl | h
          · exact ⟨d, List.mem_cons_self _ _, rfl, rfl⟩
          · exact htail d1 h

/-- In a map with its keys in order, a block whose flush was started by
`UG_sync_blocks_flush_async` is flushing afterwards. -/
theorem UG_sync_blocks_flush_async_started (env : trim_env) (id : Nat)
    (hrc : env.flush_async_rc id = 0) (blocks : List UG_dirty_block)
    (hs : map_sorted blocks)
    (h : id ∈ (UG_sync_blocks_flush_async env blocks).2.2) :
    ∀ d1 ∈ (UG_sync_blocks_flush_async env blocks).2.1,
      UG_dirty_block_id d1 = id → d1.flushing = true := by
  induction blocks with
  | nil => simp [UG_sync_blocks_flush_async] at h
  | cons d rest ih =>
    have hp := List.pairwise_cons.mp hs
    have hlt : ∀ x ∈ rest, UG_dirty_block_id d < UG_dirty_block_id x := hp.1
    have htail_ids : ∀ x ∈ (UG_sync_blocks_flush_async env rest).2.1,
        UG_dirty_block_id d < UG_dirty_block_id x := by
      intro x hx
      obtain ⟨y, hy, e, _⟩ := UG_sync_blocks_flush_async_blocks env rest x hx
      rw [e]
      exact hlt y hy
    have hskip : id ∈ (UG_sync_blocks_flush_async env rest).2.2 →
        ∀ d1 ∈ d :: (UG_sync_blocks_flush_async env rest).2.1,
          UG_dirty_block_id d1 = id → d1.flushing = true := by
      intro hin d1 hd1 hid
      rcases List.mem_cons.mp hd1 with rfl | hd1
      · exfalso
        obtain ⟨x, hx, ex, _⟩ := UG_sync_blocks_flush_async_called env rest id hin
        have := hlt x hx
        omega
      · exact ih hp.2 hin d1 hd1 hid
    simp only [UG_sync_blocks_flush_async] at h ⊢
    split
    · rename_i c
      rw [if_pos c] at h
      exact hskip h
    · rename_i c
      rw [if_neg c] at h
      split
      · rename_i c2
        rw [if_pos c2] at h
        exact hskip h
      · rename_i hf
        rw [if_neg hf] at h
        rw [UG_dirty_block_flush_async_due env d hf] at h ⊢
        by_cases hrcd : env.flush_async_rc (UG_dirty_block_id d) ≠ 0
        · simp only [hrcd, if_true, ne_eq, not_false_eq_true] at h ⊢
          exfalso
          have e : id = UG_dirty_block_id d := by simpa using h
          rw [e] at hrc
          exact hrcd hrc
        · have hrc0 : env.flush_async_rc (UG_dirty_block_id d) = 0 := by simpa using hrcd
          simp only [hrc0, ne_eq, not_true_eq_false, if_false] at h ⊢
          intro d1 hd1 hid
          rcases List.mem_cons.mp hd1 with rfl | hd1
          · rfl
          · rcases List.mem_cons.mp h with e | hin
            · exfalso
              have := htail_ids d1 hd1
              omega
            · exact ih hp.2 hin d1 hd1 hid

/-- C37. Blocks are flushed at most once: for a dirty-block map with its keys
in order, `UG_sync_blocks_flush_async` calls the flush on the blocks that are
dirty, have no staging descriptor and are not flushing, in map order, one
after the other until the first flush that fails, and returns the code of
that flush (`0` when none fails). A second call on the map the first call
left (in any environment) calls the flush on no block whose flush the first
call started and on no block that has a staging descriptor. -/
theorem flush_async_once (env : trim_env) (blocks : List UG_dirty_block)
    (hsorted : map_sorted blocks) :
    ((UG_sync_blocks_flush_async env blocks).1, (UG_sync_blocks_flush_async env blocks).2.2)
      = flush_in_order env (blocks.filter flush_due) ∧
    (UG_sync_blocks_flush_async env blocks).2.2
      <+: (blocks.filter flush_due).map UG_dirty_block_id ∧
    ((UG_sync_blocks_flush_async env blocks).1 = 0 →
      (UG_sync_blocks_flush_async env blocks).2.2
        = (blocks.filter flush_due).map UG_dirty_block_id) ∧
    ((UG_sync_blocks_flush_async env blocks).1 ≠ 0 →
      ∃ started failed, (UG_sync_blocks_flush_async env blocks).2.2 = started ++ [failed] ∧
        env.flush_async_rc failed = (UG_sync_blocks_flush_async env blocks).1 ∧
        ∀ id ∈ started, env.flush_async_rc id = 0) ∧
    ∀ (env2 : trim_env) (id : Nat),
      id ∈ (UG_sync_blocks_flush_async env2 (UG_sync_blocks_flush_async env blocks).2.1).2.2 →
      ¬ (id ∈ (UG_sync_blocks_flush_async env blocks).2.2 ∧ env.flush_async_rc id = 0) ∧
      ∀ d ∈ blocks, UG_dirty_block_id d = id → d.block_fd < 0 := by
  have href := UG_sync_blocks_flush_async_in_order env blocks
  have e1 : (UG_sync_blocks_flush_async env blocks).1
      = (flush_in_order env (blocks.filter flush_due)).1 := congrArg Prod.fst href
  have e2 : (UG_sync_blocks_flush_async env blocks).2.2
      = (flush_in_order env (blocks.filter flush_due)).2 := congrArg Prod.snd href
  obtain ⟨p1, p2, p3⟩ := flush_in_order_calls env (blocks.filter flush_due)
  refine ⟨href, ?_, ?_, ?_, ?_⟩
  · rw [e2]; exact p1
  · rw [e1, e2]; exact p2
  · rw [e1, e2]; exact p3
  · intro env2 id hid
    obtain ⟨d1, hd1, hid1, hdue1⟩ := UG_sync_blocks_flush_async_called env2 _ id hid
    have hdue : d1.dirty = true ∧ d1.block_fd < 0 ∧ d1.flushing = false := by
      simpa [flush_due, and_assoc] using hdue1
    refine ⟨?_, ?_⟩
    · rintro ⟨hin, hrc⟩
      have := UG_sync_blocks_flush_async_started env id hrc blocks hsorted hin d1 hd1 hid1
      rw [hdue.2.2] at this
      cases this
    · intro d hd hdid
      obtain ⟨d0, hd0, eid, efd⟩ := UG_sync_blocks_flush_async_blocks env blocks d1 hd1
      have f1 := map_find_of_mem_sorted blocks d hsorted hd
      have f0 := map_find_of_mem_sorted blocks d0 hsorted hd0
      have hsame : has_block_id.id_of d = has_block_id.id_of d0 := by
        show UG_dirty_block_id d = UG_dirty_block_id d0
        rw [hdid, ← eid, hid1]
      rw [hsame, f0] at f1
      have : d0 = d := Option.some.inj f1
      rw [← this, ← efd]
      exact hdue.2.1

/-- The theorem `flush_async_once` at a snapshot of five blocks of which the
blocks 0 and 4 are due: the first call starts their flushes, the second call
starts none. -/
theorem flush_async_once_witness :
    map_sorted five_blocks ∧
    (UG_sync_blocks_flush_async quiet_trim five_blocks).2.2 = [0, 4] ∧
    (UG_sync_blocks_flush_async quiet_trim
      (UG_sync_blocks_flush_async quiet_trim five_blocks).2.1).2.2 = [] ∧
    ((UG_sync_blocks_flush_async quiet_trim five_blocks).1,
        (UG_sync_blocks_flush_async quiet_trim five_blocks).2.2)
      = flush_in_order quiet_trim (five_blocks.filter flush_due) :=
  ⟨by decide, by decide, by decide, (flush_async_once quiet_trim five_blocks (by decide)).1⟩

end Syndicate
